import Mathlib

/-!
# Verification of the HTML Component Extraction & Restoration Engine

Shallow embedding of `editorQuillBlot.js` (the engine specified by `spec.md`):
the extraction pipeline (`extractComponents`, `extractStyledDivs`), the
restoration pipeline (`restoreComponents`), the component registry and its
public operations (`updateComponentDisplay`, `insertComponent`, `getRegistry`,
`getRegistryCount`), and the dialect converter
(`convertToStandardHtml` with its sub-transforms, in particular
`convertAlignmentClasses`, `convertSizeClasses` and `convertIndentedLists`).

Strings are modelled as `List Char`.  The source drives its pattern matchers
with JavaScript regular expressions; these are embedded as pattern ASTs
(`RElem`) interpreted by a backtracking matcher (`matchSeq`) that mirrors
JS semantics for the constructs the source uses: case-insensitive literals
(`/i` flag), greedy and lazy character-class stars, `+`, `?`, ordered
alternation, and a single capturing group.  `String.prototype.replace` with a
global regex is embedded as a left-to-right non-overlapping scan
(`replaceSt`), and `RegExp.exec` as leftmost-match search (`execFind`).

`generateUUID` draws on `Math.random`; identifiers are modelled as a
deterministic fresh supply (`idString` of a counter), which preserves the one
property the engine relies on: ids are collision-free within a registry's
lifetime.  Timestamps (`new Date().toISOString()`) are informational only and
are modelled as the value of the same counter.
-/

/-- Convert a Lean string literal to the `List Char` representation. -/
def lc (s : String) : List Char := s.data

/-- ASCII lowercasing, as used by JS case-insensitive regex matching
and `String.prototype.toLowerCase` on the tag names that occur here. -/
def lowc (c : Char) : Char := c.toLower

/-- JS `\s` on the ASCII range (the source only ever feeds it ASCII HTML). -/
def isWs (c : Char) : Bool :=
  c = ' ' || c = '\t' || c = '\n' || c = '\r' || c = '\x0b' || c = '\x0c'

/-- The `[0-9a-f]` class under the `/i` flag. -/
def isHexI (c : Char) : Bool :=
  c.isDigit || (lowc c = 'a') || (lowc c = 'b') || (lowc c = 'c') ||
  (lowc c = 'd') || (lowc c = 'e') || (lowc c = 'f')

/-- `[^>]`. -/
def notGt (c : Char) : Bool := c ≠ '>'

/-- `[^"]`. -/
def notQuote (c : Char) : Bool := c ≠ '"'

/-- `[\s\S]` — any character. -/
def anyc (_ : Char) : Bool := true

/-- One element of an embedded regular expression. -/
inductive RElem where
  /-- a literal string -/
  | lit (l : List Char)
  /-- greedy `[p]*` -/
  | star (p : Char → Bool)
  /-- lazy `[p]*?` -/
  | lazyStar (p : Char → Bool)
  /-- a single `[p]` -/
  | one (p : Char → Bool)
  /-- greedy `[p]?` -/
  | opt (p : Char → Bool)
  /-- greedy `[p]+` -/
  | plus (p : Char → Bool)
  /-- greedy capturing `([p]+)` -/
  | cap (p : Char → Bool)
  /-- ordered alternation `(?:a|b|c)` -/
  | alt3 (a b c : List RElem)

/-- Case-insensitive (or sensitive, per `ci`) literal-prefix test. -/
def startsWithL (ci : Bool) : List Char → List Char → Bool
  | [], _ => true
  | _ :: _, [] => false
  | l :: ls, c :: cs =>
      (if ci then lowc c = lowc l else c = l) && startsWithL ci ls cs

/-- Length of the maximal prefix satisfying `p`. -/
def runLen (p : Char → Bool) : List Char → Nat
  | [] => 0
  | c :: cs => if p c then runLen p cs + 1 else 0

mutual

/-- Size measure for the well-founded recursion of the matcher. -/
def rsize : RElem → Nat
  | .lit _ => 1
  | .star _ => 1
  | .lazyStar _ => 1
  | .one _ => 1
  | .opt _ => 1
  | .plus _ => 1
  | .cap _ => 1
  | .alt3 a b c => 1 + rsizeL a + rsizeL b + rsizeL c

/-- Size of a pattern (sequence of elements). -/
def rsizeL : List RElem → Nat
  | [] => 0
  | e :: es => rsize e + rsizeL es

end

theorem rsizeL_append (a b : List RElem) :
    rsizeL (a ++ b) = rsizeL a + rsizeL b := by
  induction a with
  | nil => simp [rsizeL]
  | cons e es ih => simp [rsizeL, ih]; omega

theorem rsize_pos (e : RElem) : 1 ≤ rsize e := by
  cases e <;> simp [rsize] <;> omega

mutual

/-- Backtracking matcher: given a pattern and an input, return the length of
the prefix matched (with the value of the capturing group, if any), following
the JS engine's strategy: literals and single classes are deterministic, greedy
repetitions try the longest repetition first, lazy ones the shortest, and
alternatives are tried left to right.  Returns `none` when the pattern does not
match at the head of the input. -/
def matchSeq (ci : Bool) : (ps : List RElem) → List Char → Option (Nat × Option (List Char))
  | [], _ => some (0, none)
  | .lit l :: ps, s =>
      if startsWithL ci l s then
        (matchSeq ci ps (s.drop l.length)).map (fun r => (r.1 + l.length, r.2))
      else none
  | .one p :: ps, s =>
      match s with
      | [] => none
      | c :: t =>
          if p c then (matchSeq ci ps t).map (fun r => (r.1 + 1, r.2)) else none
  | .opt p :: ps, s =>
      match s with
      | [] => matchSeq ci ps []
      | c :: t =>
          if p c then
            match matchSeq ci ps t with
            | some r => some (r.1 + 1, r.2)
            | none => matchSeq ci ps (c :: t)
          else matchSeq ci ps (c :: t)
  | .star p :: ps, s => tryDesc ci ps s (runLen p s)
  | .plus p :: ps, s =>
      match runLen p s with
      | 0 => none
      | r + 1 => tryDescPos ci ps s (r + 1)
  | .cap p :: ps, s =>
      match runLen p s with
      | 0 => none
      | r + 1 => tryDescCap ci ps s (r + 1)
  | .lazyStar p :: ps, s => tryAsc ci ps s 0 (runLen p s)
  | .alt3 a b c :: ps, s =>
      (matchSeq ci (a ++ ps) s).orElse (fun _ =>
        (matchSeq ci (b ++ ps) s).orElse (fun _ => matchSeq ci (c ++ ps) s))
termination_by ps _ => (rsizeL ps, 0)
decreasing_by
  all_goals apply Prod.Lex.left
  all_goals simp only [rsizeL, rsizeL_append, rsize]
  all_goals omega

/-- Greedy repetition: try consuming `k` characters, then `k-1`, … down to 0. -/
def tryDesc (ci : Bool) (ps : List RElem) (s : List Char) (k : Nat) :
    Option (Nat × Option (List Char)) :=
  match matchSeq ci ps (s.drop k) with
  | some r => some (r.1 + k, r.2)
  | none =>
      match k with
      | 0 => none
      | k' + 1 => tryDesc ci ps s k'
termination_by (rsizeL ps, k + 1)
decreasing_by
  all_goals simp_wf
  all_goals apply Prod.Lex.right
  all_goals omega

/-- Greedy repetition bounded below by one (`+`). -/
def tryDescPos (ci : Bool) (ps : List RElem) (s : List Char) (k : Nat) :
    Option (Nat × Option (List Char)) :=
  match k with
  | 0 => none
  | k' + 1 =>
      match matchSeq ci ps (s.drop (k' + 1)) with
      | some r => some (r.1 + (k' + 1), r.2)
      | none => tryDescPos ci ps s k'
termination_by (rsizeL ps, k + 1)
decreasing_by
  all_goals simp_wf
  all_goals apply Prod.Lex.right
  all_goals omega

/-- Greedy capturing repetition bounded below by one: the consumed prefix
becomes the capture (an inner capture, were there one, would win in JS;
the patterns used here have a single group). -/
def tryDescCap (ci : Bool) (ps : List RElem) (s : List Char) (k : Nat) :
    Option (Nat × Option (List Char)) :=
  match k with
  | 0 => none
  | k' + 1 =>
      match matchSeq ci ps (s.drop (k' + 1)) with
      | some r => some (r.1 + (k' + 1), some (r.2.getD (s.take (k' + 1))))
      | none => tryDescCap ci ps s k'
termination_by (rsizeL ps, k + 1)
decreasing_by
  all_goals simp_wf
  all_goals apply Prod.Lex.right
  all_goals omega

/-- Lazy repetition: try consuming `lo` characters, then `lo+1`, … with
`left` further attempts remaining. -/
def tryAsc (ci : Bool) (ps : List RElem) (s : List Char) (lo left : Nat) :
    Option (Nat × Option (List Char)) :=
  match matchSeq ci ps (s.drop lo) with
  | some r => some (r.1 + lo, r.2)
  | none =>
      match left with
      | 0 => none
      | left' + 1 => tryAsc ci ps s (lo + 1) left'
termination_by (rsizeL ps, left + 1)
decreasing_by
  all_goals simp_wf
  all_goals apply Prod.Lex.right
  all_goals omega

end

/-- Leftmost-match search, the embedding of `RegExp.exec` (no `g` flag):
returns the first index at which the pattern matches, together with the length
of the match and the capture. -/
def execFind (ci : Bool) (pat : List RElem) : List Char → Option (Nat × Nat × Option (List Char))
  | [] =>
      match matchSeq ci pat [] with
      | some r => some (0, r.1, r.2)
      | none => none
  | c :: t =>
      match matchSeq ci pat (c :: t) with
      | some r => some (0, r.1, r.2)
      | none => (execFind ci pat t).map (fun r => (r.1 + 1, r.2))

/-- The embedding of `String.prototype.replace` with a global regex and a
(stateful, for the registry side effects) replacement callback: scan left to
right, replace each non-overlapping match by `f st matched capture`, continue
after the match.  The patterns used by the source can never match the empty
string; should one do so, the character under scrutiny is kept and scanning
advances, which coincides with JS `lastIndex` advancement for our patterns. -/
def replaceSt {σ : Type} (ci : Bool) (pat : List RElem)
    (f : σ → List Char → Option (List Char) → σ × List Char) :
    σ → List Char → σ × List Char
  | st, [] => (st, [])
  | st, c :: t =>
      match matchSeq ci pat (c :: t) with
      | some r =>
          if h : r.1 = 0 then
            let (st', out) := replaceSt ci pat f st t
            (st', c :: out)
          else
            let (st1, rep) := f st ((c :: t).take r.1) r.2
            let (st2, out) := replaceSt ci pat f st1 ((c :: t).drop r.1)
            (st2, rep ++ out)
      | none =>
          let (st', out) := replaceSt ci pat f st t
          (st', c :: out)
termination_by _ s => s.length
decreasing_by
  all_goals simp only [List.length_drop, List.length_cons]
  all_goals omega

/-! ## The patterns of `editorQuillBlot.js`, translated regex by regex. -/

/-- `TABLE_PATTERN = /<table[\s\S]*?<\/table>/gi` -/
def tablePat : List RElem :=
  [.lit (lc "<table"), .lazyStar anyc, .lit (lc "</table>")]

/-- `HR_PATTERN = /<hr\s+[^>]*style="[^"]*"[^>]*\/?>/gi` -/
def hrPat : List RElem :=
  [.lit (lc "<hr"), .plus isWs, .star notGt, .lit (lc "style=\""),
   .star notQuote, .lit (lc "\""), .star notGt, .opt (fun c => c = '/'),
   .lit (lc ">")]

/-- `BLOCKQUOTE_PATTERN = /<blockquote\s+[^>]*style="[^"]*"[^>]*>[\s\S]*?<\/blockquote>/gi` -/
def blockquotePat : List RElem :=
  [.lit (lc "<blockquote"), .plus isWs, .star notGt, .lit (lc "style=\""),
   .star notQuote, .lit (lc "\""), .star notGt, .lit (lc ">"),
   .lazyStar anyc, .lit (lc "</blockquote>")]

/-- `STYLED_PRE_PATTERN = /<pre\s+[^>]*style="[^"]*"[^>]*>[\s\S]*?<\/pre>/gi` -/
def styledPrePat : List RElem :=
  [.lit (lc "<pre"), .plus isWs, .star notGt, .lit (lc "style=\""),
   .star notQuote, .lit (lc "\""), .star notGt, .lit (lc ">"),
   .lazyStar anyc, .lit (lc "</pre>")]

/-- `STYLED_DIV_START_PATTERN =
/<div\s+[^>]*style="[^"]*(?:display:\s*flex|background(?:-color)?:\s*(?:#[0-9a-f]|rgb)|border-radius:)[^"]*"[^>]*>/i`
(the optional `(?:-color)?` group is encoded as an alternation with the empty
sequence, duplicated to fill three branches). -/
def styledDivStartPat : List RElem :=
  [.lit (lc "<div"), .plus isWs, .star notGt, .lit (lc "style=\""),
   .star notQuote,
   .alt3 [.lit (lc "display:"), .star isWs, .lit (lc "flex")]
         [.lit (lc "background"), .alt3 [.lit (lc "-color")] [] [],
          .lit (lc ":"), .star isWs,
          .alt3 [.lit (lc "#"), .one isHexI] [.lit (lc "rgb")] [.lit (lc "rgb")]]
         [.lit (lc "border-radius:")],
   .star notQuote, .lit (lc "\""), .star notGt, .lit (lc ">")]

/-- `/<div[\s>]/i`, the nested-div opening token used by the depth scan. -/
def divOpenTokPat : List RElem :=
  [.lit (lc "<div"), .one (fun c => isWs c || c = '>')]

/-- `/<\/div>/i`, the closing token used by the depth scan. -/
def divCloseTokPat : List RElem :=
  [.lit (lc "</div>")]

/-- `blotPattern =
/<div[^>]*class="ql-component-placeholder"[^>]*data-component-id="([^"]+)"[^>]*>[\s\S]*?<\/div>/gi`
used by `restoreComponents`. -/
def blotPat : List RElem :=
  [.lit (lc "<div"), .star notGt, .lit (lc "class=\"ql-component-placeholder\""),
   .star notGt, .lit (lc "data-component-id=\""), .cap notQuote,
   .lit (lc "\""), .star notGt, .lit (lc ">"), .lazyStar anyc,
   .lit (lc "</div>")]

/-! ## The component registry and the extraction / restoration pipelines. -/

/-- A registry entry, as built by the source: `{ type, html, preview,
displayMode, created }` (plus `modified` after a manual save, which no claim
touches).  `created` is an informational timestamp, modelled by the value of
the engine's id counter at creation time. -/
structure ComponentRecord where
  ctype : List Char
  html : List Char
  preview : List Char
  displayMode : List Char
  created : Nat
deriving DecidableEq, Repr

/-- `this._componentRegistry`: a JS object used as a map from component id to
record — embedded as an association list with object-like update (replace in
place if the key exists, append otherwise). -/
def Registry := List (List Char × ComponentRecord)

instance : DecidableEq Registry := inferInstanceAs (DecidableEq (List _))

/-- `reg[k]` (fetch). -/
def regGet (reg : Registry) (k : List Char) : Option ComponentRecord :=
  match reg with
  | [] => none
  | (k', v) :: rest => if k' = k then some v else regGet rest k

/-- `reg[k] = v` (store). -/
def regSet (reg : Registry) (k : List Char) (v : ComponentRecord) : Registry :=
  match reg with
  | [] => [(k, v)]
  | (k', v') :: rest =>
      if k' = k then (k', v) :: rest else (k', v') :: regSet rest k v

/-- The ids present in the registry, in order (`Object.keys`). -/
def regKeys (reg : Registry) : List (List Char) := reg.map Prod.fst

/-- The engine state an extraction call runs against: the registry it mutates,
the fresh-id supply standing in for `generateUUID`, and
`this._defaultDisplayMode`. -/
structure EngineState where
  registry : Registry
  nextId : Nat
  defaultMode : List Char
deriving DecidableEq

/-- One decimal digit character. -/
def digitChar10 : Nat → Char
  | 0 => '0' | 1 => '1' | 2 => '2' | 3 => '3' | 4 => '4'
  | 5 => '5' | 6 => '6' | 7 => '7' | 8 => '8' | _ => '9'

/-- The decimal rendering of a natural number (fuel-structural; a number
always has at most `n + 1` digits). -/
def natCharsGo : Nat → Nat → List Char
  | 0, _ => []
  | fuel + 1, n =>
      if n < 10 then [digitChar10 n]
      else natCharsGo fuel (n / 10) ++ [digitChar10 (n % 10)]

/-- The decimal rendering of a natural number. -/
def natChars (n : Nat) : List Char := natCharsGo (n + 1) n

/-- The numeric value of a digit string (the `parseInt(_, 10)` of the
source, which only ever receives `\d+` captures). -/
def charsVal (l : List Char) : Nat :=
  l.foldl (fun a c => a * 10 + (c.toNat - 48)) 0

/-- The deterministic stand-in for `generateUUID()`: the decimal rendering of
the fresh-id counter (all identifier characters are digits). -/
def idString (n : Nat) : List Char := natChars n

/-- The placeholder markup emitted for an extracted component:
`<div class="ql-component-placeholder" data-component-id="${id}"
data-component-type="${ty}" data-display-mode="${mode}"></div>`. -/
def placeholderStr (id ty mode : List Char) : List Char :=
  lc "<div class=\"ql-component-placeholder\" data-component-id=\"" ++ id ++
  lc "\" data-component-type=\"" ++ ty ++
  lc "\" data-display-mode=\"" ++ mode ++ lc "\"></div>"

/-- The record built for every match (`type`, `html` = the exact matched
substring, `preview` = a copy of it, the default display mode, a creation
tick). -/
def freshRecord (ty matched mode : List Char) (tick : Nat) : ComponentRecord :=
  { ctype := ty, html := matched, preview := matched,
    displayMode := mode, created := tick }

/-- Extraction state threaded through the pipeline: engine state plus the
`newComponents` object of the current call. -/
structure ExtractSt where
  engine : EngineState
  newComps : Registry
deriving DecidableEq

/-- The replacement callback shared by the four regex-driven extractions in
`extractComponents`: allocate an id, store the record in both the registry and
`newComponents`, emit the placeholder. -/
def extractCallback (ty : List Char) (st : ExtractSt) (matched : List Char)
    (_ : Option (List Char)) : ExtractSt × List Char :=
  let id := idString st.engine.nextId
  let rec' := freshRecord ty matched st.engine.defaultMode st.engine.nextId
  (⟨⟨regSet st.engine.registry id rec', st.engine.nextId + 1,
     st.engine.defaultMode⟩, regSet st.newComps id rec'⟩,
   placeholderStr id ty st.engine.defaultMode)

/-- The inner `while (depth > 0 && pos < result.length)` depth scan of
`extractStyledDivs`: starting just past the opening tag, repeatedly find the
earlier of the next `<div` opening token and the next `</div>` closing token;
openings increment the depth (position advances one past the `<`), closings
decrement it (position advances past the tag).  Returns the end position of
the balanced span when the depth reaches 0, `none` when the loop breaks with
a positive depth (no closing token, or input exhausted). -/
def divScan (result : List Char) : Nat → Nat → Option Nat
  | depth, pos =>
    if hp : pos < result.length then
      let remaining := result.drop pos
      match execFind true divCloseTokPat remaining with
      | none => none
      | some (closeIdx, _, _) =>
          let openIdx : Option Nat := (execFind true divOpenTokPat remaining).map (·.1)
          if (match openIdx with
              | some oi => decide (oi < closeIdx)
              | none => false) then
            divScan result (depth + 1) (pos + openIdx.getD 0 + 1)
          else
            if depth = 1 then some (pos + closeIdx + 6)
            else divScan result (depth - 1) (pos + closeIdx + 6)
    else none
termination_by _ pos => result.length - pos
decreasing_by
  all_goals omega

/-- The body of `extractStyledDivs`' outer `while (changed)` loop: find the
first styled-div heuristic match, run the depth scan from the end of its
opening tag; on success record a `STYLED_DIV` component and splice the
placeholder over the balanced span, then repeat on the whole result; when the
heuristic finds nothing, or the depth scan aborts, stop with the text
unmodified (the loop's `changed` flag stays false).  The explicit fuel makes
the loop total; each successful iteration removes one occurrence of the
substring `style="` (the placeholder contains none and splicing cannot create
one across a boundary, since the placeholder starts with `<` and ends with
`>`, neither of which occurs in `style="`), so `html.length + 1` fuel is never
exhausted on the runs the theorems below evaluate. -/
def extractStyledDivsGo : Nat → ExtractSt → List Char → ExtractSt × List Char
  | 0, st, result => (st, result)
  | fuel + 1, st, result =>
    match execFind true styledDivStartPat result with
    | none => (st, result)
    | some (idx, len, _) =>
        match divScan result 1 (idx + len) with
        | none => (st, result)
        | some endPos =>
            let fullDiv := (result.take endPos).drop idx
            let id := idString st.engine.nextId
            let rec' := freshRecord (lc "STYLED_DIV") fullDiv
                st.engine.defaultMode st.engine.nextId
            let st' : ExtractSt :=
              ⟨⟨regSet st.engine.registry id rec', st.engine.nextId + 1,
                st.engine.defaultMode⟩, regSet st.newComps id rec'⟩
            let result' := result.take idx ++
                placeholderStr id (lc "STYLED_DIV") st.engine.defaultMode ++
                result.drop endPos
            extractStyledDivsGo fuel st' result'

/-- `extractStyledDivs(html, newComponents)`. -/
def extractStyledDivs (st : ExtractSt) (html : List Char) :
    ExtractSt × List Char :=
  extractStyledDivsGo (html.length + 1) st html

/-- `extractComponents(html)`: styled divs first, then styled `pre` blocks,
styled blockquotes, tables, styled horizontal rules — each stage a global
regex replace over the output of the previous one.  Returns the mutated
engine state, the processed html, and the `newComponents` of this call. -/
def extractComponents (st : EngineState) (html : List Char) :
    EngineState × List Char × Registry :=
  if html = [] then (st, [], [])
  else
    let s0 : ExtractSt := ⟨st, []⟩
    let r1 := extractStyledDivs s0 html
    let r2 := replaceSt true styledPrePat (extractCallback (lc "CODE_BLOCK")) r1.1 r1.2
    let r3 := replaceSt true blockquotePat (extractCallback (lc "BLOCKQUOTE")) r2.1 r2.2
    let r4 := replaceSt true tablePat (extractCallback (lc "TABLE")) r3.1 r3.2
    let r5 := replaceSt true hrPat (extractCallback (lc "HR")) r4.1 r4.2
    (r5.1.engine, r5.2, r5.1.newComps)

/-- The visible marker substituted for a placeholder whose id is unknown:
`<!-- Missing component: ${id} -->`. -/
def missingMarker (id : List Char) : List Char :=
  lc "<!-- Missing component: " ++ id ++ lc " -->"

/-- The replacement callback of `restoreComponents`: known ids are replaced
by the registry entry's `html` verbatim, unknown ids by the missing-component
marker.  The capture is always present when `blotPat` matches (its group is
mandatory); the `none` branch is unreachable and keeps the match unchanged. -/
def restoreCallback (reg : Registry) (_ : Unit) (matched : List Char)
    (cap : Option (List Char)) : Unit × List Char :=
  ((), match cap with
      | some id =>
          match regGet reg id with
          | some c => c.html
          | none => missingMarker id
      | none => matched)

/-- `restoreComponents(html)` against a given registry state. -/
def restoreComponents (reg : Registry) (html : List Char) : List Char :=
  if html = [] then []
  else (replaceSt true blotPat (restoreCallback reg) () html).2

/-! ## Concrete inputs used by the claim theorems. -/

/-- A fresh engine: empty registry (`setContent` clears it before
extracting), fresh id supply, and the default display mode `'preview'`
(`_defaultDisplayMode = 'preview'`). -/
def engine0 : EngineState := ⟨[], 0, lc "preview"⟩

/-- The input of the depth-correctness property:
`<div style="display:flex"><div>inner</div><div>inner2</div></div>`. -/
def c4input : List Char :=
  lc "<div style=\"display:flex\"><div>inner</div><div>inner2</div></div>"

/-- A styled-div opening whose `style` attribute value is never closed by a
quote; the styled-div heuristic finds no match in it, but the table inside is
extracted, and the resulting placeholder supplies the quote, `>` and `</div>`
that make a second extraction pass match. -/
def c3input : List Char := lc "<div style=\"display:flex<table>x</table>"

/-- The first extraction pass over `c3input`. -/
def c3once : EngineState × List Char × Registry := extractComponents engine0 c3input

/-- The second extraction pass, run on the processed output of the first. -/
def c3twice : EngineState × List Char × Registry :=
  extractComponents c3once.1 c3once.2.1

/-- An unterminated styled-div opening: its depth scan consumes every later
`</div>` and never reaches depth 0. -/
def c5u : List Char := lc "<div style=\"display:flex\">"

/-- A complete styled-div span, extracted when presented on its own. -/
def c5w : List Char := lc "<div style=\"display:flex\">B</div>"

/-- A placeholder-like div that is never closed, followed by a complete,
well-formed placeholder for id `b`: the lazy `[\s\S]*?<\/div>` of the
restoration pattern lets the first (unterminated) placeholder's match swallow
the second placeholder whole. -/
def c2bad : List Char :=
  lc "<div class=\"ql-component-placeholder\" data-component-id=\"a\">" ++
  placeholderStr (lc "b") (lc "TABLE") (lc "preview")

/-! ## The DOM model for the dialect converter

`convertToStandardHtml` parses its input into a detached `<div>` via
`temp.innerHTML = html` (the browser's parser — an external collaborator),
mutates the resulting tree with `querySelectorAll` / `classList` /
`style` / `appendChild` operations, and returns `temp.innerHTML` (the
serialization).  The embedding works over the parsed tree: a store of
addressed nodes (`Dom`), so that `appendChild`'s reparenting and its
`HierarchyRequestError` are modelled faithfully. -/

inductive DNode where
  | elem (tag : List Char) (attrs : List (List Char × List Char)) (kids : List Nat)
  | text (s : List Char)
deriving DecidableEq, Repr

/-- A DOM tree as a node store: tags are kept in their canonical uppercase
(`tagName`) form; attributes are an ordered association list (insertion
order, as serialized by `innerHTML`). -/
structure Dom where
  nodes : List (Nat × DNode)
  nextAddr : Nat
deriving DecidableEq, Repr

/-- `DOMException` outcomes of the modelled operations. -/
inductive DomErr where
  | hierarchyRequest
deriving DecidableEq, Repr

def getN (d : Dom) (i : Nat) : Option DNode :=
  (d.nodes.find? (fun p => p.1 = i)).map (·.2)

def setN (d : Dom) (i : Nat) (n : DNode) : Dom :=
  ⟨d.nodes.map (fun p => if p.1 = i then (p.1, n) else p), d.nextAddr⟩

def tagN (d : Dom) (i : Nat) : List Char :=
  match getN d i with
  | some (.elem t _ _) => t
  | _ => []

def attrsN (d : Dom) (i : Nat) : List (List Char × List Char) :=
  match getN d i with
  | some (.elem _ a _) => a
  | _ => []

def kidsN (d : Dom) (i : Nat) : List Nat :=
  match getN d i with
  | some (.elem _ _ k) => k
  | _ => []

def isElemN (d : Dom) (i : Nat) : Bool :=
  match getN d i with
  | some (.elem _ _ _) => true
  | _ => false

def getAttr (d : Dom) (i : Nat) (name : List Char) : Option (List Char) :=
  ((attrsN d i).find? (fun p => p.1 = name)).map (·.2)

def setAttr (d : Dom) (i : Nat) (name v : List Char) : Dom :=
  match getN d i with
  | some (.elem t a k) =>
      let a' := if a.any (·.1 = name)
        then a.map (fun p => if p.1 = name then (name, v) else p)
        else a ++ [(name, v)]
      setN d i (.elem t a' k)
  | _ => d

def removeAttr (d : Dom) (i : Nat) (name : List Char) : Dom :=
  match getN d i with
  | some (.elem t a k) => setN d i (.elem t (a.filter (·.1 ≠ name)) k)
  | _ => d

/-- Split an attribute value on whitespace, dropping empty fragments. -/
def splitTok : List Char → List (List Char)
  | [] => []
  | c :: cs =>
      if isWs c then splitTok cs
      else
        match splitTok cs with
        | [] => [[c]]
        | t :: ts => if cs.head?.all (fun c2 => !isWs c2) then (c :: t) :: ts else [c] :: t :: ts

/-- First-occurrence deduplication (a `DOMTokenList` is an ordered set). -/
def uniqToksGo (seen : List (List Char)) : List (List Char) → List (List Char)
  | [] => []
  | t :: ts =>
      if seen.contains t then uniqToksGo seen ts
      else t :: uniqToksGo (t :: seen) ts

/-- The ordered token set of an attribute value. -/
def uniqToks (l : List (List Char)) : List (List Char) := uniqToksGo [] l

/-- Join class tokens with single spaces (`DOMTokenList` serialization). -/
def joinTok : List (List Char) → List Char
  | [] => []
  | [t] => t
  | t :: ts => t ++ ' ' :: joinTok ts

/-- The element's class token set (`el.classList`). -/
def classToks (d : Dom) (i : Nat) : List (List Char) :=
  uniqToks (splitTok ((getAttr d i (lc "class")).getD []))

/-- `el.classList.length`. -/
def classListLen (d : Dom) (i : Nat) : Nat := (classToks d i).length

/-- `el.classList.contains(tok)` (used for `.cls` selectors). -/
def hasClassTok (d : Dom) (i : Nat) (tok : List Char) : Bool :=
  (classToks d i).contains tok

/-- `el.classList.remove(tok)`: drop the token from the ordered set and
re-serialize the `class` attribute (to the empty string when the set empties);
when the attribute is absent and the set is empty, do nothing. -/
def classListRemove (d : Dom) (i : Nat) (tok : List Char) : Dom :=
  match getAttr d i (lc "class") with
  | none => d
  | some v => setAttr d i (lc "class") (joinTok ((uniqToks (splitTok v)).filter (· ≠ tok)))

/-- Preorder traversal of the descendants reachable from a worklist of
subtree roots (document order, as `querySelectorAll` enumerates). -/
def collectDesc (d : Dom) : Nat → List Nat → List Nat
  | 0, _ => []
  | _ + 1, [] => []
  | fuel + 1, i :: rest =>
      match getN d i with
      | some (.elem _ _ kids) => i :: collectDesc d fuel (kids ++ rest)
      | _ => i :: collectDesc d fuel rest

/-- `container.querySelectorAll(sel)` for the selectors the source uses:
the descendants of `container` in document order, filtered by a predicate. -/
def querySelAll (d : Dom) (container : Nat) (p : Dom → Nat → Bool) : List Nat :=
  (collectDesc d (d.nodes.length + 1) (kidsN d container)).filter (p d)

/-- Whether `b` lies in the subtree rooted at `a` (inclusive) — the
containment check behind `appendChild`'s hierarchy error. -/
def containsNode (d : Dom) : Nat → Nat → Nat → Bool
  | 0, _, _ => false
  | fuel + 1, a, b => a = b || (kidsN d a).any (fun k => containsNode d fuel k b)

/-- `node.parentElement`. -/
def parentOf (d : Dom) (i : Nat) : Option Nat :=
  (d.nodes.find? (fun p =>
    match p.2 with
    | .elem _ _ kids => kids.contains i
    | _ => false)).map (·.1)

/-- Remove `c` from every child list (a node has one parent; this detaches
it). -/
def detach (d : Dom) (c : Nat) : Dom :=
  ⟨d.nodes.map (fun p =>
    match p.2 with
    | .elem t a kids => (p.1, .elem t a (kids.filter (· ≠ c)))
    | n => (p.1, n)), d.nextAddr⟩

/-- `parent.appendChild(child)`: `HierarchyRequestError` when `child`
contains `parent`; otherwise detach `child` from its current parent and
append it to `parent`'s children. -/
def appendChild (d : Dom) (parent child : Nat) : Except DomErr Dom :=
  if containsNode d (d.nodes.length + 1) child parent then
    .error .hierarchyRequest
  else
    let d' := detach d child
    match getN d' parent with
    | some (.elem t a kids) => .ok (setN d' parent (.elem t a (kids ++ [child])))
    | _ => .ok d'

def upperL (l : List Char) : List Char := l.map Char.toUpper

def lowerL (l : List Char) : List Char := l.map Char.toLower

/-- `document.createElement(tag)`: a fresh element (canonical uppercase
`tagName`), initially unattached. -/
def createElement (d : Dom) (tag : List Char) : Dom × Nat :=
  (⟨d.nodes ++ [(d.nextAddr, .elem (upperL tag) [] [])], d.nextAddr + 1⟩, d.nextAddr)

/-- `el.lastElementChild`. -/
def lastElemChild (d : Dom) (i : Nat) : Option Nat :=
  ((kidsN d i).filter (isElemN d)).getLast?

/-- Trim surrounding whitespace. -/
def trimWs (l : List Char) : List Char :=
  ((l.dropWhile isWs).reverse.dropWhile isWs).reverse

/-- Split on a separator character. -/
def splitOnCh (sep : Char) (l : List Char) : List (List Char) :=
  l.foldr (fun c acc =>
    match acc with
    | [] => if c = sep then [[], []] else [[c]]
    | a :: as => if c = sep then [] :: a :: as else (c :: a) :: as) [[]]

/-- Split at the first occurrence of a separator. -/
def splitFirst (sep : Char) : List Char → Option (List Char × List Char)
  | [] => none
  | c :: cs =>
      if c = sep then some ([], cs)
      else (splitFirst sep cs).map (fun p => (c :: p.1, p.2))

/-- Parse a `style` attribute value into its declarations (CSSOM view). -/
def parseStyle (v : List Char) : List (List Char × List Char) :=
  (splitOnCh ';' v).filterMap (fun decl =>
    match splitFirst ':' decl with
    | some (p, val) =>
        if trimWs p = [] then none else some (trimWs p, trimWs val)
    | none => none)

/-- Serialize declarations as CSSOM does: `prop: value;` joined by single
spaces. -/
def serializeStyle : List (List Char × List Char) → List Char
  | [] => []
  | [(p, v)] => p ++ lc ": " ++ v ++ lc ";"
  | (p, v) :: ds => p ++ lc ": " ++ v ++ lc "; " ++ serializeStyle ds

/-- `el.style[prop] = value`: replace the declaration in place when present,
append it otherwise, and re-serialize the `style` attribute. -/
def setStyleProp (d : Dom) (i : Nat) (prop v : List Char) : Dom :=
  let ds := parseStyle ((getAttr d i (lc "style")).getD [])
  let ds' := if ds.any (·.1 = prop)
    then ds.map (fun pv => if pv.1 = prop then (prop, v) else pv)
    else ds ++ [(prop, v)]
  setAttr d i (lc "style") (serializeStyle ds')

/-- Substring occurrence test (the `[class*="ql-"]` attribute selector). -/
def containsSub (needle hay : List Char) : Bool :=
  (List.range (hay.length + 1)).any (fun k => needle.isPrefixOf (hay.drop k))

/-- Serialize one node as `innerHTML` does (tags lowercased, attributes in
order; the text the claims exercise needs no entity escaping). -/
def serializeNode (d : Dom) : Nat → Nat → List Char
  | 0, _ => []
  | fuel + 1, i =>
      match getN d i with
      | some (.text s) => s
      | some (.elem tag attrs kids) =>
          lc "<" ++ lowerL tag ++
          (attrs.map (fun p => ' ' :: p.1 ++ lc "=\"" ++ p.2 ++ lc "\"")).join ++
          lc ">" ++ (kids.map (serializeNode d fuel)).join ++
          lc "</" ++ lowerL tag ++ lc ">"
      | none => []

/-- `container.innerHTML` (read). -/
def serializeKids (d : Dom) (container : Nat) : List Char :=
  ((kidsN d container).map (serializeNode d (d.nodes.length + 1))).join

/-! ## The dialect converter (`convertToStandardHtml` and sub-transforms). -/

/-- One class-to-inline-style conversion: for every element carrying the
class (in document order), set the style property, then remove the class
token — `el.style[prop] = value; el.classList.remove(className)`. -/
def applyClassStyle (d : Dom) (container : Nat) (prop cls v : List Char) : Dom :=
  (querySelAll d container (fun d2 i => hasClassTok d2 i cls)).foldl
    (fun dAcc i => classListRemove (setStyleProp dAcc i prop v) i cls) d

/-- `convertAlignmentClasses`: `ql-align-center/right/justify` to
`text-align` (left is the unmarked default). -/
def convertAlignmentClasses (d : Dom) (container : Nat) : Dom :=
  let d1 := applyClassStyle d container (lc "text-align") (lc "ql-align-center") (lc "center")
  let d2 := applyClassStyle d1 container (lc "text-align") (lc "ql-align-right") (lc "right")
  applyClassStyle d2 container (lc "text-align") (lc "ql-align-justify") (lc "justify")

/-- `convertFontClasses`: `ql-font-serif/monospace` to `font-family`. -/
def convertFontClasses (d : Dom) (container : Nat) : Dom :=
  let d1 := applyClassStyle d container (lc "font-family") (lc "ql-font-serif")
    (lc "Georgia, Times New Roman, serif")
  applyClassStyle d1 container (lc "font-family") (lc "ql-font-monospace")
    (lc "Monaco, Courier New, monospace")

/-- `convertSizeClasses`: the fixed closed map `ql-size-small` ↦ `0.75em`,
`ql-size-large` ↦ `1.5em`, `ql-size-huge` ↦ `2.5em` to `font-size`. -/
def convertSizeClasses (d : Dom) (container : Nat) : Dom :=
  let d1 := applyClassStyle d container (lc "font-size") (lc "ql-size-small") (lc "0.75em")
  let d2 := applyClassStyle d1 container (lc "font-size") (lc "ql-size-large") (lc "1.5em")
  applyClassStyle d2 container (lc "font-size") (lc "ql-size-huge") (lc "2.5em")

/-- `convertDirectionClasses`: `ql-direction-rtl` to `dir="rtl"`. -/
def convertDirectionClasses (d : Dom) (container : Nat) : Dom :=
  (querySelAll d container (fun d2 i => hasClassTok d2 i (lc "ql-direction-rtl"))).foldl
    (fun dAcc i =>
      classListRemove (setAttr dAcc i (lc "dir") (lc "rtl")) i (lc "ql-direction-rtl")) d

/-- `convertCodeBlocks`: `pre.ql-syntax` gets the fixed inline dark-theme
style block, in the source's property order, and loses the marker class. -/
def convertCodeBlocks (d : Dom) (container : Nat) : Dom :=
  (querySelAll d container (fun d2 i =>
      tagN d2 i = lc "PRE" && hasClassTok d2 i (lc "ql-syntax"))).foldl
    (fun dAcc i =>
      let s1 := setStyleProp dAcc i (lc "background-color") (lc "#23241f")
      let s2 := setStyleProp s1 i (lc "color") (lc "#f8f8f2")
      let s3 := setStyleProp s2 i (lc "padding") (lc "12px")
      let s4 := setStyleProp s3 i (lc "border-radius") (lc "4px")
      let s5 := setStyleProp s4 i (lc "font-family")
        (lc "Monaco, Consolas, \"Courier New\", monospace")
      let s6 := setStyleProp s5 i (lc "font-size") (lc "13px")
      let s7 := setStyleProp s6 i (lc "overflow") (lc "auto")
      let s8 := setStyleProp s7 i (lc "white-space") (lc "pre")
      classListRemove s8 i (lc "ql-syntax")) d

/-- `removeQuillClasses`: for every element whose `class` attribute value
contains the substring `ql-`, drop each `ql-`-prefixed token, then remove a
`class` attribute left with an empty token list. -/
def removeQuillClasses (d : Dom) (container : Nat) : Dom :=
  (querySelAll d container (fun d2 i =>
      match getAttr d2 i (lc "class") with
      | some v => containsSub (lc "ql-") v
      | none => false)).foldl
    (fun dAcc i =>
      let dAcc2 := (classToks dAcc i).foldl
        (fun dIn tok =>
          if (lc "ql-").isPrefixOf tok then classListRemove dIn i tok else dIn) dAcc
      if classListLen dAcc2 i = 0 then removeAttr dAcc2 i (lc "class") else dAcc2) d

/-- `className.match(/ql-indent-(\d+)/)` — the (case-sensitive) indent-level
match, embedded directly: the first position where the literal `ql-indent-`
is followed by at least one decimal digit; the capture is the maximal digit
run there. -/
def indentMatch : List Char → Option (List Char)
  | [] => none
  | c :: t =>
      if startsWithL false (lc "ql-indent-") (c :: t) then
        let ds := ((c :: t).drop 10).takeWhile Char.isDigit
        if ds = [] then indentMatch t else some ds
      else indentMatch t

/-- The mutable locals of `convertIndentedLists`' per-list walk:
`currentLevel`, `currentParent`, `parentStack` (top at the end), and the
document being mutated. -/
structure ListSt where
  currentLevel : Nat
  currentParent : Nat
  parentStack : List (Nat × Nat)
  dom : Dom

/-- The `for (let i = currentLevel; i < itemLevel; i++)` loop: create a new
sublist element, and if the current parent's last element child is an `li`,
append the new sublist inside it, push it on the stack and descend into it. -/
def growLevelsGo (ltag : List Char) : Nat → Nat → ListSt → Except DomErr ListSt
  | 0, _, st => .ok st
  | count + 1, i, st =>
    let (d1, nl) := createElement st.dom (lowerL ltag)
    match lastElemChild d1 st.currentParent with
    | some li =>
        if tagN d1 li = lc "LI" then
          match appendChild d1 li nl with
          | .error e => .error e
          | .ok d2 =>
              growLevelsGo ltag count (i + 1)
                ⟨st.currentLevel, nl, st.parentStack ++ [(nl, i + 1)], d2⟩
        else growLevelsGo ltag count (i + 1)
          ⟨st.currentLevel, st.currentParent, st.parentStack, d1⟩
    | none => growLevelsGo ltag count (i + 1)
        ⟨st.currentLevel, st.currentParent, st.parentStack, d1⟩

/-- The loop runs for `i = currentLevel, …, itemLevel - 1`. -/
def growLevels (ltag : List Char) (i target : Nat) (st : ListSt) :
    Except DomErr ListSt :=
  growLevelsGo ltag (target - i) i st

/-- The `while (parentStack.length > 1 && top.level > itemLevel) pop` loop
(fuel-structural; the stack length bounds the number of pops). -/
def popStackGo (lvl : Nat) : Nat → List (Nat × Nat) → List (Nat × Nat)
  | 0, stack => stack
  | fuel + 1, stack =>
    if stack.length > 1 then
      match stack.getLast? with
      | some (_, l) => if lvl < l then popStackGo lvl fuel stack.dropLast else stack
      | none => stack
    else stack

def popStack (lvl : Nat) (stack : List (Nat × Nat)) : List (Nat × Nat) :=
  popStackGo lvl stack.length stack

/-- One iteration of `items.forEach(item => …)` in `convertIndentedLists`. -/
def processItem (ltag : List Char) (st : ListSt) (item : Nat) :
    Except DomErr ListSt :=
  let className := (getAttr st.dom item (lc "class")).getD []
  let itemLevel :=
    match indentMatch className with
    | some ds => charsVal ds
    | none => 0
  let d1 :=
    if itemLevel > 0 then
      classListRemove st.dom item (lc "ql-indent-" ++ natChars itemLevel)
    else st.dom
  let d2 := if classListLen d1 item = 0 then removeAttr d1 item (lc "class") else d1
  let st1 : ListSt := ⟨st.currentLevel, st.currentParent, st.parentStack, d2⟩
  let adjusted : Except DomErr ListSt :=
    if itemLevel > st1.currentLevel then
      growLevels ltag st1.currentLevel itemLevel st1
    else if itemLevel < st1.currentLevel then
      let stack' := popStack itemLevel st1.parentStack
      .ok ⟨st1.currentLevel, ((stack'.getLast?).map (·.1)).getD st1.currentParent,
           stack', st1.dom⟩
    else .ok st1
  match adjusted with
  | .error e => .error e
  | .ok st2 =>
      let st3 : ListSt := ⟨itemLevel, st2.currentParent, st2.parentStack, st2.dom⟩
      if parentOf st3.dom item ≠ some st3.currentParent then
        match appendChild st3.dom st3.currentParent item with
        | .error e => .error e
        | .ok d4 => .ok ⟨st3.currentLevel, st3.currentParent, st3.parentStack, d4⟩
      else .ok st3

/-- Walk one list's snapshot of `li` children. -/
def processItems (ltag : List Char) : ListSt → List Nat → Except DomErr ListSt
  | st, [] => .ok st
  | st, item :: rest =>
      match processItem ltag st item with
      | .error e => .error e
      | .ok st' => processItems ltag st' rest

/-- The body of `lists.forEach(list => …)`. -/
def processList (d : Dom) (list : Nat) : Except DomErr Dom :=
  let items := (kidsN d list).filter (fun k => tagN d k = lc "LI")
  if items = [] then .ok d
  else
    match processItems (tagN d list) ⟨0, list, [(list, 0)], d⟩ items with
    | .error e => .error e
    | .ok st => .ok st.dom

/-- Fold the lists in document order, stopping at a thrown `DOMException`. -/
def processLists : Dom → List Nat → Except DomErr Dom
  | d, [] => .ok d
  | d, l :: rest =>
      match processList d l with
      | .error e => .error e
      | .ok d' => processLists d' rest

/-- `convertIndentedLists`: for each `ul`/`ol` (static snapshot, document
order), reparent its flat `ql-indent-N` items. -/
def convertIndentedLists (d : Dom) (container : Nat) : Except DomErr Dom :=
  processLists d
    (querySelAll d container (fun d2 i => tagN d2 i = lc "UL" || tagN d2 i = lc "OL"))

/-- `convertToStandardHtml`, over the parsed tree: the seven sub-transforms
in source order, then the serialization of the container's children.  A
`HierarchyRequestError` thrown by `convertIndentedLists` propagates (the
source has no `try`/`catch` around it). -/
def convertToStandardHtml (d : Dom) (container : Nat) :
    Except DomErr (List Char) :=
  let d1 := convertAlignmentClasses d container
  let d2 := convertFontClasses d1 container
  let d3 := convertSizeClasses d2 container
  let d4 := convertDirectionClasses d3 container
  let d5 := convertCodeBlocks d4 container
  match convertIndentedLists d5 container with
  | .error e => .error e
  | .ok d6 => .ok (serializeKids (removeQuillClasses d6 container) container)

/-! ## Concrete documents for the dialect-converter claims. -/

/-- The list-renesting input with the dialect's actual class names:
`<ul><li>A</li><li class="ql-indent-1">B</li><li class="ql-indent-2">C</li><li>D</li></ul>`
parsed under a container (address 0). -/
def c6dom : Dom :=
  ⟨[(0, .elem (lc "DIV") [] [1]),
    (1, .elem (lc "UL") [] [2, 3, 4, 5]),
    (2, .elem (lc "LI") [] [6]),
    (3, .elem (lc "LI") [(lc "class", lc "ql-indent-1")] [7]),
    (4, .elem (lc "LI") [(lc "class", lc "ql-indent-2")] [8]),
    (5, .elem (lc "LI") [] [9]),
    (6, .text (lc "A")), (7, .text (lc "B")),
    (8, .text (lc "C")), (9, .text (lc "D"))], 10⟩

/-- The claim's literal input,
`<ul><li>A</li><li class="indent-1">B</li><li class="indent-2">C</li><li>D</li></ul>`
(class names without the `ql-` prefix). -/
def c6lit : Dom :=
  ⟨[(0, .elem (lc "DIV") [] [1]),
    (1, .elem (lc "UL") [] [2, 3, 4, 5]),
    (2, .elem (lc "LI") [] [6]),
    (3, .elem (lc "LI") [(lc "class", lc "indent-1")] [7]),
    (4, .elem (lc "LI") [(lc "class", lc "indent-2")] [8]),
    (5, .elem (lc "LI") [] [9]),
    (6, .text (lc "A")), (7, .text (lc "B")),
    (8, .text (lc "C")), (9, .text (lc "D"))], 10⟩

/-- The two-item flat list documented in `docs/CONVERTER_SPECIFICATION.md`:
`<ol><li>Numbered item</li><li class="ql-indent-1">Nested numbered item</li></ol>`. -/
def c6two : Dom :=
  ⟨[(0, .elem (lc "DIV") [] [1]),
    (1, .elem (lc "OL") [] [2, 3]),
    (2, .elem (lc "LI") [] [4]),
    (3, .elem (lc "LI") [(lc "class", lc "ql-indent-1")] [5]),
    (4, .text (lc "Numbered item")), (5, .text (lc "Nested numbered item"))], 6⟩

/-- `<p class="…">txt</p>` under a container. -/
def pDom (cls txt : List Char) : Dom :=
  ⟨[(0, .elem (lc "DIV") [] [1]),
    (1, .elem (lc "P") [(lc "class", cls)] [2]),
    (2, .text txt)], 3⟩

/-- `<span class="…">txt</span>` under a container. -/
def spanDom (cls txt : List Char) : Dom :=
  ⟨[(0, .elem (lc "DIV") [] [1]),
    (1, .elem (lc "SPAN") [(lc "class", cls)] [2]),
    (2, .text txt)], 3⟩

instance : DecidableEq (Except DomErr (List Char)) := fun a b =>
  match a, b with
  | .ok x, .ok y =>
      if h : x = y then .isTrue (by rw [h])
      else .isFalse (fun he => h (Except.ok.inj he))
  | .error x, .error y =>
      if h : x = y then .isTrue (by rw [h])
      else .isFalse (fun he => h (Except.error.inj he))
  | .ok _, .error _ => .isFalse (fun he => Except.noConfusion he)
  | .error _, .ok _ => .isFalse (fun he => Except.noConfusion he)

/-! ## Registry operations (`updateComponentDisplay`, `insertComponent`,
`getRegistry`). -/

/-- `updateComponentDisplay(componentId, displayMode, preview = null)`:
unknown ids leave the registry alone and report `false`; on a known id the
record's `displayMode` is always set, its `preview` only when a non-null
preview argument is supplied, and the call reports `true` (the
`refreshBlotDisplay` it then performs only repaints the editor surface). -/
def updateComponentDisplay (reg : Registry) (id mode : List Char)
    (preview : Option (List Char)) : Bool × Registry :=
  match regGet reg id with
  | none => (false, reg)
  | some c =>
      (true, regSet reg id
        { c with displayMode := mode, preview := preview.getD c.preview })

/-- The `componentData` argument of `insertComponent`; absent fields are
`none`. -/
structure ComponentData where
  ctype : Option (List Char)
  html : Option (List Char)
  preview : Option (List Char)
  displayMode : Option (List Char)
deriving DecidableEq

/-- JS `a || b` on a possibly-absent string (the empty string is falsy). -/
def jsOrStr (o : Option (List Char)) (d : List Char) : List Char :=
  match o with
  | some s => if s = [] then d else s
  | none => d

/-- `insertComponent(componentData)`: `null` without a live editor instance;
otherwise allocate a fresh id, store the record built with the source's
defaults — `componentData.type || 'CUSTOM'`, `componentData.html || ''`,
`componentData.preview || htmlContent`,
`componentData.displayMode || this._defaultDisplayMode` — and return the id
(the placeholder blot inserted at the cursor lives on the editor surface,
outside the engine state). -/
def insertComponent (editorPresent : Bool) (st : EngineState)
    (data : ComponentData) : Option (List Char) × EngineState :=
  if editorPresent then
    let id := idString st.nextId
    let htmlContent := jsOrStr data.html []
    let comp : ComponentRecord :=
      { ctype := jsOrStr data.ctype (lc "CUSTOM"),
        html := htmlContent,
        preview := jsOrStr data.preview htmlContent,
        displayMode := jsOrStr data.displayMode st.defaultMode,
        created := st.nextId }
    (some id, ⟨regSet st.registry id comp, st.nextId + 1, st.defaultMode⟩)
  else (none, st)

/-- The engine's id discipline: every registry key was produced by the fresh
supply at an earlier counter value. -/
def IdsBelow (st : EngineState) : Prop :=
  ∀ k ∈ regKeys st.registry, ∃ m, m < st.nextId ∧ k = idString m

/-! ## A two-heap object model for `getRegistry`'s aliasing behaviour.

`getRegistry()` returns `{ ...this._componentRegistry }`.  In JS this is a
fresh map *object* whose entries alias the same component-record *objects*.
To state that faithfully, registries and records live in heaps addressed by
references; the engine holds a reference to its registry map object. -/

structure JsHeap where
  maps : List (Nat × List (List Char × Nat))
  recs : List (Nat × ComponentRecord)
  nextRef : Nat
deriving DecidableEq

/-- The entries of the map object at reference `a`. -/
def mapsGet (σ : JsHeap) (a : Nat) : List (List Char × Nat) :=
  ((σ.maps.find? (fun p => p.1 = a)).map (·.2)).getD []

/-- The component record at reference `a`. -/
def recsGet (σ : JsHeap) (a : Nat) : Option ComponentRecord :=
  (σ.recs.find? (fun p => p.1 = a)).map (·.2)

/-- `getRegistry()` = `{ ...this._componentRegistry }`: allocate a fresh map
object with the same (id, record-reference) entries. -/
def getRegistry (σ : JsHeap) (regRef : Nat) : JsHeap × Nat :=
  (⟨(σ.nextRef, mapsGet σ regRef) :: σ.maps, σ.recs, σ.nextRef + 1⟩, σ.nextRef)

/-- `getRegistryCount()` = `Object.keys(this._componentRegistry).length`,
read through the engine's reference. -/
def getRegistryCount (σ : JsHeap) (regRef : Nat) : Nat :=
  (mapsGet σ regRef).length

/-- Object-style insertion into an id-to-reference association list. -/
def assocSetN (m : List (List Char × Nat)) (k : List Char) (r : Nat) :
    List (List Char × Nat) :=
  match m with
  | [] => [(k, r)]
  | (k', r') :: rest =>
      if k' = k then (k', r) :: rest else (k', r') :: assocSetN rest k r

/-- Caller-side `m[k] = r` on the map object at reference `a` (adding or
replacing an entry of the returned copy). -/
def mapSetRef (σ : JsHeap) (a : Nat) (k : List Char) (r : Nat) : JsHeap :=
  ⟨σ.maps.map (fun p => if p.1 = a then (p.1, assocSetN p.2 k r) else p),
   σ.recs, σ.nextRef⟩

/-- Caller-side `delete m[k]` on the map object at reference `a`. -/
def mapDeleteRef (σ : JsHeap) (a : Nat) (k : List Char) : JsHeap :=
  ⟨σ.maps.map (fun p => if p.1 = a then (p.1, p.2.filter (fun q => q.1 ≠ k)) else p),
   σ.recs, σ.nextRef⟩

/-- Mutation of a shared component record through any alias:
`record.html = v`. -/
def recSetHtml (σ : JsHeap) (a : Nat) (v : List Char) : JsHeap :=
  ⟨σ.maps,
   σ.recs.map (fun p => if p.1 = a then (p.1, { p.2 with html := v }) else p),
   σ.nextRef⟩

/-- Resolve a map object into the registry it denotes (dangling record
references contribute nothing). -/
def materialize (σ : JsHeap) (a : Nat) : Registry :=
  (mapsGet σ a).filterMap (fun p => (recsGet σ p.2).map (fun r => (p.1, r)))

/-! ## A structured document grammar for the pipeline claims.

The round-trip, idempotence and missing-restoration claims quantify over
"HTML containing only the recognized component categories".  That class is
embedded as documents built from `<`-free text runs and well-formed component
spans of the five recognized categories (plus the placeholders the pipeline
itself produces); the extraction and restoration pipelines are then evaluated
symbolically over the rendered concatenation. -/

inductive PSeg where
  /-- a text run containing no `<` (content outside the recognized
  categories) -/
  | ptxt (s : List Char)
  /-- a pipeline placeholder with the given id and component type -/
  | pph (id ty : List Char)
  /-- `<table…</table>` (the matcher constrains nothing else) -/
  | ptable (m : List Char)
  /-- a styled horizontal rule -/
  | phr
  /-- a styled blockquote with the given `<`-free body -/
  | pbq (inner : List Char)
  /-- a styled preformatted block with the given `<`-free body -/
  | ppre (inner : List Char)
  /-- a styled (flex) container with the given `<`-free body (no nested
  divs — the claim's "no nesting ambiguity") -/
  | pdiv (inner : List Char)
deriving DecidableEq

def renderP : PSeg → List Char
  | .ptxt s => s
  | .pph id ty => placeholderStr id ty (lc "preview")
  | .ptable m => lc "<table" ++ m ++ lc "</table>"
  | .phr => lc "<hr style=\"border: 1px solid red\">"
  | .pbq i => lc "<blockquote style=\"color:red\">" ++ i ++ lc "</blockquote>"
  | .ppre i => lc "<pre style=\"background:#eee\">" ++ i ++ lc "</pre>"
  | .pdiv i => lc "<div style=\"display:flex\">" ++ i ++ lc "</div>"

def renderPDoc (d : List PSeg) : List Char := (d.map renderP).flatten

/-- `<`-freeness of a text run or span body. -/
def ltFree (s : List Char) : Bool := s.all (fun c => c ≠ '<')

/-- Identifiers produced by the fresh supply are nonempty digit strings. -/
def digitsOnly (s : List Char) : Bool := !s.isEmpty && s.all Char.isDigit

/-- The component types the extraction pipeline stamps on placeholders. -/
def tyOkB (ty : List Char) : Bool :=
  ty = lc "TABLE" || ty = lc "STYLED_DIV" || ty = lc "BLOCKQUOTE" ||
  ty = lc "CODE_BLOCK" || ty = lc "HR"

/-- Well-formedness of one document segment. -/
def PSegOk : PSeg → Prop
  | .ptxt s => ltFree s = true
  | .pph id ty => digitsOnly id = true ∧ tyOkB ty = true
  | .ptable m => ltFree m = true
  | .phr => True
  | .pbq i => ltFree i = true
  | .ppre i => ltFree i = true
  | .pdiv i => ltFree i = true

/-- The specification-side reading of restoration over a structured document:
text passes through, a placeholder resolves to the registry entry's `html`
verbatim when its id is known and to the visible missing-component marker
when it is not, and a raw component span passes through as written.  (This is
the claim's description of `restoreComponents`, used as the right-hand side
of the restoration theorems.) -/
def restoreView (reg : Registry) : List PSeg → List Char
  | [] => []
  | .pph id _ :: rest =>
      (match regGet reg id with
       | some c => c.html
       | none => missingMarker id) ++ restoreView reg rest
  | s :: rest => renderP s ++ restoreView reg rest

/-! ## Doc-level view of the extraction stages. -/

/-- Segment-kind tests. -/
def isTxtSeg : PSeg → Bool | .ptxt _ => true | _ => false

def isPhSeg : PSeg → Bool | .pph _ _ => true | _ => false

def isDivSeg : PSeg → Bool | .pdiv _ => true | _ => false

def isPreSeg : PSeg → Bool | .ppre _ => true | _ => false

def isBqSeg : PSeg → Bool | .pbq _ => true | _ => false

def isTableSeg : PSeg → Bool | .ptable _ => true | _ => false

def isHrSeg : PSeg → Bool | .phr => true | _ => false

/-- The document-level effect of one extraction stage: each segment the stage
recognizes is replaced by a placeholder carrying the next fresh id, with the
extraction callback's registry effects replayed on the state. -/
def stageGo (isK : PSeg → Bool) (ty : List Char) :
    ExtractSt → List PSeg → ExtractSt × List PSeg
  | st, [] => (st, [])
  | st, seg :: rest =>
      if isK seg then
        let r := stageGo isK ty (extractCallback ty st (renderP seg) none).1 rest
        (r.1, .pph (idString st.engine.nextId) ty :: r.2)
      else
        let r := stageGo isK ty st rest
        (r.1, seg :: r.2)

/-- The five extraction stages of `extractComponents`, at document level. -/
def pipelineDoc (st : EngineState) (d : List PSeg) : ExtractSt × List PSeg :=
  let r1 := stageGo isDivSeg (lc "STYLED_DIV") ⟨st, []⟩ d
  let r2 := stageGo isPreSeg (lc "CODE_BLOCK") r1.1 r1.2
  let r3 := stageGo isBqSeg (lc "BLOCKQUOTE") r2.1 r2.2
  let r4 := stageGo isTableSeg (lc "TABLE") r3.1 r3.2
  stageGo isHrSeg (lc "HR") r4.1 r4.2

/-! ### Position-wise literal-failure machinery.

A pattern starting with a literal cannot match at a position where the
literal mismatches the text within a window that closes before the enclosing
part of the text ends; this is what lets no-match facts about a block be
checked locally (and, for concrete blocks, by `decide`), independently of
whatever follows the block. -/

/-- Within part `s`, the literal `L` compared at offset `i` fails at some
index `j` that still lies inside `s` (computable form). -/
def mismatchBefore (L s : List Char) (i : Nat) : Bool :=
  (List.range L.length).any (fun j =>
    decide (i + j < s.length) &&
    decide (lowc (s.getD (i + j) ' ') ≠ lowc (L.getD j ' ')))

/-- The literal `L` fails at every offset inside `s`, regardless of what
follows `s` (computable form). -/
def litKilled (L s : List Char) : Bool :=
  (List.range s.length).all (fun i => mismatchBefore L s i)

/-! ## Named stages of the doc-level pipeline (for the registry bookkeeping). -/

def pstage1 (st : EngineState) (d : List PSeg) : ExtractSt × List PSeg :=
  stageGo isDivSeg (lc "STYLED_DIV") ⟨st, []⟩ d

def pstage2 (st : EngineState) (d : List PSeg) : ExtractSt × List PSeg :=
  stageGo isPreSeg (lc "CODE_BLOCK") (pstage1 st d).1 (pstage1 st d).2

def pstage3 (st : EngineState) (d : List PSeg) : ExtractSt × List PSeg :=
  stageGo isBqSeg (lc "BLOCKQUOTE") (pstage2 st d).1 (pstage2 st d).2

def pstage4 (st : EngineState) (d : List PSeg) : ExtractSt × List PSeg :=
  stageGo isTableSeg (lc "TABLE") (pstage3 st d).1 (pstage3 st d).2

def pstage5 (st : EngineState) (d : List PSeg) : ExtractSt × List PSeg :=
  stageGo isHrSeg (lc "HR") (pstage4 st d).1 (pstage4 st d).2

/-- The four replace-driven stages that follow the styled-div stage
(pre, blockquote, table, hr), at the document level: what
`extractComponents` runs over the remainder when the styled-div stage
aborted without touching the text. -/
def pipeline4 (st : EngineState) (d : List PSeg) : ExtractSt × List PSeg :=
  let r2 := stageGo isPreSeg (lc "CODE_BLOCK") ⟨st, []⟩ d
  let r3 := stageGo isBqSeg (lc "BLOCKQUOTE") r2.1 r2.2
  let r4 := stageGo isTableSeg (lc "TABLE") r3.1 r3.2
  stageGo isHrSeg (lc "HR") r4.1 r4.2

/-- A continuation document exercising all four later categories (and a
text run) after an unterminated styled-div opening. -/
def c5doc : List PSeg :=
  [PSeg.ppre (lc "p"), PSeg.ptxt (lc "t"), PSeg.pbq (lc "q"),
   PSeg.ptable (lc "u"), PSeg.phr]

theorem toNat_ofNat_valid (n : Nat) (h : n.isValidChar) :
    (Char.ofNat n).toNat = n := by
  rw [Char.ofNat, dif_pos h]
  rfl

theorem char_eq_of_toNat_eq {a b : Char} (h : a.toNat = b.toNat) : a = b := by
  apply Char.ext
  exact UInt32.toNat.inj h

theorem lowc_toNat (c : Char) :
    (lowc c).toNat =
      if 65 ≤ c.toNat ∧ c.toNat ≤ 90 then c.toNat + 32 else c.toNat := by
  unfold lowc Char.toLower
  split
  · rename_i hg
    rw [if_pos (by omega)]
    exact toNat_ofNat_valid _ (Or.inl (by omega))
  · rename_i hg
    rw [if_neg (by omega)]

/-- Characters outside the uppercase range are `lowc`-fixed points, and no
letter lowers onto them: if `x` is not a lowercase letter and not uppercase,
`lowc c = x` forces `c = x`. -/
theorem lowc_eq_fix {x : Char} (hx : x.toNat < 65 ∨ (90 < x.toNat ∧ x.toNat < 97) ∨ 122 < x.toNat)
    {c : Char} (h : lowc c = x) : c = x := by
  have ht := lowc_toNat c
  rw [h] at ht
  apply char_eq_of_toNat_eq
  by_cases hg : 65 ≤ c.toNat ∧ c.toNat ≤ 90
  · rw [if_pos hg] at ht
    omega
  · rw [if_neg hg] at ht
    omega

theorem digit_toNat {c : Char} (h : c.isDigit = true) :
    48 ≤ c.toNat ∧ c.toNat ≤ 57 := by
  simp only [Char.isDigit, Bool.and_eq_true, decide_eq_true_eq] at h
  obtain ⟨h1, h2⟩ := h
  exact ⟨h1, h2⟩

theorem lowc_digit {c : Char} (h : c.isDigit = true) : lowc c = c := by
  have hd := digit_toNat h
  apply char_eq_of_toNat_eq
  rw [lowc_toNat, if_neg (by omega)]

/-! ### Generic facts about the matcher and its drivers. -/

theorem matchSeq_lit_none {ci : Bool} {L : List Char} {ps : List RElem}
    {s : List Char} (h : startsWithL ci L s = false) :
    matchSeq ci (.lit L :: ps) s = none := by
  simp [matchSeq, h]

theorem matchSeq_lit_some {ci : Bool} {L : List Char} {ps : List RElem}
    {s : List Char} (h : startsWithL ci L s = true) :
    matchSeq ci (.lit L :: ps) s =
      (matchSeq ci ps (s.drop L.length)).map (fun r => (r.1 + L.length, r.2)) := by
  simp [matchSeq, h]

theorem matchSeq_star {ci : Bool} {p : Char → Bool} {ps : List RElem}
    {s : List Char} :
    matchSeq ci (.star p :: ps) s = tryDesc ci ps s (runLen p s) := by
  simp [matchSeq]

theorem matchSeq_lazyStar {ci : Bool} {p : Char → Bool} {ps : List RElem}
    {s : List Char} :
    matchSeq ci (.lazyStar p :: ps) s = tryAsc ci ps s 0 (runLen p s) := by
  simp [matchSeq]

theorem matchSeq_plus {ci : Bool} {p : Char → Bool} {ps : List RElem}
    {s : List Char} :
    matchSeq ci (.plus p :: ps) s =
      (match runLen p s with
       | 0 => none
       | r + 1 => tryDescPos ci ps s (r + 1)) := by
  first
    | (simp only [matchSeq]; cases runLen p s <;> rfl)
    | simp only [matchSeq]

theorem matchSeq_cap {ci : Bool} {p : Char → Bool} {ps : List RElem}
    {s : List Char} :
    matchSeq ci (.cap p :: ps) s =
      (match runLen p s with
       | 0 => none
       | r + 1 => tryDescCap ci ps s (r + 1)) := by
  first
    | (simp only [matchSeq]; cases runLen p s <;> rfl)
    | simp only [matchSeq]

theorem matchSeq_alt3 {ci : Bool} {a b c : List RElem} {ps : List RElem}
    {s : List Char} :
    matchSeq ci (.alt3 a b c :: ps) s =
      (matchSeq ci (a ++ ps) s).orElse (fun _ =>
        (matchSeq ci (b ++ ps) s).orElse (fun _ => matchSeq ci (c ++ ps) s)) := by
  simp [matchSeq]

theorem tryDesc_none {ci : Bool} {ps : List RElem} {s : List Char} {r : Nat}
    (h : ∀ k, k ≤ r → matchSeq ci ps (s.drop k) = none) :
    tryDesc ci ps s r = none := by
  induction r with
  | zero =>
      have h0 := h 0 (by omega)
      rw [List.drop_zero] at h0
      simp [tryDesc, h0]
  | succ r' ih =>
      rw [tryDesc]
      rw [h (r' + 1) (by omega)]
      exact ih (fun k hk => h k (by omega))

theorem tryDesc_eval {ci : Bool} {ps : List RElem} {s : List Char}
    {r k0 : Nat} {v : Nat × Option (List Char)}
    (hk : k0 ≤ r)
    (h0 : matchSeq ci ps (s.drop k0) = some v)
    (hgt : ∀ k, k0 < k → k ≤ r → matchSeq ci ps (s.drop k) = none) :
    tryDesc ci ps s r = some (v.1 + k0, v.2) := by
  induction r with
  | zero =>
      have hk0 : k0 = 0 := by omega
      subst hk0
      rw [List.drop_zero] at h0
      simp [tryDesc, h0]
  | succ r' ih =>
      by_cases he : k0 = r' + 1
      · subst he
        simp [tryDesc, h0]
      · rw [tryDesc, hgt (r' + 1) (by omega) (by omega)]
        exact ih (by omega) (fun k h1 h2 => hgt k h1 (by omega))

theorem tryDescPos_none {ci : Bool} {ps : List RElem} {s : List Char} {r : Nat}
    (h : ∀ k, 1 ≤ k → k ≤ r → matchSeq ci ps (s.drop k) = none) :
    tryDescPos ci ps s r = none := by
  induction r with
  | zero => simp [tryDescPos]
  | succ r' ih =>
      rw [tryDescPos]
      rw [h (r' + 1) (by omega) (by omega)]
      exact ih (fun k h1 h2 => h k h1 (by omega))

theorem tryDescPos_eval {ci : Bool} {ps : List RElem} {s : List Char}
    {r k0 : Nat} {v : Nat × Option (List Char)}
    (hk1 : 1 ≤ k0) (hk : k0 ≤ r)
    (h0 : matchSeq ci ps (s.drop k0) = some v)
    (hgt : ∀ k, k0 < k → k ≤ r → matchSeq ci ps (s.drop k) = none) :
    tryDescPos ci ps s r = some (v.1 + k0, v.2) := by
  induction r with
  | zero => omega
  | succ r' ih =>
      by_cases he : k0 = r' + 1
      · subst he
        simp [tryDescPos, h0]
      · rw [tryDescPos]
        rw [hgt (r' + 1) (by omega) (by omega)]
        exact ih (by omega) (fun k h1 h2 => hgt k h1 (by omega))

theorem tryDescCap_eval {ci : Bool} {ps : List RElem} {s : List Char}
    {r k0 : Nat} {v : Nat × Option (List Char)}
    (hk1 : 1 ≤ k0) (hk : k0 ≤ r)
    (h0 : matchSeq ci ps (s.drop k0) = some v)
    (hgt : ∀ k, k0 < k → k ≤ r → matchSeq ci ps (s.drop k) = none) :
    tryDescCap ci ps s r = some (v.1 + k0, some (v.2.getD (s.take k0))) := by
  induction r with
  | zero => omega
  | succ r' ih =>
      by_cases he : k0 = r' + 1
      · subst he
        simp [tryDescCap, h0]
      · rw [tryDescCap]
        rw [hgt (r' + 1) (by omega) (by omega)]
        exact ih (by omega) (fun k h1 h2 => hgt k h1 (by omega))

theorem tryAsc_eval {ci : Bool} {ps : List RElem} {s : List Char}
    {left k0 : Nat} {v : Nat × Option (List Char)} :
    ∀ lo, lo ≤ k0 → k0 ≤ lo + left →
    matchSeq ci ps (s.drop k0) = some v →
    (∀ k, lo ≤ k → k < k0 → matchSeq ci ps (s.drop k) = none) →
    tryAsc ci ps s lo left = some (v.1 + k0, v.2) := by
  induction left with
  | zero =>
      intro lo h1 h2 h0 _
      have : lo = k0 := by omega
      subst this
      simp [tryAsc, h0]
  | succ left' ih =>
      intro lo h1 h2 h0 hlt
      by_cases he : lo = k0
      · subst he
        simp [tryAsc, h0]
      · rw [tryAsc, hlt lo (by omega) (by omega)]
        exact ih (lo + 1) (by omega) (by omega) h0
          (fun k hk1 hk2 => hlt k (by omega) hk2)

theorem execFind_hit {ci : Bool} {pat : List RElem} {s : List Char}
    {n : Nat} {cap : Option (List Char)}
    (h : matchSeq ci pat s = some (n, cap)) :
    execFind ci pat s = some (0, n, cap) := by
  cases s <;> simp [execFind, h]

theorem execFind_none {ci : Bool} {pat : List RElem} {s : List Char}
    (h : ∀ i, matchSeq ci pat (s.drop i) = none) :
    execFind ci pat s = none := by
  induction s with
  | nil =>
      have h0 := h 0
      rw [List.drop_zero] at h0
      simp [execFind, h0]
  | cons c t ih =>
      have h0 := h 0
      rw [List.drop_zero] at h0
      simp [execFind, h0]
      exact ih (fun i => h (i + 1))

theorem execFind_append_shift {ci : Bool} {pat : List RElem}
    {pre s : List Char}
    (h : ∀ i, i < pre.length → matchSeq ci pat ((pre ++ s).drop i) = none) :
    execFind ci pat (pre ++ s) =
      (execFind ci pat s).map (fun r => (pre.length + r.1, r.2)) := by
  induction pre with
  | nil =>
      simp only [List.nil_append, List.length_nil]
      cases hf : execFind ci pat s with
      | none => simp
      | some r => simp
  | cons c p' ih =>
      have h0 := h 0 (by simp)
      rw [List.drop_zero] at h0
      simp only [List.cons_append] at h0 ⊢
      rw [execFind]
      rw [h0]
      have := ih (fun i hi => by
        have := h (i + 1) (by simp; omega)
        simpa using this)
      rw [this]
      cases execFind ci pat s with
      | none => simp
      | some r => simp; omega

theorem replaceSt_nil {σ : Type} {ci : Bool} {pat : List RElem}
    {f : σ → List Char → Option (List Char) → σ × List Char} {st : σ} :
    replaceSt ci pat f st [] = (st, []) := by
  simp [replaceSt]

theorem replaceSt_append_skip {σ : Type} {ci : Bool} {pat : List RElem}
    {f : σ → List Char → Option (List Char) → σ × List Char}
    {b s : List Char}
    (h : ∀ i, i < b.length → matchSeq ci pat ((b ++ s).drop i) = none) :
    ∀ st, replaceSt ci pat f st (b ++ s) =
      ((replaceSt ci pat f st s).1, b ++ (replaceSt ci pat f st s).2) := by
  induction b with
  | nil => intro st; simp
  | cons c b' ih =>
      intro st
      have h0 := h 0 (by simp)
      rw [List.drop_zero] at h0
      simp only [List.cons_append] at h0 ⊢
      rw [replaceSt]
      rw [h0]
      have := ih (fun i hi => by
        have := h (i + 1) (by simp; omega)
        simpa using this) st
      rw [this]

theorem replaceSt_hit {σ : Type} {ci : Bool} {pat : List RElem}
    {f : σ → List Char → Option (List Char) → σ × List Char}
    {m s : List Char} {cap : Option (List Char)}
    (hm : m ≠ [])
    (h : matchSeq ci pat (m ++ s) = some (m.length, cap)) :
    ∀ st, replaceSt ci pat f st (m ++ s) =
      (((replaceSt ci pat f (f st m cap).1 s).1,
        (f st m cap).2 ++ (replaceSt ci pat f (f st m cap).1 s).2)) := by
  intro st
  cases m with
  | nil => exact absurd rfl hm
  | cons c t =>
      simp only [List.cons_append]
      rw [replaceSt]
      rw [show ((c :: t) ++ s) = (c :: (t ++ s)) from rfl] at h
      rw [h]
      have hlen : (c :: t).length ≠ 0 := by simp
      simp only [dif_neg hlen]
      have htake : (c :: (t ++ s)).take (c :: t).length = c :: t := by
        simpa using (List.take_left (c :: t) s)
      have hdrop : (c :: (t ++ s)).drop (c :: t).length = s := by
        simpa using (List.drop_left (c :: t) s)
      rw [htake, hdrop]

theorem mismatchBefore_spec {L s : List Char} {i : Nat}
    (h : mismatchBefore L s i = true) :
    ∃ j, j < L.length ∧ i + j < s.length ∧
      lowc (s.getD (i + j) ' ') ≠ lowc (L.getD j ' ') := by
  simp only [mismatchBefore, List.any_eq_true, List.mem_range,
    Bool.and_eq_true, decide_eq_true_eq] at h
  obtain ⟨j, hj, h1, h2⟩ := h
  exact ⟨j, hj, h1, h2⟩

theorem startsWithL_false_of_mismatch {L w : List Char}
    (h : ∃ j, j < L.length ∧ j < w.length ∧
      lowc (w.getD j ' ') ≠ lowc (L.getD j ' ')) :
    startsWithL true L w = false := by
  induction L generalizing w with
  | nil =>
      obtain ⟨j, hj, _, _⟩ := h
      simp at hj
  | cons x L' ih =>
      obtain ⟨j, hj, hw, hne⟩ := h
      cases w with
      | nil => simp at hw
      | cons c t =>
          cases j with
          | zero =>
              simp only [List.getD_cons_zero] at hne
              simp [startsWithL, hne]
          | succ j' =>
              rw [startsWithL]
              have : startsWithL true L' t = false := by
                apply ih
                refine ⟨j', by simpa using hj, by simpa using hw, ?_⟩
                simpa using hne
              simp [this]

theorem startsWithL_false_of_mismatchBefore {L s : List Char} {i : Nat}
    (h : mismatchBefore L s i = true) (v : List Char) :
    startsWithL true L (s.drop i ++ v) = false := by
  obtain ⟨j, hj, hij, hne⟩ := mismatchBefore_spec h
  apply startsWithL_false_of_mismatch
  refine ⟨j, hj, ?_, ?_⟩
  · rw [List.length_append, List.length_drop]
    omega
  · have h1 : (s.drop i ++ v).getD j ' ' = (s.drop i).getD j ' ' := by
      rw [List.getD_append]
      rw [List.length_drop]
      omega
    have h2 : (s.drop i).getD j ' ' = s.getD (i + j) ' ' := by
      rw [List.getD_eq_getElem?_getD, List.getD_eq_getElem?_getD,
        List.getElem?_drop]
    rw [h1, h2]
    exact hne

theorem litKilled_spec {L s : List Char} (h : litKilled L s = true)
    {i : Nat} (hi : i < s.length) : mismatchBefore L s i = true := by
  simp only [litKilled, List.all_eq_true, List.mem_range] at h
  exact h i hi

theorem litKilled_of_head_notin {x : Char} {L' : List Char} {p : List Char}
    (h : ∀ c ∈ p, lowc c ≠ lowc x) : litKilled (x :: L') p = true := by
  simp only [litKilled, List.all_eq_true, List.mem_range]
  intro i hi
  simp only [mismatchBefore, List.any_eq_true, List.mem_range,
    Bool.and_eq_true, decide_eq_true_eq]
  refine ⟨0, by simp, by omega, ?_⟩
  simp only [List.getD_cons_zero, Nat.add_zero]
  apply h
  rw [List.getD_eq_getElem?_getD, List.getElem?_eq_getElem hi]
  simp only [Option.getD_some]
  exact List.getElem_mem hi

/-- No offset inside the concatenation of literal-killed parts can start a
match of a pattern headed by that literal. -/
theorem parts_skip {L : List Char} {ps : List RElem} :
    ∀ (parts : List (List Char)) (rest : List Char),
    (∀ p ∈ parts, litKilled L p = true) →
    ∀ i, i < parts.flatten.length →
      matchSeq true (.lit L :: ps) ((parts.flatten ++ rest).drop i) = none := by
  intro parts
  induction parts with
  | nil => intro rest _ i hi; simp at hi
  | cons p parts' ih =>
      intro rest h i hi
      simp only [List.flatten_cons] at hi ⊢
      by_cases hip : i < p.length
      · have hsplit : (p ++ (parts'.flatten ++ rest)).drop i =
            p.drop i ++ (parts'.flatten ++ rest) :=
          List.drop_append_of_le_length (by omega)
        rw [List.append_assoc, hsplit]
        apply matchSeq_lit_none
        exact startsWithL_false_of_mismatchBefore
          (litKilled_spec (h p (by simp)) hip) _
      · have hsplit : (p ++ (parts'.flatten ++ rest)).drop i =
            (parts'.flatten ++ rest).drop (i - p.length) := by
          rw [List.drop_append_eq_append_drop]
          have hnil : p.drop i = [] := List.drop_eq_nil_of_le (by omega)
          rw [hnil, List.nil_append]
        rw [List.append_assoc, hsplit]
        apply ih rest (fun q hq => h q (by simp [hq]))
        rw [List.length_append] at hi
        omega

theorem startsWithL_append_left {ci : Bool} {L : List Char} :
    ∀ {u v : List Char}, L.length ≤ u.length →
      startsWithL ci L (u ++ v) = startsWithL ci L u := by
  induction L with
  | nil => intro u v _; simp [startsWithL]
  | cons x L' ih =>
      intro u v hu
      cases u with
      | nil => simp at hu
      | cons c t =>
          simp only [List.cons_append, startsWithL, List.append_eq]
          rw [ih (by simpa using hu)]

theorem runLen_append_stop (p : Char → Bool) (u : List Char) :
    ∀ {c0 : Char} {w : List Char},
      (∀ c ∈ u, p c = true) → p c0 = false →
      runLen p (u ++ c0 :: w) = u.length := by
  induction u with
  | nil => intro c0 w _ h0; simp [runLen, h0]
  | cons c t ih =>
      intro c0 w hu h0
      simp only [List.cons_append, runLen, hu c (by simp), List.append_eq]
      rw [ih (fun d hd => hu d (by simp [hd])) h0]
      simp

theorem runLen_all (p : Char → Bool) (u : List Char) :
    (∀ c ∈ u, p c = true) → runLen p u = u.length := by
  induction u with
  | nil => intro _; simp [runLen]
  | cons c t ih =>
      intro hu
      simp only [runLen, hu c (by simp)]
      rw [ih (fun d hd => hu d (by simp [hd]))]
      simp

theorem matchSeq_nil {ci : Bool} {s : List Char} :
    matchSeq ci [] s = some (0, none) := by
  simp [matchSeq]

theorem runLen_anyc (s : List Char) : runLen anyc s = s.length :=
  runLen_all anyc s (fun _ _ => rfl)

theorem lowc_lt_fix {c : Char} (h : c ≠ '<') : lowc c ≠ lowc '<' := by
  rw [show lowc '<' = '<' from by decide]
  intro he
  exact h (lowc_eq_fix (by decide) he)

theorem ltFree_spec {s : List Char} (h : ltFree s = true) :
    ∀ c ∈ s, c ≠ '<' := by
  simp only [ltFree, List.all_eq_true, decide_eq_true_eq] at h
  exact h

theorem litKilled_ltFree {L' : List Char} {p : List Char}
    (h : ltFree p = true) : litKilled ('<' :: L') p = true :=
  litKilled_of_head_notin (fun c hc => lowc_lt_fix (ltFree_spec h c hc))


/-! Evaluation helpers for walking a concrete pattern over a
concrete-prefix/variable-suffix input. -/

theorem one_part_skip {L p : List Char} (h : litKilled L p = true)
    {ps : List RElem} :
    ∀ rest i, i < p.length →
      matchSeq true (.lit L :: ps) ((p ++ rest).drop i) = none := by
  intro rest i hi
  have hq : ∀ q ∈ [p], litKilled L q = true := by
    intro q hq
    simp only [List.mem_cons, List.not_mem_nil, or_false] at hq
    subst hq
    exact h
  have := @parts_skip L ps [p] rest hq i (by simpa using hi)
  simpa using this

theorem matchSeq_alt3_none {ci : Bool} {a b c ps : List RElem} {s : List Char}
    (ha : matchSeq ci (a ++ ps) s = none)
    (hb : matchSeq ci (b ++ ps) s = none)
    (hc : matchSeq ci (c ++ ps) s = none) :
    matchSeq ci (.alt3 a b c :: ps) s = none := by
  rw [matchSeq_alt3, ha, hb, hc]
  rfl

theorem matchSeq_alt3_first {ci : Bool} {a b c ps : List RElem} {s : List Char}
    {v : Nat × Option (List Char)}
    (ha : matchSeq ci (a ++ ps) s = some v) :
    matchSeq ci (.alt3 a b c :: ps) s = some v := by
  rw [matchSeq_alt3, ha]
  rfl

theorem tryDesc_zero_some {ci : Bool} {ps : List RElem} {s : List Char}
    {v : Nat × Option (List Char)} (h : matchSeq ci ps s = some v) :
    tryDesc ci ps s 0 = some v := by
  have h00 : matchSeq ci ps (s.drop 0) = some v := by
    rw [List.drop_zero]
    exact h
  have := tryDesc_eval (Nat.le_refl 0) h00
    (fun k hk1 hk2 => by exact absurd hk2 (by omega))
  simpa using this

theorem tryAsc_zero_some {ci : Bool} {ps : List RElem} {s : List Char}
    {left : Nat} {v : Nat × Option (List Char)} (h : matchSeq ci ps s = some v) :
    tryAsc ci ps s 0 left = some v := by
  have h00 : matchSeq ci ps (s.drop 0) = some v := by
    rw [List.drop_zero]
    exact h
  have := @tryAsc_eval ci ps s left 0 v 0 (Nat.le_refl 0) (Nat.zero_le _) h00
    (fun k hk1 hk2 => by exact absurd hk1 (by omega))
  simpa using this

theorem runLen_head_false {p : Char → Bool} {c : Char} {t : List Char}
    (h : p c = false) : runLen p (c :: t) = 0 := by
  simp [runLen, h]

/-- A greedy star whose run is empty. -/
theorem matchSeq_star_zero {ci : Bool} {p : Char → Bool} {ps : List RElem}
    {s : List Char} {v : Nat × Option (List Char)}
    (hr : runLen p s = 0) (h : matchSeq ci ps s = some v) :
    matchSeq ci (.star p :: ps) s = some v := by
  rw [matchSeq_star, hr]
  exact tryDesc_zero_some h

/-- A greedy star that succeeds at its maximal run. -/
theorem matchSeq_star_max {ci : Bool} {p : Char → Bool} {ps : List RElem}
    {s : List Char} {n : Nat} {v : Nat × Option (List Char)}
    (hr : runLen p s = n) (h : matchSeq ci ps (s.drop n) = some v) :
    matchSeq ci (.star p :: ps) s = some (v.1 + n, v.2) := by
  rw [matchSeq_star, hr]
  exact tryDesc_eval (Nat.le_refl n) h
    (fun k hk1 hk2 => by exact absurd hk2 (by omega))

/-- A greedy star over `x :: T ++ w` whose continuation (headed by a literal
killed inside `T`) only matches with the empty repetition. -/
theorem matchSeq_star_skipfail (p : Char → Bool) {L : List Char}
    {ps : List RElem} {x : Char} {T w : List Char}
    {v : Nat × Option (List Char)} {R : Nat}
    (hR : runLen p (x :: (T ++ w)) = R) (hRT : R ≤ T.length)
    (hkill : litKilled L T = true)
    (h0 : matchSeq true (.lit L :: ps) (x :: (T ++ w)) = some v) :
    matchSeq true (.star p :: .lit L :: ps) (x :: (T ++ w)) = some v := by
  rw [matchSeq_star, hR]
  have h00 : matchSeq true (.lit L :: ps) ((x :: (T ++ w)).drop 0) = some v := by
    rw [List.drop_zero]
    exact h0
  have := tryDesc_eval (Nat.zero_le R) h00
    (fun k hk1 hk2 => by
      obtain ⟨j, rfl⟩ : ∃ j, k = j + 1 := ⟨k - 1, by omega⟩
      rw [List.drop_succ_cons]
      exact one_part_skip hkill w j (by omega))
  simpa using this

/-- A `+` repetition that consumes exactly one character. -/
theorem matchSeq_plus_single {p : Char → Bool} {x : Char} {T : List Char}
    {ps : List RElem} {v : Nat × Option (List Char)}
    (hpx : p x = true) (hT : runLen p T = 0)
    (h1 : matchSeq true ps T = some v) :
    matchSeq true (.plus p :: ps) (x :: T) = some (v.1 + 1, v.2) := by
  rw [matchSeq_plus]
  have hr : runLen p (x :: T) = 1 := by
    simp [runLen, hpx, hT]
  rw [hr]
  refine tryDescPos_eval (Nat.le_refl 1) (Nat.le_refl 1) ?_ ?_
  · rw [show (x :: T).drop 1 = T from rfl]
    exact h1
  · intro k h1' h2'
    exact absurd h2' (Nat.not_le.mpr h1')

/-- A lazy `[\s\S]*?` that skips a literal-killed body and stops at the first
occurrence of the continuation literal. -/
theorem lazy_skip_body {m w L : List Char} {ps : List RElem}
    {v : Nat × Option (List Char)}
    (hk : litKilled L m = true)
    (h0 : matchSeq true (.lit L :: ps) w = some v) :
    matchSeq true (.lazyStar anyc :: .lit L :: ps) (m ++ w) =
      some (v.1 + m.length, v.2) := by
  rw [matchSeq_lazyStar]
  exact tryAsc_eval 0 (Nat.zero_le _)
    (by rw [runLen_anyc]; simp)
    (by rw [List.drop_left]; exact h0)
    (fun k _ hkm => by
      have hsplit : (m ++ w).drop k = m.drop k ++ w :=
        List.drop_append_of_le_length (by omega)
      rw [hsplit]
      exact matchSeq_lit_none
        (startsWithL_false_of_mismatchBefore (litKilled_spec hk hkm) _))


/-! Generic helpers for the per-segment skip lemmas. -/

theorem matchSeq_lit_nil {ci : Bool} {x : Char} {L' : List Char}
    {ps : List RElem} :
    matchSeq ci (.lit (x :: L') :: ps) [] = none :=
  matchSeq_lit_none rfl

theorem matchSeq_opt_skip {ci : Bool} {p : Char → Bool} {ps : List RElem}
    {c : Char} {t : List Char} (h : p c = false) :
    matchSeq ci (.opt p :: ps) (c :: t) = matchSeq ci ps (c :: t) := by
  simp [matchSeq, h]

theorem digitsOnly_chars {s : List Char} (h : digitsOnly s = true) :
    ∀ c ∈ s, c.isDigit = true := by
  simp only [digitsOnly, Bool.and_eq_true, List.all_eq_true] at h
  exact h.2

theorem digitsOnly_ne_nil {s : List Char} (h : digitsOnly s = true) :
    s ≠ [] := by
  simp only [digitsOnly, Bool.and_eq_true] at h
  intro he
  subst he
  simp at h

theorem digitsOnly_ltFree {s : List Char} (h : digitsOnly s = true) :
    ltFree s = true := by
  simp only [ltFree, List.all_eq_true, decide_eq_true_eq]
  intro c hc he
  have := digitsOnly_chars h c hc
  subst he
  simp [Char.isDigit] at this

theorem tyOkB_ltFree {ty : List Char} (h : tyOkB ty = true) :
    ltFree ty = true := by
  simp only [tyOkB, Bool.or_eq_true, decide_eq_true_eq] at h
  rcases h with ((((h | h) | h) | h) | h) <;> subst h <;> decide

theorem litKilled_digits {x : Char} {L' : List Char} {p : List Char}
    (hx : x.isDigit = false) (hfix : lowc x = x)
    (hp : ∀ c ∈ p, c.isDigit = true) : litKilled (x :: L') p = true := by
  apply litKilled_of_head_notin
  intro c hc
  rw [lowc_digit (hp c hc), hfix]
  intro he
  have hcd := hp c hc
  rw [he] at hcd
  rw [hcd] at hx
  simp at hx

theorem litKilled_tyOk {L ty : List Char} (hty : tyOkB ty = true)
    (h1 : litKilled L (lc "TABLE") = true)
    (h2 : litKilled L (lc "STYLED_DIV") = true)
    (h3 : litKilled L (lc "BLOCKQUOTE") = true)
    (h4 : litKilled L (lc "CODE_BLOCK") = true)
    (h5 : litKilled L (lc "HR") = true) : litKilled L ty = true := by
  simp only [tyOkB, Bool.or_eq_true, decide_eq_true_eq] at hty
  rcases hty with ((((h | h) | h) | h) | h) <;> subst h <;> assumption

/-- `parts_skip` with an explicit decomposition of the body. -/
theorem parts_skip' {L' : List Char} {ps : List RElem}
    (parts : List (List Char)) (body rest : List Char)
    (hb : body = parts.flatten)
    (h : ∀ p ∈ parts, litKilled ('<' :: L') p = true) :
    ∀ i, i < body.length →
      matchSeq true (.lit ('<' :: L') :: ps) ((body ++ rest).drop i) = none := by
  subst hb
  exact fun i hi => parts_skip parts rest h i hi

/-! Per-segment skip lemmas: no match of a `<…`-headed pattern starts at any
offset inside the rendering of a segment the pattern does not recognize. -/

theorem ptxt_skip {L' s : List Char} {ps : List RElem} (hs : ltFree s = true) :
    ∀ rest i, i < s.length →
      matchSeq true (.lit ('<' :: L') :: ps) ((s ++ rest).drop i) = none := by
  intro rest i hi
  exact parts_skip' [s] s rest (by simp)
    (by intro p hp; simp at hp; subst hp; exact litKilled_ltFree hs) i hi

theorem ptable_skip {L' m : List Char} {ps : List RElem}
    (hm : ltFree m = true)
    (h1 : litKilled ('<' :: L') (lc "<table") = true)
    (h2 : litKilled ('<' :: L') (lc "</table>") = true) :
    ∀ rest i, i < (renderP (.ptable m)).length →
      matchSeq true (.lit ('<' :: L') :: ps)
        ((renderP (.ptable m) ++ rest).drop i) = none := by
  intro rest i hi
  refine parts_skip' [lc "<table", m, lc "</table>"] _ rest
    (by simp [renderP]) ?_ i hi
  intro p hp
  simp only [List.mem_cons, List.not_mem_nil, or_false] at hp
  rcases hp with h | h | h <;> subst h
  · exact h1
  · exact litKilled_ltFree hm
  · exact h2

theorem pbq_skip {L' m : List Char} {ps : List RElem}
    (hm : ltFree m = true)
    (h1 : litKilled ('<' :: L') (lc "<blockquote style=\"color:red\">") = true)
    (h2 : litKilled ('<' :: L') (lc "</blockquote>") = true) :
    ∀ rest i, i < (renderP (.pbq m)).length →
      matchSeq true (.lit ('<' :: L') :: ps)
        ((renderP (.pbq m) ++ rest).drop i) = none := by
  intro rest i hi
  refine parts_skip' [lc "<blockquote style=\"color:red\">", m, lc "</blockquote>"]
    _ rest (by simp [renderP]) ?_ i hi
  intro p hp
  simp only [List.mem_cons, List.not_mem_nil, or_false] at hp
  rcases hp with h | h | h <;> subst h
  · exact h1
  · exact litKilled_ltFree hm
  · exact h2

theorem ppre_skip {L' m : List Char} {ps : List RElem}
    (hm : ltFree m = true)
    (h1 : litKilled ('<' :: L') (lc "<pre style=\"background:#eee\">") = true)
    (h2 : litKilled ('<' :: L') (lc "</pre>") = true) :
    ∀ rest i, i < (renderP (.ppre m)).length →
      matchSeq true (.lit ('<' :: L') :: ps)
        ((renderP (.ppre m) ++ rest).drop i) = none := by
  intro rest i hi
  refine parts_skip' [lc "<pre style=\"background:#eee\">", m, lc "</pre>"]
    _ rest (by simp [renderP]) ?_ i hi
  intro p hp
  simp only [List.mem_cons, List.not_mem_nil, or_false] at hp
  rcases hp with h | h | h <;> subst h
  · exact h1
  · exact litKilled_ltFree hm
  · exact h2

theorem phr_skip {L' : List Char} {ps : List RElem}
    (h1 : litKilled ('<' :: L') (lc "<hr style=\"border: 1px solid red\">") = true) :
    ∀ rest i, i < (renderP .phr).length →
      matchSeq true (.lit ('<' :: L') :: ps)
        ((renderP .phr ++ rest).drop i) = none := by
  intro rest i hi
  refine parts_skip' [lc "<hr style=\"border: 1px solid red\">"] _ rest
    (by simp [renderP]) ?_ i hi
  intro p hp
  simp only [List.mem_cons, List.not_mem_nil, or_false] at hp
  subst hp
  exact h1

theorem pph_skip {L' id ty : List Char} {ps : List RElem}
    (hid : digitsOnly id = true) (hty : tyOkB ty = true)
    (hlt : litKilled ('<' :: L')
      (lc "<div class=\"ql-component-placeholder\" data-component-id=\"") = true)
    (hcl : litKilled ('<' :: L') (lc "\"></div>") = true) :
    ∀ rest i, i < (renderP (.pph id ty)).length →
      matchSeq true (.lit ('<' :: L') :: ps)
        ((renderP (.pph id ty) ++ rest).drop i) = none := by
  intro rest i hi
  refine parts_skip'
    [lc "<div class=\"ql-component-placeholder\" data-component-id=\"", id,
     lc "\" data-component-type=\"", ty, lc "\" data-display-mode=\"",
     lc "preview", lc "\"></div>"] _ rest
    (by simp [renderP, placeholderStr]) ?_ i hi
  intro p hp
  simp only [List.mem_cons, List.not_mem_nil, or_false] at hp
  rcases hp with h | h | h | h | h | h | h <;> subst h
  · exact hlt
  · exact litKilled_ltFree (digitsOnly_ltFree hid)
  · exact litKilled_ltFree (by decide)
  · exact litKilled_ltFree (tyOkB_ltFree hty)
  · exact litKilled_ltFree (by decide)
  · exact litKilled_ltFree (by decide)
  · exact hcl


/-- `TABLE_PATTERN` consumes exactly a table span, whatever follows. -/
theorem tablePat_hit {m rest : List Char} (hm : ltFree m = true) :
    matchSeq true tablePat ((lc "<table" ++ m ++ lc "</table>") ++ rest) =
      some ((lc "<table" ++ m ++ lc "</table>").length, none) := by
  have hassoc : (lc "<table" ++ m ++ lc "</table>") ++ rest =
      lc "<table" ++ (m ++ (lc "</table>" ++ rest)) := by
    simp [List.append_assoc]
  rw [hassoc]
  rw [show tablePat =
    [.lit (lc "<table"), .lazyStar anyc, .lit (lc "</table>")] from rfl]
  rw [matchSeq_lit_some (by
    rw [startsWithL_append_left (by simp [lc])]
    decide)]
  rw [List.drop_left]
  rw [matchSeq_lazyStar]
  have hsucc : matchSeq true [RElem.lit (lc "</table>")]
      ((m ++ (lc "</table>" ++ rest)).drop m.length) =
      some ((lc "</table>").length, none) := by
    rw [List.drop_left]
    rw [matchSeq_lit_some (by
      rw [startsWithL_append_left (by simp [lc])]
      decide)]
    rw [List.drop_left, matchSeq_nil]
    simp
  have hbound : m.length ≤ 0 + runLen anyc (m ++ (lc "</table>" ++ rest)) := by
    rw [runLen_anyc]
    simp
  rw [tryAsc_eval 0 (Nat.zero_le _) hbound hsucc
    (fun k _ hk => by
      have hsplit : (m ++ (lc "</table>" ++ rest)).drop k =
          m.drop k ++ (lc "</table>" ++ rest) :=
        List.drop_append_of_le_length (by omega)
      rw [hsplit]
      apply matchSeq_lit_none
      exact startsWithL_false_of_mismatchBefore
        (litKilled_spec (litKilled_ltFree hm) hk) _)]
  simp [lc]
  omega


/-- The styled-div heuristic consumes exactly the opening tag
`<div style="display:flex">` (26 characters), whatever follows. -/
theorem styledDivOpen_hit (rest : List Char) :
    matchSeq true styledDivStartPat (lc "<div style=\"display:flex\">" ++ rest) =
      some (26, none) := by
  have hA : matchSeq true [.lit (lc ">")] ('>' :: rest) = some (1, none) := by
    rw [show ('>' :: rest) = lc ">" ++ rest from rfl,
        matchSeq_lit_some (by rw [startsWithL_append_left (by simp [lc])]; decide),
        List.drop_left, matchSeq_nil]
    rfl
  have hB : matchSeq true [.star notGt, .lit (lc ">")] ('>' :: rest) =
      some (1, none) :=
    matchSeq_star_zero (runLen_head_false (by decide)) hA
  have hC : matchSeq true [.lit (lc "\""), .star notGt, .lit (lc ">")]
      ('"' :: ('>' :: rest)) = some (2, none) := by
    rw [show ('"' :: ('>' :: rest)) = lc "\"" ++ ('>' :: rest) from rfl,
        matchSeq_lit_some (by rw [startsWithL_append_left (by simp [lc])]; decide),
        List.drop_left, hB]
    rfl
  have hD : matchSeq true
      [.star notQuote, .lit (lc "\""), .star notGt, .lit (lc ">")]
      ('"' :: ('>' :: rest)) = some (2, none) :=
    matchSeq_star_zero (runLen_head_false (by decide)) hC
  have hE : matchSeq true
      [.lit (lc "flex"), .star notQuote, .lit (lc "\""), .star notGt,
       .lit (lc ">")] (lc "flex\">" ++ rest) = some (6, none) := by
    rw [show lc "flex\">" ++ rest = lc "flex" ++ ('"' :: ('>' :: rest)) from rfl,
        matchSeq_lit_some (by rw [startsWithL_append_left (by simp [lc])]; decide),
        List.drop_left, hD]
    rfl
  have hF : matchSeq true
      [.star isWs, .lit (lc "flex"), .star notQuote, .lit (lc "\""),
       .star notGt, .lit (lc ">")] (lc "flex\">" ++ rest) = some (6, none) :=
    matchSeq_star_zero
      (by rw [show lc "flex\">" ++ rest = 'f' :: (lc "lex\">" ++ rest) from rfl]
          exact runLen_head_false (by decide)) hE
  have hG : matchSeq true
      [.lit (lc "display:"), .star isWs, .lit (lc "flex"), .star notQuote,
       .lit (lc "\""), .star notGt, .lit (lc ">")]
      (lc "display:flex\">" ++ rest) = some (14, none) := by
    rw [show lc "display:flex\">" ++ rest =
          lc "display:" ++ (lc "flex\">" ++ rest) from rfl,
        matchSeq_lit_some (by rw [startsWithL_append_left (by simp [lc])]; decide),
        List.drop_left, hF]
    rfl
  have hH : matchSeq true
      (.alt3 [.lit (lc "display:"), .star isWs, .lit (lc "flex")]
         [.lit (lc "background"), .alt3 [.lit (lc "-color")] [] [],
          .lit (lc ":"), .star isWs,
          .alt3 [.lit (lc "#"), .one isHexI] [.lit (lc "rgb")] [.lit (lc "rgb")]]
         [.lit (lc "border-radius:")] ::
       [.star notQuote, .lit (lc "\""), .star notGt, .lit (lc ">")])
      (lc "display:flex\">" ++ rest) = some (14, none) :=
    matchSeq_alt3_first hG
  have hrun : runLen notQuote (lc "display:flex\">" ++ rest) = 12 := by
    rw [show lc "display:flex\">" ++ rest =
          lc "display:flex" ++ ('"' :: ('>' :: rest)) from rfl,
        runLen_append_stop notQuote (lc "display:flex") (by decide) (by decide)]
    decide
  have hI : matchSeq true
      (.star notQuote ::
       .alt3 [.lit (lc "display:"), .star isWs, .lit (lc "flex")]
         [.lit (lc "background"), .alt3 [.lit (lc "-color")] [] [],
          .lit (lc ":"), .star isWs,
          .alt3 [.lit (lc "#"), .one isHexI] [.lit (lc "rgb")] [.lit (lc "rgb")]]
         [.lit (lc "border-radius:")] ::
       [.star notQuote, .lit (lc "\""), .star notGt, .lit (lc ">")])
      (lc "display:flex\">" ++ rest) = some (14, none) := by
    rw [matchSeq_star, hrun]
    have h00 : matchSeq true
        (.alt3 [.lit (lc "display:"), .star isWs, .lit (lc "flex")]
           [.lit (lc "background"), .alt3 [.lit (lc "-color")] [] [],
            .lit (lc ":"), .star isWs,
            .alt3 [.lit (lc "#"), .one isHexI] [.lit (lc "rgb")] [.lit (lc "rgb")]]
           [.lit (lc "border-radius:")] ::
         [.star notQuote, .lit (lc "\""), .star notGt, .lit (lc ">")])
        ((lc "display:flex\">" ++ rest).drop 0) = some (14, none) := by
      rw [List.drop_zero]
      exact hH
    have := tryDesc_eval (Nat.zero_le 12) h00
      (fun k hk1 hk2 => by
        obtain ⟨j, rfl⟩ : ∃ j, k = j + 1 := ⟨k - 1, by omega⟩
        rw [show lc "display:flex\">" ++ rest =
              'd' :: (lc "isplay:flex\">" ++ rest) from rfl,
            List.drop_succ_cons]
        have hlen : (lc "isplay:flex\">").length = 13 := by decide
        exact matchSeq_alt3_none
          (one_part_skip (by decide) rest j (by omega))
          (one_part_skip (by decide) rest j (by omega))
          (one_part_skip (by decide) rest j (by omega)))
    simpa using this
  have hJ : matchSeq true
      (.lit (lc "style=\"") :: .star notQuote ::
       .alt3 [.lit (lc "display:"), .star isWs, .lit (lc "flex")]
         [.lit (lc "background"), .alt3 [.lit (lc "-color")] [] [],
          .lit (lc ":"), .star isWs,
          .alt3 [.lit (lc "#"), .one isHexI] [.lit (lc "rgb")] [.lit (lc "rgb")]]
         [.lit (lc "border-radius:")] ::
       [.star notQuote, .lit (lc "\""), .star notGt, .lit (lc ">")])
      ('s' :: (lc "tyle=\"display:flex\">" ++ rest)) = some (21, none) := by
    rw [show 's' :: (lc "tyle=\"display:flex\">" ++ rest) =
          lc "style=\"" ++ (lc "display:flex\">" ++ rest) from rfl,
        matchSeq_lit_some (by rw [startsWithL_append_left (by simp [lc])]; decide),
        List.drop_left, hI]
    rfl
  have hR : runLen notGt ('s' :: (lc "tyle=\"display:flex\">" ++ rest)) = 20 := by
    rw [show 's' :: (lc "tyle=\"display:flex\">" ++ rest) =
          lc "style=\"display:flex\"" ++ ('>' :: rest) from rfl,
        runLen_append_stop notGt (lc "style=\"display:flex\"") (by decide) (by decide)]
    decide
  have hK := matchSeq_star_skipfail notGt hR (by decide) (by decide) hJ
  have hL : matchSeq true
      (.plus isWs :: .star notGt ::
       .lit (lc "style=\"") :: .star notQuote ::
       .alt3 [.lit (lc "display:"), .star isWs, .lit (lc "flex")]
         [.lit (lc "background"), .alt3 [.lit (lc "-color")] [] [],
          .lit (lc ":"), .star isWs,
          .alt3 [.lit (lc "#"), .one isHexI] [.lit (lc "rgb")] [.lit (lc "rgb")]]
         [.lit (lc "border-radius:")] ::
       [.star notQuote, .lit (lc "\""), .star notGt, .lit (lc ">")])
      (' ' :: (lc "style=\"display:flex\">" ++ rest)) = some (22, none) := by
    have hT0 : runLen isWs (lc "style=\"display:flex\">" ++ rest) = 0 := by
      rw [show lc "style=\"display:flex\">" ++ rest =
            's' :: (lc "tyle=\"display:flex\">" ++ rest) from rfl]
      exact runLen_head_false (by decide)
    exact matchSeq_plus_single (by decide) hT0 hK
  rw [show styledDivStartPat =
        .lit (lc "<div") :: .plus isWs :: .star notGt ::
        .lit (lc "style=\"") :: .star notQuote ::
        .alt3 [.lit (lc "display:"), .star isWs, .lit (lc "flex")]
          [.lit (lc "background"), .alt3 [.lit (lc "-color")] [] [],
           .lit (lc ":"), .star isWs,
           .alt3 [.lit (lc "#"), .one isHexI] [.lit (lc "rgb")] [.lit (lc "rgb")]]
          [.lit (lc "border-radius:")] ::
        [.star notQuote, .lit (lc "\""), .star notGt, .lit (lc ">")] from rfl,
      show lc "<div style=\"display:flex\">" ++ rest =
        lc "<div" ++ (' ' :: (lc "style=\"display:flex\">" ++ rest)) from rfl,
      matchSeq_lit_some (by rw [startsWithL_append_left (by simp [lc])]; decide),
      List.drop_left, hL]
  rfl


/-- `HR_PATTERN` consumes exactly the rendered styled rule, whatever follows. -/
theorem hrPat_hit (rest : List Char) :
    matchSeq true hrPat (renderP .phr ++ rest) =
      some ((renderP .phr).length, none) := by
  have a1 : matchSeq true [.lit (lc ">")] ('>' :: rest) = some (1, none) := by
    rw [show ('>' :: rest) = lc ">" ++ rest from rfl,
        matchSeq_lit_some (by rw [startsWithL_append_left (by simp [lc])]; decide),
        List.drop_left, matchSeq_nil]
    rfl
  have a2 : matchSeq true [.opt (fun c => c = '/'), .lit (lc ">")] ('>' :: rest) =
      some (1, none) := by
    rw [matchSeq_opt_skip (by decide)]
    exact a1
  have a3 : matchSeq true [.star notGt, .opt (fun c => c = '/'), .lit (lc ">")]
      ('>' :: rest) = some (1, none) :=
    matchSeq_star_zero (runLen_head_false (by decide)) a2
  have a4 : matchSeq true
      [.lit (lc "\""), .star notGt, .opt (fun c => c = '/'), .lit (lc ">")]
      ('"' :: ('>' :: rest)) = some (2, none) := by
    rw [show ('"' :: ('>' :: rest)) = lc "\"" ++ ('>' :: rest) from rfl,
        matchSeq_lit_some (by rw [startsWithL_append_left (by simp [lc])]; decide),
        List.drop_left, a3]
    rfl
  have hr5 : runLen notQuote
      (lc "border: 1px solid red" ++ ('"' :: ('>' :: rest))) = 21 := by
    rw [runLen_append_stop notQuote (lc "border: 1px solid red")
        (by decide) (by decide)]
    decide
  have a5 : matchSeq true
      [.star notQuote, .lit (lc "\""), .star notGt, .opt (fun c => c = '/'),
       .lit (lc ">")]
      (lc "border: 1px solid red" ++ ('"' :: ('>' :: rest))) =
      some (23, none) := by
    have hdrop : (lc "border: 1px solid red" ++ ('"' :: ('>' :: rest))).drop 21 =
        '"' :: ('>' :: rest) := List.drop_left' (by decide)
    have := matchSeq_star_max hr5 (by rw [hdrop]; exact a4)
    simpa using this
  have a6 : matchSeq true
      [.lit (lc "style=\""), .star notQuote, .lit (lc "\""), .star notGt,
       .opt (fun c => c = '/'), .lit (lc ">")]
      ('s' :: (lc "tyle=\"border: 1px solid red\">" ++ rest)) =
      some (30, none) := by
    rw [show 's' :: (lc "tyle=\"border: 1px solid red\">" ++ rest) =
          lc "style=\"" ++ (lc "border: 1px solid red" ++ ('"' :: ('>' :: rest)))
        from rfl,
        matchSeq_lit_some (by rw [startsWithL_append_left (by simp [lc])]; decide),
        List.drop_left, a5]
    rfl
  have hR : runLen notGt
      ('s' :: (lc "tyle=\"border: 1px solid red\">" ++ rest)) = 29 := by
    rw [show 's' :: (lc "tyle=\"border: 1px solid red\">" ++ rest) =
          lc "style=\"border: 1px solid red\"" ++ ('>' :: rest) from rfl,
        runLen_append_stop notGt (lc "style=\"border: 1px solid red\"")
          (by decide) (by decide)]
    decide
  have a7 := matchSeq_star_skipfail notGt hR (by decide) (by decide) a6
  have a8 : matchSeq true
      (.plus isWs :: .star notGt ::
       [.lit (lc "style=\""), .star notQuote, .lit (lc "\""), .star notGt,
        .opt (fun c => c = '/'), .lit (lc ">")])
      (' ' :: (lc "style=\"border: 1px solid red\">" ++ rest)) =
      some (31, none) := by
    have hT0 : runLen isWs (lc "style=\"border: 1px solid red\">" ++ rest) = 0 := by
      rw [show lc "style=\"border: 1px solid red\">" ++ rest =
            's' :: (lc "tyle=\"border: 1px solid red\">" ++ rest) from rfl]
      exact runLen_head_false (by decide)
    exact matchSeq_plus_single (by decide) hT0 a7
  rw [show hrPat =
        .lit (lc "<hr") :: .plus isWs :: .star notGt ::
        [.lit (lc "style=\""), .star notQuote, .lit (lc "\""), .star notGt,
         .opt (fun c => c = '/'), .lit (lc ">")] from rfl,
      show renderP .phr = lc "<hr style=\"border: 1px solid red\">" from rfl,
      show (lc "<hr style=\"border: 1px solid red\">").length = 34 from by decide,
      show lc "<hr style=\"border: 1px solid red\">" ++ rest =
        lc "<hr" ++ (' ' :: (lc "style=\"border: 1px solid red\">" ++ rest))
      from rfl,
      matchSeq_lit_some (by rw [startsWithL_append_left (by simp [lc])]; decide),
      List.drop_left, a8]
  rfl

/-- `STYLED_PRE_PATTERN` consumes exactly a rendered styled `pre` span. -/
theorem styledPrePat_hit {m : List Char} (hm : ltFree m = true)
    (rest : List Char) :
    matchSeq true styledPrePat (renderP (.ppre m) ++ rest) =
      some ((renderP (.ppre m)).length, none) := by
  have p1 : matchSeq true [.lit (lc "</pre>")] (lc "</pre>" ++ rest) =
      some (6, none) := by
    rw [matchSeq_lit_some (by rw [startsWithL_append_left (by simp [lc])]; decide),
        List.drop_left, matchSeq_nil]
    rfl
  have p2 : matchSeq true [.lazyStar anyc, .lit (lc "</pre>")]
      (m ++ (lc "</pre>" ++ rest)) = some (6 + m.length, none) := by
    have := lazy_skip_body (litKilled_ltFree hm) p1
    simpa using this
  have p3 : matchSeq true [.lit (lc ">"), .lazyStar anyc, .lit (lc "</pre>")]
      ('>' :: (m ++ (lc "</pre>" ++ rest))) = some (6 + m.length + 1, none) := by
    rw [show '>' :: (m ++ (lc "</pre>" ++ rest)) =
          lc ">" ++ (m ++ (lc "</pre>" ++ rest)) from rfl,
        matchSeq_lit_some (by rw [startsWithL_append_left (by simp [lc])]; decide),
        List.drop_left, p2]
    rfl
  have p4 : matchSeq true
      [.star notGt, .lit (lc ">"), .lazyStar anyc, .lit (lc "</pre>")]
      ('>' :: (m ++ (lc "</pre>" ++ rest))) = some (6 + m.length + 1, none) :=
    matchSeq_star_zero (runLen_head_false (by decide)) p3
  have p5 : matchSeq true
      [.lit (lc "\""), .star notGt, .lit (lc ">"), .lazyStar anyc,
       .lit (lc "</pre>")]
      ('"' :: ('>' :: (m ++ (lc "</pre>" ++ rest)))) =
      some (6 + m.length + 1 + 1, none) := by
    rw [show '"' :: ('>' :: (m ++ (lc "</pre>" ++ rest))) =
          lc "\"" ++ ('>' :: (m ++ (lc "</pre>" ++ rest))) from rfl,
        matchSeq_lit_some (by rw [startsWithL_append_left (by simp [lc])]; decide),
        List.drop_left, p4]
    rfl
  have hr6 : runLen notQuote
      (lc "background:#eee" ++ ('"' :: ('>' :: (m ++ (lc "</pre>" ++ rest))))) =
      15 := by
    rw [runLen_append_stop notQuote (lc "background:#eee") (by decide) (by decide)]
    decide
  have p6 : matchSeq true
      [.star notQuote, .lit (lc "\""), .star notGt, .lit (lc ">"),
       .lazyStar anyc, .lit (lc "</pre>")]
      (lc "background:#eee" ++ ('"' :: ('>' :: (m ++ (lc "</pre>" ++ rest))))) =
      some (6 + m.length + 1 + 1 + 15, none) := by
    have hdrop : (lc "background:#eee" ++
        ('"' :: ('>' :: (m ++ (lc "</pre>" ++ rest))))).drop 15 =
        '"' :: ('>' :: (m ++ (lc "</pre>" ++ rest))) := List.drop_left' (by decide)
    exact matchSeq_star_max hr6 (by rw [hdrop]; exact p5)
  have p7 : matchSeq true
      [.lit (lc "style=\""), .star notQuote, .lit (lc "\""), .star notGt,
       .lit (lc ">"), .lazyStar anyc, .lit (lc "</pre>")]
      ('s' :: (lc "tyle=\"background:#eee\">" ++ (m ++ (lc "</pre>" ++ rest)))) =
      some (6 + m.length + 1 + 1 + 15 + 7, none) := by
    rw [show 's' :: (lc "tyle=\"background:#eee\">" ++ (m ++ (lc "</pre>" ++ rest))) =
          lc "style=\"" ++
            (lc "background:#eee" ++ ('"' :: ('>' :: (m ++ (lc "</pre>" ++ rest)))))
        from rfl,
        matchSeq_lit_some (by rw [startsWithL_append_left (by simp [lc])]; decide),
        List.drop_left, p6]
    rfl
  have hR : runLen notGt
      ('s' :: (lc "tyle=\"background:#eee\">" ++ (m ++ (lc "</pre>" ++ rest)))) =
      23 := by
    rw [show 's' :: (lc "tyle=\"background:#eee\">" ++ (m ++ (lc "</pre>" ++ rest))) =
          lc "style=\"background:#eee\"" ++
            ('>' :: (m ++ (lc "</pre>" ++ rest))) from rfl,
        runLen_append_stop notGt (lc "style=\"background:#eee\"")
          (by decide) (by decide)]
    decide
  have p8 := matchSeq_star_skipfail notGt hR (by decide) (by decide) p7
  have p9 : matchSeq true
      (.plus isWs :: .star notGt ::
       [.lit (lc "style=\""), .star notQuote, .lit (lc "\""), .star notGt,
        .lit (lc ">"), .lazyStar anyc, .lit (lc "</pre>")])
      (' ' :: (lc "style=\"background:#eee\">" ++ (m ++ (lc "</pre>" ++ rest)))) =
      some (6 + m.length + 1 + 1 + 15 + 7 + 1, none) := by
    have hT0 : runLen isWs
        (lc "style=\"background:#eee\">" ++ (m ++ (lc "</pre>" ++ rest))) = 0 := by
      rw [show lc "style=\"background:#eee\">" ++ (m ++ (lc "</pre>" ++ rest)) =
            's' :: (lc "tyle=\"background:#eee\">" ++ (m ++ (lc "</pre>" ++ rest)))
          from rfl]
      exact runLen_head_false (by decide)
    exact matchSeq_plus_single (by decide) hT0 p8
  have hassoc : (lc "<pre style=\"background:#eee\">" ++ m ++ lc "</pre>") ++ rest =
      lc "<pre" ++
        (' ' :: (lc "style=\"background:#eee\">" ++ (m ++ (lc "</pre>" ++ rest)))) := by
    simp only [List.append_assoc]
    try rfl
  have hlen : (lc "<pre style=\"background:#eee\">" ++ m ++ lc "</pre>").length =
      6 + m.length + 1 + 1 + 15 + 7 + 1 + 4 := by
    rw [List.length_append, List.length_append,
        show (lc "<pre style=\"background:#eee\">").length = 29 from by decide,
        show (lc "</pre>").length = 6 from by decide]
    omega
  rw [show styledPrePat =
        .lit (lc "<pre") :: .plus isWs :: .star notGt ::
        [.lit (lc "style=\""), .star notQuote, .lit (lc "\""), .star notGt,
         .lit (lc ">"), .lazyStar anyc, .lit (lc "</pre>")] from rfl,
      show renderP (.ppre m) =
        lc "<pre style=\"background:#eee\">" ++ m ++ lc "</pre>" from rfl,
      hassoc, hlen,
      matchSeq_lit_some (by rw [startsWithL_append_left (by simp [lc])]; decide),
      List.drop_left, p9]
  rfl

/-- `BLOCKQUOTE_PATTERN` consumes exactly a rendered styled blockquote span. -/
theorem blockquotePat_hit {m : List Char} (hm : ltFree m = true)
    (rest : List Char) :
    matchSeq true blockquotePat (renderP (.pbq m) ++ rest) =
      some ((renderP (.pbq m)).length, none) := by
  have p1 : matchSeq true [.lit (lc "</blockquote>")] (lc "</blockquote>" ++ rest) =
      some (13, none) := by
    rw [matchSeq_lit_some (by rw [startsWithL_append_left (by simp [lc])]; decide),
        List.drop_left, matchSeq_nil]
    rfl
  have p2 : matchSeq true [.lazyStar anyc, .lit (lc "</blockquote>")]
      (m ++ (lc "</blockquote>" ++ rest)) = some (13 + m.length, none) := by
    have := lazy_skip_body (litKilled_ltFree hm) p1
    simpa using this
  have p3 : matchSeq true
      [.lit (lc ">"), .lazyStar anyc, .lit (lc "</blockquote>")]
      ('>' :: (m ++ (lc "</blockquote>" ++ rest))) =
      some (13 + m.length + 1, none) := by
    rw [show '>' :: (m ++ (lc "</blockquote>" ++ rest)) =
          lc ">" ++ (m ++ (lc "</blockquote>" ++ rest)) from rfl,
        matchSeq_lit_some (by rw [startsWithL_append_left (by simp [lc])]; decide),
        List.drop_left, p2]
    rfl
  have p4 : matchSeq true
      [.star notGt, .lit (lc ">"), .lazyStar anyc, .lit (lc "</blockquote>")]
      ('>' :: (m ++ (lc "</blockquote>" ++ rest))) =
      some (13 + m.length + 1, none) :=
    matchSeq_star_zero (runLen_head_false (by decide)) p3
  have p5 : matchSeq true
      [.lit (lc "\""), .star notGt, .lit (lc ">"), .lazyStar anyc,
       .lit (lc "</blockquote>")]
      ('"' :: ('>' :: (m ++ (lc "</blockquote>" ++ rest)))) =
      some (13 + m.length + 1 + 1, none) := by
    rw [show '"' :: ('>' :: (m ++ (lc "</blockquote>" ++ rest))) =
          lc "\"" ++ ('>' :: (m ++ (lc "</blockquote>" ++ rest))) from rfl,
        matchSeq_lit_some (by rw [startsWithL_append_left (by simp [lc])]; decide),
        List.drop_left, p4]
    rfl
  have hr6 : runLen notQuote
      (lc "color:red" ++ ('"' :: ('>' :: (m ++ (lc "</blockquote>" ++ rest))))) =
      9 := by
    rw [runLen_append_stop notQuote (lc "color:red") (by decide) (by decide)]
    decide
  have p6 : matchSeq true
      [.star notQuote, .lit (lc "\""), .star notGt, .lit (lc ">"),
       .lazyStar anyc, .lit (lc "</blockquote>")]
      (lc "color:red" ++ ('"' :: ('>' :: (m ++ (lc "</blockquote>" ++ rest))))) =
      some (13 + m.length + 1 + 1 + 9, none) := by
    have hdrop : (lc "color:red" ++
        ('"' :: ('>' :: (m ++ (lc "</blockquote>" ++ rest))))).drop 9 =
        '"' :: ('>' :: (m ++ (lc "</blockquote>" ++ rest))) :=
      List.drop_left' (by decide)
    exact matchSeq_star_max hr6 (by rw [hdrop]; exact p5)
  have p7 : matchSeq true
      [.lit (lc "style=\""), .star notQuote, .lit (lc "\""), .star notGt,
       .lit (lc ">"), .lazyStar anyc, .lit (lc "</blockquote>")]
      ('s' :: (lc "tyle=\"color:red\">" ++ (m ++ (lc "</blockquote>" ++ rest)))) =
      some (13 + m.length + 1 + 1 + 9 + 7, none) := by
    rw [show 's' :: (lc "tyle=\"color:red\">" ++ (m ++ (lc "</blockquote>" ++ rest))) =
          lc "style=\"" ++
            (lc "color:red" ++ ('"' :: ('>' :: (m ++ (lc "</blockquote>" ++ rest)))))
        from rfl,
        matchSeq_lit_some (by rw [startsWithL_append_left (by simp [lc])]; decide),
        List.drop_left, p6]
    rfl
  have hR : runLen notGt
      ('s' :: (lc "tyle=\"color:red\">" ++ (m ++ (lc "</blockquote>" ++ rest)))) =
      17 := by
    rw [show 's' :: (lc "tyle=\"color:red\">" ++ (m ++ (lc "</blockquote>" ++ rest))) =
          lc "style=\"color:red\"" ++ ('>' :: (m ++ (lc "</blockquote>" ++ rest)))
        from rfl,
        runLen_append_stop notGt (lc "style=\"color:red\"") (by decide) (by decide)]
    decide
  have p8 := matchSeq_star_skipfail notGt hR (by decide) (by decide) p7
  have p9 : matchSeq true
      (.plus isWs :: .star notGt ::
       [.lit (lc "style=\""), .star notQuote, .lit (lc "\""), .star notGt,
        .lit (lc ">"), .lazyStar anyc, .lit (lc "</blockquote>")])
      (' ' :: (lc "style=\"color:red\">" ++ (m ++ (lc "</blockquote>" ++ rest)))) =
      some (13 + m.length + 1 + 1 + 9 + 7 + 1, none) := by
    have hT0 : runLen isWs
        (lc "style=\"color:red\">" ++ (m ++ (lc "</blockquote>" ++ rest))) = 0 := by
      rw [show lc "style=\"color:red\">" ++ (m ++ (lc "</blockquote>" ++ rest)) =
            's' :: (lc "tyle=\"color:red\">" ++ (m ++ (lc "</blockquote>" ++ rest)))
          from rfl]
      exact runLen_head_false (by decide)
    exact matchSeq_plus_single (by decide) hT0 p8
  have hassoc : (lc "<blockquote style=\"color:red\">" ++ m ++ lc "</blockquote>") ++
      rest =
      lc "<blockquote" ++
        (' ' :: (lc "style=\"color:red\">" ++ (m ++ (lc "</blockquote>" ++ rest)))) := by
    simp only [List.append_assoc]
    try rfl
  have hlen : (lc "<blockquote style=\"color:red\">" ++ m ++
      lc "</blockquote>").length = 13 + m.length + 1 + 1 + 9 + 7 + 1 + 11 := by
    rw [List.length_append, List.length_append,
        show (lc "<blockquote style=\"color:red\">").length = 30 from by decide,
        show (lc "</blockquote>").length = 13 from by decide]
    omega
  rw [show blockquotePat =
        .lit (lc "<blockquote") :: .plus isWs :: .star notGt ::
        [.lit (lc "style=\""), .star notQuote, .lit (lc "\""), .star notGt,
         .lit (lc ">"), .lazyStar anyc, .lit (lc "</blockquote>")] from rfl,
      show renderP (.pbq m) =
        lc "<blockquote style=\"color:red\">" ++ m ++ lc "</blockquote>" from rfl,
      hassoc, hlen,
      matchSeq_lit_some (by rw [startsWithL_append_left (by simp [lc])]; decide),
      List.drop_left, p9]
  rfl

/-- `TABLE_PATTERN` at a rendered table segment. -/
theorem tablePat_hit' {m : List Char} (hm : ltFree m = true)
    (rest : List Char) :
    matchSeq true tablePat (renderP (.ptable m) ++ rest) =
      some ((renderP (.ptable m)).length, none) := by
  rw [show renderP (.ptable m) = lc "<table" ++ m ++ lc "</table>" from rfl]
  exact tablePat_hit hm


theorem digits_notQuote {s : List Char} (h : ∀ c ∈ s, c.isDigit = true) :
    ∀ c ∈ s, notQuote c = true := by
  intro c hc
  have hd := digit_toNat (h c hc)
  simp only [notQuote, ne_eq, decide_eq_true_eq]
  intro he
  subst he
  revert hd
  decide

theorem digits_notGt {s : List Char} (h : ∀ c ∈ s, c.isDigit = true) :
    ∀ c ∈ s, notGt c = true := by
  intro c hc
  have hd := digit_toNat (h c hc)
  simp only [notGt, ne_eq, decide_eq_true_eq]
  intro he
  subst he
  revert hd
  decide

theorem tyOk_notGt {ty : List Char} (h : tyOkB ty = true) :
    ∀ c ∈ ty, notGt c = true := by
  simp only [tyOkB, Bool.or_eq_true, decide_eq_true_eq] at h
  rcases h with ((((h | h) | h) | h) | h) <;> subst h <;> decide

/-- `blotPattern` consumes exactly a rendered placeholder and captures its
component id. -/
theorem blotPat_hit {id ty : List Char} (hid : digitsOnly id = true)
    (hty : tyOkB ty = true) (rest : List Char) :
    matchSeq true blotPat (renderP (.pph id ty) ++ rest) =
      some ((renderP (.pph id ty)).length, some id) := by
  obtain ⟨d, id', rfl⟩ : ∃ d id', id = d :: id' := by
    cases id with
    | nil => exact absurd hid (by decide)
    | cons d id' => exact ⟨d, id', rfl⟩
  have hdig := digitsOnly_chars hid
  have c1 : matchSeq true [.lit (lc "</div>")] (lc "</div>" ++ rest) =
      some (6, none) := by
    rw [matchSeq_lit_some (by rw [startsWithL_append_left (by simp [lc])]; decide),
        List.drop_left, matchSeq_nil]
    rfl
  have c2 : matchSeq true [.lazyStar anyc, .lit (lc "</div>")]
      (lc "</div>" ++ rest) = some (6, none) := by
    rw [matchSeq_lazyStar]
    exact tryAsc_zero_some c1
  have c3 : matchSeq true [.lit (lc ">"), .lazyStar anyc, .lit (lc "</div>")]
      ('>' :: (lc "</div>" ++ rest)) = some (7, none) := by
    rw [show '>' :: (lc "</div>" ++ rest) = lc ">" ++ (lc "</div>" ++ rest) from rfl,
        matchSeq_lit_some (by rw [startsWithL_append_left (by simp [lc])]; decide),
        List.drop_left, c2]
    rfl
  have c4 : matchSeq true
      [.star notGt, .lit (lc ">"), .lazyStar anyc, .lit (lc "</div>")]
      ('>' :: (lc "</div>" ++ rest)) = some (7, none) :=
    matchSeq_star_zero (runLen_head_false (by decide)) c3
  have heq5 : lc " data-component-type=\"" ++
      (ty ++ (lc "\" data-display-mode=\"preview\"" ++ ('>' :: (lc "</div>" ++ rest)))) =
      (lc " data-component-type=\"" ++
        (ty ++ lc "\" data-display-mode=\"preview\"")) ++
        ('>' :: (lc "</div>" ++ rest)) := by
    simp only [List.append_assoc]
  have hr5 : runLen notGt
      (lc " data-component-type=\"" ++
       (ty ++ (lc "\" data-display-mode=\"preview\"" ++ ('>' :: (lc "</div>" ++ rest))))) =
      51 + ty.length := by
    rw [heq5, runLen_append_stop notGt
        (lc " data-component-type=\"" ++ (ty ++ lc "\" data-display-mode=\"preview\""))
        (by
          intro c hc
          simp only [List.mem_append] at hc
          rcases hc with h | h | h
          · exact (by decide : ∀ x ∈ lc " data-component-type=\"", notGt x = true) c h
          · exact tyOk_notGt hty c h
          · exact (by decide :
              ∀ x ∈ lc "\" data-display-mode=\"preview\"", notGt x = true) c h)
        (by decide),
      List.length_append, List.length_append,
      show (lc " data-component-type=\"").length = 22 from by decide,
      show (lc "\" data-display-mode=\"preview\"").length = 29 from by decide]
    omega
  have c5 : matchSeq true
      [.star notGt, .lit (lc ">"), .lazyStar anyc, .lit (lc "</div>")]
      (lc " data-component-type=\"" ++
       (ty ++ (lc "\" data-display-mode=\"preview\"" ++ ('>' :: (lc "</div>" ++ rest))))) =
      some (7 + (51 + ty.length), none) := by
    have hdrop : (lc " data-component-type=\"" ++
        (ty ++ (lc "\" data-display-mode=\"preview\"" ++
          ('>' :: (lc "</div>" ++ rest))))).drop (51 + ty.length) =
        '>' :: (lc "</div>" ++ rest) := by
      rw [heq5]
      refine List.drop_left' ?_
      rw [List.length_append, List.length_append,
          show (lc " data-component-type=\"").length = 22 from by decide,
          show (lc "\" data-display-mode=\"preview\"").length = 29 from by decide]
      omega
    exact matchSeq_star_max hr5 (by rw [hdrop]; exact c3)
  have c6 : matchSeq true
      [.lit (lc "\""), .star notGt, .lit (lc ">"), .lazyStar anyc,
       .lit (lc "</div>")]
      ('"' :: (lc " data-component-type=\"" ++
       (ty ++ (lc "\" data-display-mode=\"preview\"" ++ ('>' :: (lc "</div>" ++ rest)))))) =
      some (7 + (51 + ty.length) + 1, none) := by
    rw [show '"' :: (lc " data-component-type=\"" ++
          (ty ++ (lc "\" data-display-mode=\"preview\"" ++
            ('>' :: (lc "</div>" ++ rest))))) =
          lc "\"" ++ (lc " data-component-type=\"" ++
          (ty ++ (lc "\" data-display-mode=\"preview\"" ++
            ('>' :: (lc "</div>" ++ rest))))) from rfl,
        matchSeq_lit_some (by rw [startsWithL_append_left (by simp [lc])]; decide),
        List.drop_left, c5]
    rfl
  have hr7 : runLen notQuote
      ((d :: id') ++ ('"' :: (lc " data-component-type=\"" ++
       (ty ++ (lc "\" data-display-mode=\"preview\"" ++ ('>' :: (lc "</div>" ++ rest))))))) =
      id'.length + 1 := by
    rw [runLen_append_stop notQuote (d :: id') (digits_notQuote hdig) (by decide),
        List.length_cons]
  have h0c : matchSeq true
      [.lit (lc "\""), .star notGt, .lit (lc ">"), .lazyStar anyc,
       .lit (lc "</div>")]
      (((d :: id') ++ ('"' :: (lc " data-component-type=\"" ++
       (ty ++ (lc "\" data-display-mode=\"preview\"" ++
        ('>' :: (lc "</div>" ++ rest))))))).drop (id'.length + 1)) =
      some (7 + (51 + ty.length) + 1, none) := by
    rw [List.drop_left' (show (d :: id').length = id'.length + 1 from by simp)]
    exact c6
  have hcap := tryDescCap_eval (show 1 ≤ id'.length + 1 from by omega)
    (Nat.le_refl (id'.length + 1)) h0c
    (fun k h1 h2 => absurd h2 (Nat.not_le.mpr h1))
  have c7 : matchSeq true
      (.cap notQuote :: [.lit (lc "\""), .star notGt, .lit (lc ">"),
       .lazyStar anyc, .lit (lc "</div>")])
      ((d :: id') ++ ('"' :: (lc " data-component-type=\"" ++
       (ty ++ (lc "\" data-display-mode=\"preview\"" ++ ('>' :: (lc "</div>" ++ rest))))))) =
      some (7 + (51 + ty.length) + 1 + (id'.length + 1), some (d :: id')) := by
    rw [matchSeq_cap, hr7]
    show tryDescCap true
      [.lit (lc "\""), .star notGt, .lit (lc ">"), .lazyStar anyc,
       .lit (lc "</div>")]
      ((d :: id') ++ ('"' :: (lc " data-component-type=\"" ++
       (ty ++ (lc "\" data-display-mode=\"preview\"" ++ ('>' :: (lc "</div>" ++ rest)))))))
      (id'.length + 1) = _
    rw [hcap,
        List.take_left' (show (d :: id').length = id'.length + 1 from by simp)]
    rfl
  have c8 : matchSeq true
      (.lit (lc "data-component-id=\"") :: .cap notQuote ::
       [.lit (lc "\""), .star notGt, .lit (lc ">"), .lazyStar anyc,
        .lit (lc "</div>")])
      ('d' :: (lc "ata-component-id=\"" ++
       ((d :: id') ++ ('"' :: (lc " data-component-type=\"" ++
        (ty ++ (lc "\" data-display-mode=\"preview\"" ++
         ('>' :: (lc "</div>" ++ rest))))))))) =
      some (7 + (51 + ty.length) + 1 + (id'.length + 1) + 19, some (d :: id')) := by
    rw [show 'd' :: (lc "ata-component-id=\"" ++
          ((d :: id') ++ ('"' :: (lc " data-component-type=\"" ++
           (ty ++ (lc "\" data-display-mode=\"preview\"" ++
            ('>' :: (lc "</div>" ++ rest)))))))) =
          lc "data-component-id=\"" ++
          ((d :: id') ++ ('"' :: (lc " data-component-type=\"" ++
           (ty ++ (lc "\" data-display-mode=\"preview\"" ++
            ('>' :: (lc "</div>" ++ rest))))))) from rfl,
        matchSeq_lit_some (by rw [startsWithL_append_left (by simp [lc])]; decide),
        List.drop_left, c7]
    rfl
  have hfl9 : ([lc "ata-component-id=\"", d :: id', lc "\" data-component-type=\"",
      ty, lc "\" data-display-mode=\"", lc "preview",
      lc "\"></div>"] : List (List Char)).flatten.length =
      id'.length + ty.length + 78 := by
    simp only [List.flatten_cons, List.flatten_nil, List.append_nil,
      List.length_append, List.length_cons,
      show (lc "ata-component-id=\"").length = 18 from by decide,
      show (lc "\" data-component-type=\"").length = 23 from by decide,
      show (lc "\" data-display-mode=\"").length = 21 from by decide,
      show (lc "preview").length = 7 from by decide,
      show (lc "\"></div>").length = 8 from by decide]
    omega
  have heqP9 : lc "ata-component-id=\"" ++
      ((d :: id') ++ ('"' :: (lc " data-component-type=\"" ++
       (ty ++ (lc "\" data-display-mode=\"preview\"" ++ ('>' :: (lc "</div>" ++ rest))))))) =
      ([lc "ata-component-id=\"", d :: id', lc "\" data-component-type=\"",
        ty, lc "\" data-display-mode=\"", lc "preview",
        lc "\"></div>"] : List (List Char)).flatten ++ rest := by
    simp only [List.flatten_cons, List.flatten_nil, List.append_nil,
      List.append_assoc]
    try rfl
  have hkill9 : ∀ p ∈ [lc "ata-component-id=\"", d :: id',
      lc "\" data-component-type=\"", ty, lc "\" data-display-mode=\"",
      lc "preview", lc "\"></div>"],
      litKilled (lc "data-component-id=\"") p = true := by
    intro p hp
    simp only [List.mem_cons, List.not_mem_nil, or_false] at hp
    rcases hp with h | h | h | h | h | h | h <;> subst h
    · decide
    · exact litKilled_digits (by decide) (by decide) hdig
    · decide
    · exact litKilled_tyOk hty (by decide) (by decide) (by decide) (by decide)
        (by decide)
    · decide
    · decide
    · decide
  have hr9 : runLen notGt
      (' ' :: ('d' :: (lc "ata-component-id=\"" ++
       ((d :: id') ++ ('"' :: (lc " data-component-type=\"" ++
        (ty ++ (lc "\" data-display-mode=\"preview\"" ++
         ('>' :: (lc "</div>" ++ rest)))))))))) =
      id'.length + ty.length + 73 := by
    rw [show (' ' :: ('d' :: (lc "ata-component-id=\"" ++
          ((d :: id') ++ ('"' :: (lc " data-component-type=\"" ++
           (ty ++ (lc "\" data-display-mode=\"preview\"" ++
            ('>' :: (lc "</div>" ++ rest)))))))))) =
          (lc " data-component-id=\"" ++
           ((d :: id') ++ (lc "\" data-component-type=\"" ++
            (ty ++ lc "\" data-display-mode=\"preview\"")))) ++
          ('>' :: (lc "</div>" ++ rest)) from by
        simp only [List.append_assoc]
        try rfl,
      runLen_append_stop notGt
        (lc " data-component-id=\"" ++
         ((d :: id') ++ (lc "\" data-component-type=\"" ++
          (ty ++ lc "\" data-display-mode=\"preview\""))))
        (by
          intro c hc
          simp only [List.mem_append] at hc
          rcases hc with h | h | h | h | h
          · exact (by decide : ∀ x ∈ lc " data-component-id=\"", notGt x = true) c h
          · exact digits_notGt hdig c h
          · exact (by decide :
              ∀ x ∈ lc "\" data-component-type=\"", notGt x = true) c h
          · exact tyOk_notGt hty c h
          · exact (by decide :
              ∀ x ∈ lc "\" data-display-mode=\"preview\"", notGt x = true) c h)
        (by decide)]
    simp only [List.length_append, List.length_cons,
      show (lc " data-component-id=\"").length = 20 from by decide,
      show (lc "\" data-component-type=\"").length = 23 from by decide,
      show (lc "\" data-display-mode=\"preview\"").length = 29 from by decide]
    omega
  have c9 : matchSeq true
      (.star notGt :: .lit (lc "data-component-id=\"") :: .cap notQuote ::
       [.lit (lc "\""), .star notGt, .lit (lc ">"), .lazyStar anyc,
        .lit (lc "</div>")])
      (' ' :: ('d' :: (lc "ata-component-id=\"" ++
       ((d :: id') ++ ('"' :: (lc " data-component-type=\"" ++
        (ty ++ (lc "\" data-display-mode=\"preview\"" ++
         ('>' :: (lc "</div>" ++ rest)))))))))) =
      some (7 + (51 + ty.length) + 1 + (id'.length + 1) + 19 + 1,
        some (d :: id')) := by
    rw [matchSeq_star, hr9]
    have h09 : matchSeq true
        (.lit (lc "data-component-id=\"") :: .cap notQuote ::
         [.lit (lc "\""), .star notGt, .lit (lc ">"), .lazyStar anyc,
          .lit (lc "</div>")])
        ((' ' :: ('d' :: (lc "ata-component-id=\"" ++
         ((d :: id') ++ ('"' :: (lc " data-component-type=\"" ++
          (ty ++ (lc "\" data-display-mode=\"preview\"" ++
           ('>' :: (lc "</div>" ++ rest)))))))))).drop 1) =
        some (7 + (51 + ty.length) + 1 + (id'.length + 1) + 19,
          some (d :: id')) := by
      rw [List.drop_succ_cons, List.drop_zero]
      exact c8
    exact tryDesc_eval (by omega) h09
      (fun k hk1 hk2 => by
        obtain ⟨j, rfl⟩ : ∃ j, k = j + 2 := ⟨k - 2, by omega⟩
        rw [List.drop_succ_cons, List.drop_succ_cons, heqP9]
        exact parts_skip _ rest hkill9 j (by rw [hfl9]; omega))
  have c10 : matchSeq true
      (.lit (lc "class=\"ql-component-placeholder\"") :: .star notGt ::
       .lit (lc "data-component-id=\"") :: .cap notQuote ::
       [.lit (lc "\""), .star notGt, .lit (lc ">"), .lazyStar anyc,
        .lit (lc "</div>")])
      ('c' :: (lc "lass=\"ql-component-placeholder\"" ++
       (' ' :: ('d' :: (lc "ata-component-id=\"" ++
        ((d :: id') ++ ('"' :: (lc " data-component-type=\"" ++
         (ty ++ (lc "\" data-display-mode=\"preview\"" ++
          ('>' :: (lc "</div>" ++ rest)))))))))))) =
      some (7 + (51 + ty.length) + 1 + (id'.length + 1) + 19 + 1 + 32,
        some (d :: id')) := by
    rw [show ('c' :: (lc "lass=\"ql-component-placeholder\"" ++
          (' ' :: ('d' :: (lc "ata-component-id=\"" ++
           ((d :: id') ++ ('"' :: (lc " data-component-type=\"" ++
            (ty ++ (lc "\" data-display-mode=\"preview\"" ++
             ('>' :: (lc "</div>" ++ rest)))))))))))) =
          lc "class=\"ql-component-placeholder\"" ++
          (' ' :: ('d' :: (lc "ata-component-id=\"" ++
           ((d :: id') ++ ('"' :: (lc " data-component-type=\"" ++
            (ty ++ (lc "\" data-display-mode=\"preview\"" ++
             ('>' :: (lc "</div>" ++ rest)))))))))) from rfl,
        matchSeq_lit_some (by rw [startsWithL_append_left (by simp [lc])]; decide),
        List.drop_left, c9]
    rfl
  have hfl11 : ([lc "lass=\"ql-component-placeholder\"",
      lc " data-component-id=\"", d :: id', lc "\" data-component-type=\"",
      ty, lc "\" data-display-mode=\"", lc "preview",
      lc "\"></div>"] : List (List Char)).flatten.length =
      id'.length + ty.length + 111 := by
    simp only [List.flatten_cons, List.flatten_nil, List.append_nil,
      List.length_append, List.length_cons,
      show (lc "lass=\"ql-component-placeholder\"").length = 31 from by decide,
      show (lc " data-component-id=\"").length = 20 from by decide,
      show (lc "\" data-component-type=\"").length = 23 from by decide,
      show (lc "\" data-display-mode=\"").length = 21 from by decide,
      show (lc "preview").length = 7 from by decide,
      show (lc "\"></div>").length = 8 from by decide]
    omega
  have heqP11 : lc "lass=\"ql-component-placeholder\"" ++
      (' ' :: ('d' :: (lc "ata-component-id=\"" ++
       ((d :: id') ++ ('"' :: (lc " data-component-type=\"" ++
        (ty ++ (lc "\" data-display-mode=\"preview\"" ++
         ('>' :: (lc "</div>" ++ rest)))))))))) =
      ([lc "lass=\"ql-component-placeholder\"", lc " data-component-id=\"",
        d :: id', lc "\" data-component-type=\"", ty,
        lc "\" data-display-mode=\"", lc "preview",
        lc "\"></div>"] : List (List Char)).flatten ++ rest := by
    simp only [List.flatten_cons, List.flatten_nil, List.append_nil,
      List.append_assoc]
    try rfl
  have hkill11 : ∀ p ∈ [lc "lass=\"ql-component-placeholder\"",
      lc " data-component-id=\"", d :: id', lc "\" data-component-type=\"",
      ty, lc "\" data-display-mode=\"", lc "preview", lc "\"></div>"],
      litKilled (lc "class=\"ql-component-placeholder\"") p = true := by
    intro p hp
    simp only [List.mem_cons, List.not_mem_nil, or_false] at hp
    rcases hp with h | h | h | h | h | h | h | h <;> subst h
    · decide
    · decide
    · exact litKilled_digits (by decide) (by decide) hdig
    · decide
    · exact litKilled_tyOk hty (by decide) (by decide) (by decide) (by decide)
        (by decide)
    · decide
    · decide
    · decide
  have hr11 : runLen notGt
      (' ' :: ('c' :: (lc "lass=\"ql-component-placeholder\"" ++
       (' ' :: ('d' :: (lc "ata-component-id=\"" ++
        ((d :: id') ++ ('"' :: (lc " data-component-type=\"" ++
         (ty ++ (lc "\" data-display-mode=\"preview\"" ++
          ('>' :: (lc "</div>" ++ rest)))))))))))))  =
      id'.length + ty.length + 106 := by
    rw [show (' ' :: ('c' :: (lc "lass=\"ql-component-placeholder\"" ++
          (' ' :: ('d' :: (lc "ata-component-id=\"" ++
           ((d :: id') ++ ('"' :: (lc " data-component-type=\"" ++
            (ty ++ (lc "\" data-display-mode=\"preview\"" ++
             ('>' :: (lc "</div>" ++ rest)))))))))))))  =
          (lc " class=\"ql-component-placeholder\" data-component-id=\"" ++
           ((d :: id') ++ (lc "\" data-component-type=\"" ++
            (ty ++ lc "\" data-display-mode=\"preview\"")))) ++
          ('>' :: (lc "</div>" ++ rest)) from by
        simp only [List.append_assoc]
        try rfl,
      runLen_append_stop notGt
        (lc " class=\"ql-component-placeholder\" data-component-id=\"" ++
         ((d :: id') ++ (lc "\" data-component-type=\"" ++
          (ty ++ lc "\" data-display-mode=\"preview\""))))
        (by
          intro c hc
          simp only [List.mem_append] at hc
          rcases hc with h | h | h | h | h
          · exact (by decide : ∀ x ∈
              lc " class=\"ql-component-placeholder\" data-component-id=\"",
              notGt x = true) c h
          · exact digits_notGt hdig c h
          · exact (by decide :
              ∀ x ∈ lc "\" data-component-type=\"", notGt x = true) c h
          · exact tyOk_notGt hty c h
          · exact (by decide :
              ∀ x ∈ lc "\" data-display-mode=\"preview\"", notGt x = true) c h)
        (by decide)]
    simp only [List.length_append, List.length_cons,
      show (lc " class=\"ql-component-placeholder\" data-component-id=\"").length =
        53 from by decide,
      show (lc "\" data-component-type=\"").length = 23 from by decide,
      show (lc "\" data-display-mode=\"preview\"").length = 29 from by decide]
    omega
  have c11 : matchSeq true
      (.star notGt :: .lit (lc "class=\"ql-component-placeholder\"") ::
       .star notGt :: .lit (lc "data-component-id=\"") :: .cap notQuote ::
       [.lit (lc "\""), .star notGt, .lit (lc ">"), .lazyStar anyc,
        .lit (lc "</div>")])
      (' ' :: ('c' :: (lc "lass=\"ql-component-placeholder\"" ++
       (' ' :: ('d' :: (lc "ata-component-id=\"" ++
        ((d :: id') ++ ('"' :: (lc " data-component-type=\"" ++
         (ty ++ (lc "\" data-display-mode=\"preview\"" ++
          ('>' :: (lc "</div>" ++ rest)))))))))))))  =
      some (7 + (51 + ty.length) + 1 + (id'.length + 1) + 19 + 1 + 32 + 1,
        some (d :: id')) := by
    rw [matchSeq_star, hr11]
    have h011 : matchSeq true
        (.lit (lc "class=\"ql-component-placeholder\"") :: .star notGt ::
         .lit (lc "data-component-id=\"") :: .cap notQuote ::
         [.lit (lc "\""), .star notGt, .lit (lc ">"), .lazyStar anyc,
          .lit (lc "</div>")])
        ((' ' :: ('c' :: (lc "lass=\"ql-component-placeholder\"" ++
         (' ' :: ('d' :: (lc "ata-component-id=\"" ++
          ((d :: id') ++ ('"' :: (lc " data-component-type=\"" ++
           (ty ++ (lc "\" data-display-mode=\"preview\"" ++
            ('>' :: (lc "</div>" ++ rest))))))))))))).drop 1) =
        some (7 + (51 + ty.length) + 1 + (id'.length + 1) + 19 + 1 + 32,
          some (d :: id')) := by
      rw [List.drop_succ_cons, List.drop_zero]
      exact c10
    exact tryDesc_eval (by omega) h011
      (fun k hk1 hk2 => by
        obtain ⟨j, rfl⟩ : ∃ j, k = j + 2 := ⟨k - 2, by omega⟩
        rw [List.drop_succ_cons, List.drop_succ_cons, heqP11]
        exact parts_skip _ rest hkill11 j (by rw [hfl11]; omega))
  have hassocF : renderP (.pph (d :: id') ty) ++ rest =
      lc "<div" ++
      (' ' :: ('c' :: (lc "lass=\"ql-component-placeholder\"" ++
       (' ' :: ('d' :: (lc "ata-component-id=\"" ++
        ((d :: id') ++ ('"' :: (lc " data-component-type=\"" ++
         (ty ++ (lc "\" data-display-mode=\"preview\"" ++
          ('>' :: (lc "</div>" ++ rest)))))))))))))  := by
    simp only [renderP, placeholderStr, List.append_assoc]
    try rfl
  have hlenF : (renderP (.pph (d :: id') ty)).length =
      7 + (51 + ty.length) + 1 + (id'.length + 1) + 19 + 1 + 32 + 1 + 4 := by
    simp only [renderP, placeholderStr, List.length_append, List.length_cons,
      show (lc "<div class=\"ql-component-placeholder\" data-component-id=\"").length =
        57 from by decide,
      show (lc "\" data-component-type=\"").length = 23 from by decide,
      show (lc "\" data-display-mode=\"").length = 21 from by decide,
      show (lc "preview").length = 7 from by decide,
      show (lc "\"></div>").length = 8 from by decide]
    omega
  rw [show blotPat =
        .lit (lc "<div") :: .star notGt ::
        .lit (lc "class=\"ql-component-placeholder\"") :: .star notGt ::
        .lit (lc "data-component-id=\"") :: .cap notQuote ::
        [.lit (lc "\""), .star notGt, .lit (lc ">"), .lazyStar anyc,
         .lit (lc "</div>")] from rfl,
      hassocF, hlenF,
      matchSeq_lit_some (by rw [startsWithL_append_left (by simp [lc])]; decide),
      List.drop_left, c11]
  rfl

theorem regGet_regSet_self' (reg : Registry) (k : List Char) (v : ComponentRecord) :
    regGet (regSet reg k v) k = some v := by
  induction reg with
  | nil => simp [regSet, regGet]
  | cons e rest ih =>
      by_cases h : e.1 = k
      · simp [regSet, regGet, h]
      · simp [regSet, regGet, h, ih]

theorem regGet_regSet_other' (reg : Registry) (k k2 : List Char)
    (v : ComponentRecord) (h : k ≠ k2) :
    regGet (regSet reg k v) k2 = regGet reg k2 := by
  induction reg with
  | nil => simp [regSet, regGet, h]
  | cons e rest ih =>
      by_cases he : e.1 = k
      · simp [regSet, regGet, he, h]
      · simp [regSet, regGet, he, ih]

theorem charsVal_append_digit (xs : List Char) (c : Char) :
    charsVal (xs ++ [c]) = charsVal xs * 10 + (c.toNat - 48) := by
  simp [charsVal, List.foldl_append]

theorem digitChar10_toNat (k : Nat) (h : k < 10) :
    (digitChar10 k).toNat - 48 = k := by
  interval_cases k <;> decide

theorem charsVal_natCharsGo (fuel : Nat) :
    ∀ n, n < fuel → charsVal (natCharsGo fuel n) = n := by
  induction fuel with
  | zero => omega
  | succ f ih =>
      intro n hn
      by_cases h10 : n < 10
      · simp [natCharsGo, h10, charsVal, digitChar10_toNat n h10]
      · have hdiv : n / 10 < n := Nat.div_lt_self (by omega) (by omega)
        simp only [natCharsGo, h10, if_false]
        rw [charsVal_append_digit, ih (n / 10) (by omega),
          digitChar10_toNat (n % 10) (by omega)]
        omega

theorem idString_inj (m n : Nat) (h : idString m = idString n) : m = n := by
  have hm := charsVal_natCharsGo (m + 1) m (by omega)
  have hn := charsVal_natCharsGo (n + 1) n (by omega)
  simp only [idString, natChars] at h
  rw [← hm, ← hn, h]

/-! ## The generic replace-driven extraction stage. -/

theorem renderPDoc_nil : renderPDoc [] = [] := rfl

theorem renderPDoc_cons (seg : PSeg) (d : List PSeg) :
    renderPDoc (seg :: d) = renderP seg ++ renderPDoc d := by
  simp [renderPDoc]

/-- A replace-driven extraction stage, evaluated over a rendered document:
segments the stage recognizes are swallowed whole (by the hit hypothesis) and
everything else is passed over (by the skip hypothesis). -/
theorem replace_stage (pat : List RElem) (ty : List Char) (isK : PSeg → Bool) :
    ∀ (d : List PSeg) (st : ExtractSt),
      (∀ seg ∈ d, isK seg = true →
        ∀ rest, matchSeq true pat (renderP seg ++ rest) =
          some ((renderP seg).length, none)) →
      (∀ seg ∈ d, isK seg = false →
        ∀ rest i, i < (renderP seg).length →
          matchSeq true pat ((renderP seg ++ rest).drop i) = none) →
      (∀ seg ∈ d, isK seg = true → renderP seg ≠ []) →
      st.engine.defaultMode = lc "preview" →
      replaceSt true pat (extractCallback ty) st (renderPDoc d) =
        ((stageGo isK ty st d).1, renderPDoc (stageGo isK ty st d).2) := by
  intro d
  induction d with
  | nil =>
      intro st _ _ _ _
      simp [renderPDoc_nil, stageGo, replaceSt_nil]
  | cons seg d' ih =>
      intro st hhit hskip hne hmode
      cases hks : isK seg with
      | true =>
          have hm := hhit seg (by simp) hks (renderPDoc d')
          have hne' := hne seg (by simp) hks
          rw [renderPDoc_cons, replaceSt_hit hne' hm]
          have hmode' : (extractCallback ty st (renderP seg) none).1.engine.defaultMode =
              lc "preview" := hmode
          rw [ih (extractCallback ty st (renderP seg) none).1
            (fun s hs => hhit s (by simp [hs]))
            (fun s hs => hskip s (by simp [hs]))
            (fun s hs => hne s (by simp [hs])) hmode']
          simp only [stageGo, hks, if_true]
          rw [renderPDoc_cons]
          simp [renderP, extractCallback, hmode]
      | false =>
          rw [renderPDoc_cons,
            replaceSt_append_skip
              (fun i hi => hskip seg (by simp) hks (renderPDoc d') i hi) st,
            ih st (fun s hs => hhit s (by simp [hs]))
              (fun s hs => hskip s (by simp [hs]))
              (fun s hs => hne s (by simp [hs])) hmode]
          simp only [stageGo, hks, Bool.false_eq_true, if_false]
          rw [renderPDoc_cons]

/-! ## Structural facts about `stageGo`. -/

theorem stageGo_noK {isK : PSeg → Bool} {ty : List Char} :
    ∀ (d : List PSeg) (st : ExtractSt), (∀ seg ∈ d, isK seg = false) →
      stageGo isK ty st d = (st, d) := by
  intro d
  induction d with
  | nil => intro st _; simp [stageGo]
  | cons seg d' ih =>
      intro st h
      have hks : isK seg = false := h seg (by simp)
      simp only [stageGo, hks, Bool.false_eq_true, if_false]
      rw [ih st (fun s hs => h s (by simp [hs]))]

theorem stageGo_append_noK {isK : PSeg → Bool} {ty : List Char} :
    ∀ (a d : List PSeg) (st : ExtractSt), (∀ seg ∈ a, isK seg = false) →
      stageGo isK ty st (a ++ d) =
        ((stageGo isK ty st d).1, a ++ (stageGo isK ty st d).2) := by
  intro a
  induction a with
  | nil => intro d st _; simp
  | cons seg a' ih =>
      intro d st h
      have hks : isK seg = false := h seg (by simp)
      rw [List.cons_append]
      simp only [stageGo, hks, Bool.false_eq_true, if_false]
      rw [ih d st (fun s hs => h s (by simp [hs]))]
      simp

/-- Every output segment is either an untouched input segment or a fresh
placeholder of this stage's type. -/
theorem stageGo_mem {isK : PSeg → Bool} {ty : List Char} :
    ∀ (d : List PSeg) (st : ExtractSt),
      ∀ seg' ∈ (stageGo isK ty st d).2,
        (seg' ∈ d ∧ isK seg' = false) ∨
        ∃ k, st.engine.nextId ≤ k ∧ seg' = PSeg.pph (idString k) ty := by
  intro d
  induction d with
  | nil => intro st seg' h; simp [stageGo] at h
  | cons seg d' ih =>
      intro st seg' h
      cases hks : isK seg with
      | true =>
          simp only [stageGo, hks, if_true] at h
          rcases List.mem_cons.mp h with he | ht
          · exact Or.inr ⟨st.engine.nextId, Nat.le_refl _, he⟩
          · rcases ih (extractCallback ty st (renderP seg) none).1 seg' ht with
              ⟨hmem, hkf⟩ | ⟨k, hk, he⟩
            · exact Or.inl ⟨by simp [hmem], hkf⟩
            · exact Or.inr ⟨k, Nat.le_of_succ_le hk, he⟩
      | false =>
          simp only [stageGo, hks, Bool.false_eq_true, if_false] at h
          rcases List.mem_cons.mp h with he | ht
          · subst he
            exact Or.inl ⟨by simp, hks⟩
          · rcases ih st seg' ht with ⟨hmem, hkf⟩ | hr
            · exact Or.inl ⟨by simp [hmem], hkf⟩
            · exact Or.inr hr

/-- State evolution of a stage: the display mode is unchanged, the id counter
only grows, and registry entries at previously-allocated ids survive. -/
theorem stageGo_state {isK : PSeg → Bool} {ty : List Char} :
    ∀ (d : List PSeg) (st : ExtractSt),
      (stageGo isK ty st d).1.engine.defaultMode = st.engine.defaultMode ∧
      st.engine.nextId ≤ (stageGo isK ty st d).1.engine.nextId ∧
      (∀ j, j < st.engine.nextId →
        regGet (stageGo isK ty st d).1.engine.registry (idString j) =
          regGet st.engine.registry (idString j)) := by
  intro d
  induction d with
  | nil => intro st; simp [stageGo]
  | cons seg d' ih =>
      intro st
      cases hks : isK seg with
      | true =>
          simp only [stageGo, hks, if_true]
          obtain ⟨h1, h2, h3⟩ := ih (extractCallback ty st (renderP seg) none).1
          refine ⟨h1, by exact Nat.le_trans (Nat.le_succ _) h2, ?_⟩
          intro j hj
          rw [h3 j (Nat.lt_succ_of_lt hj)]
          exact regGet_regSet_other' _ _ _ _
            (fun he => Nat.ne_of_lt hj (idString_inj _ _ he).symm)
      | false =>
          simp only [stageGo, hks, Bool.false_eq_true, if_false]
          exact ih st

/-- A stage preserves the absence of registry entries above the id counter. -/
theorem stageGo_none_high {isK : PSeg → Bool} {ty : List Char} :
    ∀ (d : List PSeg) (st : ExtractSt),
      (∀ k, st.engine.nextId ≤ k →
        regGet st.engine.registry (idString k) = none) →
      ∀ k, (stageGo isK ty st d).1.engine.nextId ≤ k →
        regGet (stageGo isK ty st d).1.engine.registry (idString k) = none := by
  intro d
  induction d with
  | nil => intro st h k hk; simpa [stageGo] using h k hk
  | cons seg d' ih =>
      intro st h k hk
      cases hks : isK seg with
      | true =>
          simp only [stageGo, hks, if_true] at hk ⊢
          refine ih (extractCallback ty st (renderP seg) none).1 ?_ k hk
          intro k' hk'
          have hne : idString st.engine.nextId ≠ idString k' :=
            fun he => Nat.ne_of_lt hk' (idString_inj _ _ he)
          show regGet (regSet st.engine.registry (idString st.engine.nextId) _)
            (idString k') = none
          rw [regGet_regSet_other' _ _ _ _ hne]
          exact h k' (Nat.le_of_succ_le hk')
      | false =>
          simp only [stageGo, hks, Bool.false_eq_true, if_false] at hk ⊢
          exact ih st h k hk

theorem restoreView_nil (reg : Registry) : restoreView reg [] = [] := rfl

theorem restoreView_pph (reg : Registry) (id ty : List Char) (d : List PSeg) :
    restoreView reg (.pph id ty :: d) =
      (match regGet reg id with
       | some c => c.html
       | none => missingMarker id) ++ restoreView reg d := by
  cases h : regGet reg id <;> simp [restoreView, h]

theorem restoreView_other (reg : Registry) (seg : PSeg) (d : List PSeg)
    (h : isPhSeg seg = false) :
    restoreView reg (seg :: d) = renderP seg ++ restoreView reg d := by
  cases seg <;> simp [restoreView] <;> simp [isPhSeg] at h

theorem restoreView_noph (reg : Registry) :
    ∀ d : List PSeg, (∀ seg ∈ d, isPhSeg seg = false) →
      restoreView reg d = renderPDoc d := by
  intro d
  induction d with
  | nil => intro _; rfl
  | cons seg d' ih =>
      intro h
      rw [restoreView_other _ _ _ (h seg (by simp)), renderPDoc_cons,
        ih (fun s hs => h s (by simp [hs]))]

/-- A stage's doc rewrite is invisible to restoration, for any registry that
agrees with the stage's final registry on the ids the stage allocated. -/
theorem stageGo_restoreView {isK : PSeg → Bool} {ty : List Char}
    (hnoPh : ∀ seg, isK seg = true → isPhSeg seg = false) :
    ∀ (d : List PSeg) (st : ExtractSt) (R : Registry),
      (∀ k, st.engine.nextId ≤ k → k < (stageGo isK ty st d).1.engine.nextId →
        regGet R (idString k) =
          regGet (stageGo isK ty st d).1.engine.registry (idString k)) →
      restoreView R (stageGo isK ty st d).2 = restoreView R d := by
  intro d
  induction d with
  | nil => intro st R _; simp [stageGo]
  | cons seg d' ih =>
      intro st R hagree
      cases hks : isK seg with
      | false =>
          simp only [stageGo, hks, Bool.false_eq_true, if_false] at hagree ⊢
          cases hph : isPhSeg seg with
          | false =>
              rw [restoreView_other _ _ _ hph, restoreView_other _ _ _ hph,
                ih st R hagree]
          | true =>
              obtain ⟨id0, ty0, rfl⟩ : ∃ i t, seg = PSeg.pph i t := by
                cases seg <;> simp [isPhSeg] at hph <;> exact ⟨_, _, rfl⟩
              rw [restoreView_pph, restoreView_pph, ih st R hagree]
      | true =>
          simp only [stageGo, hks, if_true] at hagree ⊢
          have hmono :=
            (@stageGo_state isK ty d' (extractCallback ty st (renderP seg) none).1).2.1
          have hpres :=
            (@stageGo_state isK ty d' (extractCallback ty st (renderP seg) none).1).2.2
          have hn_lt : st.engine.nextId <
              (stageGo isK ty (extractCallback ty st (renderP seg) none).1
                d').1.engine.nextId :=
            Nat.lt_of_lt_of_le (Nat.lt_succ_self _) hmono
          have hRn : regGet R (idString st.engine.nextId) =
              some (freshRecord ty (renderP seg) st.engine.defaultMode
                st.engine.nextId) := by
            rw [hagree st.engine.nextId (Nat.le_refl _) hn_lt,
                hpres st.engine.nextId (Nat.lt_succ_self _)]
            exact regGet_regSet_self' _ _ _
          rw [restoreView_pph, hRn,
            restoreView_other _ _ _ (hnoPh seg hks),
            ih (extractCallback ty st (renderP seg) none).1 R
              (fun k h1 h2 => hagree k (Nat.le_of_succ_le h1) h2)]
          rfl

theorem pph_render_ne_nil (id ty : List Char) : renderP (.pph id ty) ≠ [] := by
  intro h
  have hl := congrArg List.length h
  simp only [renderP, placeholderStr, List.length_append, List.length_nil] at hl
  rw [show (lc "<div class=\"ql-component-placeholder\" data-component-id=\"").length
      = 57 from by decide] at hl
  omega

/-- Restoration over a rendered text/placeholder document is the
specification-side `restoreView`. -/
theorem restore_stage :
    ∀ (d : List PSeg) (reg : Registry),
      (∀ seg ∈ d, isTxtSeg seg = true ∨ isPhSeg seg = true) →
      (∀ seg ∈ d, PSegOk seg) →
      replaceSt true blotPat (restoreCallback reg) () (renderPDoc d) =
        ((), restoreView reg d) := by
  intro d
  induction d with
  | nil => intro reg _ _; simp [renderPDoc_nil, replaceSt_nil, restoreView_nil]
  | cons seg d' ih =>
      intro reg hshape hOk
      have ih' := ih reg (fun s hs => hshape s (by simp [hs]))
        (fun s hs => hOk s (by simp [hs]))
      cases seg with
      | ptxt s =>
          have hs : ltFree s = true := hOk (.ptxt s) (by simp)
          rw [renderPDoc_cons,
            replaceSt_append_skip
              (fun i hi =>
                show matchSeq true blotPat ((renderP (.ptxt s) ++ renderPDoc d').drop i) = none from
                  ptxt_skip hs (renderPDoc d') i hi) (),
            ih', restoreView_other _ _ _ (by simp [isPhSeg])]
      | pph id ty =>
          obtain ⟨hid, hty⟩ : digitsOnly id = true ∧ tyOkB ty = true :=
            hOk (.pph id ty) (by simp)
          have hm := blotPat_hit hid hty (renderPDoc d')
          rw [renderPDoc_cons,
            replaceSt_hit (pph_render_ne_nil id ty) hm, ih',
            restoreView_pph]
          cases h : regGet reg id <;> simp [restoreCallback, h]
      | ptable m => exact absurd (hshape (.ptable m) (by simp)) (by simp [isTxtSeg, isPhSeg])
      | phr => exact absurd (hshape .phr (by simp)) (by simp [isTxtSeg, isPhSeg])
      | pbq m => exact absurd (hshape (.pbq m) (by simp)) (by simp [isTxtSeg, isPhSeg])
      | ppre m => exact absurd (hshape (.ppre m) (by simp)) (by simp [isTxtSeg, isPhSeg])
      | pdiv m => exact absurd (hshape (.pdiv m) (by simp)) (by simp [isTxtSeg, isPhSeg])

theorem restoreView_of_render_nil (reg : Registry) :
    ∀ d : List PSeg, (∀ seg ∈ d, isTxtSeg seg = true ∨ isPhSeg seg = true) →
      renderPDoc d = [] → restoreView reg d = [] := by
  intro d
  induction d with
  | nil => intro _ _; rfl
  | cons seg d' ih =>
      intro hshape hr
      rw [renderPDoc_cons] at hr
      obtain ⟨h1, h2⟩ := List.append_eq_nil.mp hr
      cases seg with
      | ptxt s =>
          rw [restoreView_other _ _ _ (by simp [isPhSeg]),
            ih (fun s hs => hshape s (by simp [hs])) h2, h1]
          rfl
      | pph id ty => exact absurd h1 (pph_render_ne_nil id ty)
      | ptable m => exact absurd (hshape (.ptable m) (by simp)) (by simp [isTxtSeg, isPhSeg])
      | phr => exact absurd (hshape .phr (by simp)) (by simp [isTxtSeg, isPhSeg])
      | pbq m => exact absurd (hshape (.pbq m) (by simp)) (by simp [isTxtSeg, isPhSeg])
      | ppre m => exact absurd (hshape (.ppre m) (by simp)) (by simp [isTxtSeg, isPhSeg])
      | pdiv m => exact absurd (hshape (.pdiv m) (by simp)) (by simp [isTxtSeg, isPhSeg])

/-- `restoreComponents` on a rendered text/placeholder document. -/
theorem restoreComponents_doc (d : List PSeg) (reg : Registry)
    (hshape : ∀ seg ∈ d, isTxtSeg seg = true ∨ isPhSeg seg = true)
    (hOk : ∀ seg ∈ d, PSegOk seg) :
    restoreComponents reg (renderPDoc d) = restoreView reg d := by
  by_cases hd : renderPDoc d = []
  · rw [restoreComponents, if_pos hd, restoreView_of_render_nil reg d hshape hd]
  · rw [restoreComponents, if_neg hd, restore_stage d reg hshape hOk]

/-! ## Doc-level skips and the styled-div heuristic on placeholders. -/

theorem doc_skip {pat : List RElem} :
    ∀ (d : List PSeg),
      (∀ seg ∈ d, ∀ rest i, i < (renderP seg).length →
        matchSeq true pat ((renderP seg ++ rest).drop i) = none) →
      ∀ rest i, i < (renderPDoc d).length →
        matchSeq true pat ((renderPDoc d ++ rest).drop i) = none := by
  intro d
  induction d with
  | nil => intro _ rest i hi; simp [renderPDoc_nil] at hi
  | cons seg d' ih =>
      intro h rest i hi
      rw [renderPDoc_cons] at hi ⊢
      rw [List.append_assoc]
      by_cases hip : i < (renderP seg).length
      · exact h seg (by simp) (renderPDoc d' ++ rest) i hip
      · have hsplit : (renderP seg ++ (renderPDoc d' ++ rest)).drop i =
            (renderPDoc d' ++ rest).drop (i - (renderP seg).length) := by
          rw [List.drop_append_eq_append_drop,
            List.drop_eq_nil_of_le (by omega), List.nil_append]
        rw [hsplit]
        apply ih (fun s hs => h s (by simp [hs]))
        rw [List.length_append] at hi
        omega

theorem execFind_none_of_skips {x : Char} {L' : List Char} {ps : List RElem}
    (d : List PSeg)
    (h : ∀ seg ∈ d, ∀ rest i, i < (renderP seg).length →
      matchSeq true (.lit (x :: L') :: ps) ((renderP seg ++ rest).drop i) = none) :
    execFind true (.lit (x :: L') :: ps) (renderPDoc d) = none := by
  apply execFind_none
  intro i
  by_cases hi : i < (renderPDoc d).length
  · have := doc_skip d h [] i hi
    simpa using this
  · rw [List.drop_eq_nil_of_le (by omega)]
    exact matchSeq_lit_nil

/-- The styled-div heuristic fails at the start of a rendered placeholder:
no `style="` ever follows inside the tag. -/
theorem pph_divstart_zero {id ty : List Char} (hid : digitsOnly id = true)
    (hty : tyOkB ty = true) (rest : List Char) :
    matchSeq true styledDivStartPat (renderP (.pph id ty) ++ rest) = none := by
  have hdig := digitsOnly_chars hid
  have hkillP : ∀ p ∈ [lc "class=\"ql-component-placeholder\" data-component-id=\"",
      id, lc "\" data-component-type=\"", ty, lc "\" data-display-mode=\"",
      lc "preview", lc "\"></div>"],
      litKilled (lc "style=\"") p = true := by
    intro p hp
    simp only [List.mem_cons, List.not_mem_nil, or_false] at hp
    rcases hp with h | h | h | h | h | h | h <;> subst h
    · decide
    · exact litKilled_digits (by decide) (by decide) hdig
    · decide
    · exact litKilled_tyOk hty (by decide) (by decide) (by decide) (by decide)
        (by decide)
    · decide
    · decide
    · decide
  have hflP : ([lc "class=\"ql-component-placeholder\" data-component-id=\"",
      id, lc "\" data-component-type=\"", ty, lc "\" data-display-mode=\"",
      lc "preview", lc "\"></div>"] : List (List Char)).flatten.length =
      id.length + ty.length + 111 := by
    simp only [List.flatten_cons, List.flatten_nil, List.append_nil,
      List.length_append,
      show (lc "class=\"ql-component-placeholder\" data-component-id=\"").length =
        52 from by decide,
      show (lc "\" data-component-type=\"").length = 23 from by decide,
      show (lc "\" data-display-mode=\"").length = 21 from by decide,
      show (lc "preview").length = 7 from by decide,
      show (lc "\"></div>").length = 8 from by decide]
    omega
  have heqP : lc "lass=\"ql-component-placeholder\" data-component-id=\"" ++
      (id ++ (lc "\" data-component-type=\"" ++
       (ty ++ (lc "\" data-display-mode=\"preview\"" ++
        ('>' :: (lc "</div>" ++ rest)))))) =
      ([lc "lass=\"ql-component-placeholder\" data-component-id=\"",
        id, lc "\" data-component-type=\"", ty, lc "\" data-display-mode=\"",
        lc "preview", lc "\"></div>"] : List (List Char)).flatten ++ rest := by
    simp only [List.flatten_cons, List.flatten_nil, List.append_nil,
      List.append_assoc]
    try rfl
  have hkillP' : ∀ p ∈ [lc "lass=\"ql-component-placeholder\" data-component-id=\"",
      id, lc "\" data-component-type=\"", ty, lc "\" data-display-mode=\"",
      lc "preview", lc "\"></div>"],
      litKilled (lc "style=\"") p = true := by
    intro p hp
    simp only [List.mem_cons, List.not_mem_nil, or_false] at hp
    rcases hp with h | h | h | h | h | h | h <;> subst h
    · decide
    · exact litKilled_digits (by decide) (by decide) hdig
    · decide
    · exact litKilled_tyOk hty (by decide) (by decide) (by decide) (by decide)
        (by decide)
    · decide
    · decide
    · decide
  have hflP' : ([lc "lass=\"ql-component-placeholder\" data-component-id=\"",
      id, lc "\" data-component-type=\"", ty, lc "\" data-display-mode=\"",
      lc "preview", lc "\"></div>"] : List (List Char)).flatten.length =
      id.length + ty.length + 110 := by
    simp only [List.flatten_cons, List.flatten_nil, List.append_nil,
      List.length_append,
      show (lc "lass=\"ql-component-placeholder\" data-component-id=\"").length =
        51 from by decide,
      show (lc "\" data-component-type=\"").length = 23 from by decide,
      show (lc "\" data-display-mode=\"").length = 21 from by decide,
      show (lc "preview").length = 7 from by decide,
      show (lc "\"></div>").length = 8 from by decide]
    omega
  have hrun1 : runLen isWs
      (' ' :: ('c' :: (lc "lass=\"ql-component-placeholder\" data-component-id=\"" ++
       (id ++ (lc "\" data-component-type=\"" ++
        (ty ++ (lc "\" data-display-mode=\"preview\"" ++
         ('>' :: (lc "</div>" ++ rest))))))))) = 1 := by
    rw [runLen, if_pos (by decide), runLen_head_false (by decide)]
  have hrunR : runLen notGt
      ('c' :: (lc "lass=\"ql-component-placeholder\" data-component-id=\"" ++
       (id ++ (lc "\" data-component-type=\"" ++
        (ty ++ (lc "\" data-display-mode=\"preview\"" ++
         ('>' :: (lc "</div>" ++ rest)))))))) =
      id.length + ty.length + 104 := by
    rw [show ('c' :: (lc "lass=\"ql-component-placeholder\" data-component-id=\"" ++
          (id ++ (lc "\" data-component-type=\"" ++
           (ty ++ (lc "\" data-display-mode=\"preview\"" ++
            ('>' :: (lc "</div>" ++ rest)))))))) =
          (lc "class=\"ql-component-placeholder\" data-component-id=\"" ++
           (id ++ (lc "\" data-component-type=\"" ++
            (ty ++ lc "\" data-display-mode=\"preview\"")))) ++
          ('>' :: (lc "</div>" ++ rest)) from by
        simp only [List.append_assoc]
        try rfl,
      runLen_append_stop notGt
        (lc "class=\"ql-component-placeholder\" data-component-id=\"" ++
         (id ++ (lc "\" data-component-type=\"" ++
          (ty ++ lc "\" data-display-mode=\"preview\""))))
        (by
          intro c hc
          simp only [List.mem_append] at hc
          rcases hc with h | h | h | h | h
          · exact (by decide : ∀ x ∈
              lc "class=\"ql-component-placeholder\" data-component-id=\"",
              notGt x = true) c h
          · exact digits_notGt hdig c h
          · exact (by decide :
              ∀ x ∈ lc "\" data-component-type=\"", notGt x = true) c h
          · exact tyOk_notGt hty c h
          · exact (by decide :
              ∀ x ∈ lc "\" data-display-mode=\"preview\"", notGt x = true) c h)
        (by decide)]
    simp only [List.length_append,
      show (lc "class=\"ql-component-placeholder\" data-component-id=\"").length =
        52 from by decide,
      show (lc "\" data-component-type=\"").length = 23 from by decide,
      show (lc "\" data-display-mode=\"preview\"").length = 29 from by decide]
    omega
  have hstar : matchSeq true
      (.star notGt :: .lit (lc "style=\"") :: .star notQuote ::
       .alt3 [.lit (lc "display:"), .star isWs, .lit (lc "flex")]
         [.lit (lc "background"), .alt3 [.lit (lc "-color")] [] [],
          .lit (lc ":"), .star isWs,
          .alt3 [.lit (lc "#"), .one isHexI] [.lit (lc "rgb")] [.lit (lc "rgb")]]
         [.lit (lc "border-radius:")] ::
       [.star notQuote, .lit (lc "\""), .star notGt, .lit (lc ">")])
      ('c' :: (lc "lass=\"ql-component-placeholder\" data-component-id=\"" ++
       (id ++ (lc "\" data-component-type=\"" ++
        (ty ++ (lc "\" data-display-mode=\"preview\"" ++
         ('>' :: (lc "</div>" ++ rest)))))))) = none := by
    rw [matchSeq_star, hrunR]
    apply tryDesc_none
    intro k hk
    rw [show ('c' :: (lc "lass=\"ql-component-placeholder\" data-component-id=\"" ++
          (id ++ (lc "\" data-component-type=\"" ++
           (ty ++ (lc "\" data-display-mode=\"preview\"" ++
            ('>' :: (lc "</div>" ++ rest)))))))) =
          ([lc "class=\"ql-component-placeholder\" data-component-id=\"",
            id, lc "\" data-component-type=\"", ty, lc "\" data-display-mode=\"",
            lc "preview", lc "\"></div>"] : List (List Char)).flatten ++ rest
        from by
          simp only [List.flatten_cons, List.flatten_nil, List.append_nil,
            List.append_assoc]
          try rfl]
    exact parts_skip _ rest hkillP k (by rw [hflP]; omega)
  rw [show styledDivStartPat =
        .lit (lc "<div") :: .plus isWs :: .star notGt ::
        .lit (lc "style=\"") :: .star notQuote ::
        .alt3 [.lit (lc "display:"), .star isWs, .lit (lc "flex")]
          [.lit (lc "background"), .alt3 [.lit (lc "-color")] [] [],
           .lit (lc ":"), .star isWs,
           .alt3 [.lit (lc "#"), .one isHexI] [.lit (lc "rgb")] [.lit (lc "rgb")]]
          [.lit (lc "border-radius:")] ::
        [.star notQuote, .lit (lc "\""), .star notGt, .lit (lc ">")] from rfl,
      show renderP (.pph id ty) ++ rest =
        lc "<div" ++
          (' ' :: ('c' :: (lc "lass=\"ql-component-placeholder\" data-component-id=\"" ++
           (id ++ (lc "\" data-component-type=\"" ++
            (ty ++ (lc "\" data-display-mode=\"preview\"" ++
             ('>' :: (lc "</div>" ++ rest))))))))) from by
        simp only [renderP, placeholderStr, List.append_assoc]
        try rfl,
      matchSeq_lit_some (by rw [startsWithL_append_left (by simp [lc])]; decide),
      List.drop_left, matchSeq_plus, hrun1]
  show Option.map _ (tryDescPos true _ _ 1) = none
  rw [tryDescPos_none (fun k h1 h2 => by
    have hk1 : k = 1 := by omega
    subst hk1
    rw [List.drop_succ_cons, List.drop_zero]
    exact hstar)]
  rfl

/-- The styled-div heuristic never matches inside a rendered placeholder. -/
theorem pph_divstart_skip {id ty : List Char} (hid : digitsOnly id = true)
    (hty : tyOkB ty = true) :
    ∀ rest i, i < (renderP (.pph id ty)).length →
      matchSeq true styledDivStartPat
        ((renderP (.pph id ty) ++ rest).drop i) = none := by
  intro rest i hi
  have hdig := digitsOnly_chars hid
  cases i with
  | zero =>
      rw [List.drop_zero]
      exact pph_divstart_zero hid hty rest
  | succ j =>
      have hlen : (renderP (.pph id ty)).length = id.length + ty.length + 116 := by
        simp only [renderP, placeholderStr, List.length_append,
          show (lc "<div class=\"ql-component-placeholder\" data-component-id=\"").length
            = 57 from by decide,
          show (lc "\" data-component-type=\"").length = 23 from by decide,
          show (lc "\" data-display-mode=\"").length = 21 from by decide,
          show (lc "preview").length = 7 from by decide,
          show (lc "\"></div>").length = 8 from by decide]
        omega
      have hflQ : ([lc "div class=\"ql-component-placeholder\" data-component-id=\"",
          id, lc "\" data-component-type=\"", ty, lc "\" data-display-mode=\"",
          lc "preview", lc "\"></div>"] : List (List Char)).flatten.length =
          id.length + ty.length + 115 := by
        simp only [List.flatten_cons, List.flatten_nil, List.append_nil,
          List.length_append,
          show (lc "div class=\"ql-component-placeholder\" data-component-id=\"").length
            = 56 from by decide,
          show (lc "\" data-component-type=\"").length = 23 from by decide,
          show (lc "\" data-display-mode=\"").length = 21 from by decide,
          show (lc "preview").length = 7 from by decide,
          show (lc "\"></div>").length = 8 from by decide]
        omega
      rw [show renderP (.pph id ty) ++ rest =
            '<' :: (([lc "div class=\"ql-component-placeholder\" data-component-id=\"",
              id, lc "\" data-component-type=\"", ty, lc "\" data-display-mode=\"",
              lc "preview", lc "\"></div>"] : List (List Char)).flatten ++ rest)
          from by
            simp only [renderP, placeholderStr, List.flatten_cons,
              List.flatten_nil, List.append_nil, List.append_assoc]
            try rfl,
        List.drop_succ_cons]
      refine parts_skip _ rest ?_ j (by rw [hflQ]; rw [hlen] at hi; omega)
      intro p hp
      simp only [List.mem_cons, List.not_mem_nil, or_false] at hp
      rcases hp with h | h | h | h | h | h | h <;> subst h
      · exact litKilled_ltFree (by decide)
      · exact litKilled_ltFree (digitsOnly_ltFree hid)
      · exact litKilled_ltFree (by decide)
      · exact litKilled_ltFree (tyOkB_ltFree hty)
      · exact litKilled_ltFree (by decide)
      · exact litKilled_ltFree (by decide)
      · decide

theorem divScan_eval (A inner B : List Char) (hin : ltFree inner = true) :
    divScan (A ++ (lc "<div style=\"display:flex\">" ++ (inner ++ (lc "</div>" ++ B))))
      1 (A.length + 26) = some (A.length + 26 + inner.length + 6) := by
  have hlt : A.length + 26 <
      (A ++ (lc "<div style=\"display:flex\">" ++ (inner ++ (lc "</div>" ++ B)))).length := by
    simp only [List.length_append,
      show (lc "<div style=\"display:flex\">").length = 26 from by decide,
      show (lc "</div>").length = 6 from by decide]
    omega
  have hdrop : (A ++ (lc "<div style=\"display:flex\">" ++
      (inner ++ (lc "</div>" ++ B)))).drop (A.length + 26) =
      inner ++ (lc "</div>" ++ B) := by
    rw [show A ++ (lc "<div style=\"display:flex\">" ++ (inner ++ (lc "</div>" ++ B))) =
        (A ++ lc "<div style=\"display:flex\">") ++ (inner ++ (lc "</div>" ++ B)) from by
      simp [List.append_assoc]]
    refine List.drop_left' ?_
    simp [show (lc "<div style=\"display:flex\">").length = 26 from by decide]
  have hclose : execFind true divCloseTokPat (inner ++ (lc "</div>" ++ B)) =
      some (inner.length, 6, none) := by
    have hskip : ∀ i, i < inner.length →
        matchSeq true divCloseTokPat ((inner ++ (lc "</div>" ++ B)).drop i) = none :=
      fun i hi => one_part_skip (litKilled_ltFree hin) (lc "</div>" ++ B) i hi
    have hhit : matchSeq true divCloseTokPat (lc "</div>" ++ B) = some (6, none) := by
      rw [show divCloseTokPat = [.lit (lc "</div>")] from rfl,
          matchSeq_lit_some (by rw [startsWithL_append_left (by simp [lc])]; decide),
          List.drop_left, matchSeq_nil]
      rfl
    rw [execFind_append_shift hskip, execFind_hit hhit]
    rfl
  have hopen : execFind true divOpenTokPat (inner ++ (lc "</div>" ++ B)) =
      (execFind true divOpenTokPat B).map
        (fun r => ((inner ++ lc "</div>").length + r.1, r.2)) := by
    have hskip2 : ∀ i, i < (inner ++ lc "</div>").length →
        matchSeq true divOpenTokPat (((inner ++ lc "</div>") ++ B).drop i) = none := by
      intro i hi
      rw [show (inner ++ lc "</div>") ++ B =
          ([inner, lc "</div>"] : List (List Char)).flatten ++ B from by
        simp [List.flatten_cons, List.flatten_nil]]
      refine parts_skip _ B ?_ i ?_
      · intro p hp
        simp only [List.mem_cons, List.not_mem_nil, or_false] at hp
        rcases hp with h | h <;> subst h
        · exact litKilled_ltFree hin
        · decide
      · simp only [List.flatten_cons, List.flatten_nil, List.append_nil,
          List.length_append] at hi ⊢
        omega
    rw [show inner ++ (lc "</div>" ++ B) = (inner ++ lc "</div>") ++ B from by
      simp [List.append_assoc]]
    rw [execFind_append_shift hskip2]
  cases hfB : execFind true divOpenTokPat B with
  | none =>
      rw [divScan, dif_pos hlt]
      simp only [hdrop, hclose, hopen, hfB, Option.map_none', Bool.false_eq_true, if_false, if_true]
  | some r =>
      have hfalse : decide ((inner ++ lc "</div>").length + r.1 < inner.length) = false := by
        rw [decide_eq_false_iff_not, List.length_append]
        omega
      rw [divScan, dif_pos hlt]
      simp only [hdrop, hclose, hopen, hfB, Option.map_some', hfalse, Bool.false_eq_true, if_false, if_true]

theorem renderPDoc_append (d1 d2 : List PSeg) :
    renderPDoc (d1 ++ d2) = renderPDoc d1 ++ renderPDoc d2 := by
  simp [renderPDoc]

theorem digitChar10_digit (k : Nat) : (digitChar10 k).isDigit = true := by
  unfold digitChar10
  split <;> decide

theorem natCharsGo_digits : ∀ (fuel n : Nat), ∀ c ∈ natCharsGo fuel n,
    c.isDigit = true := by
  intro fuel
  induction fuel with
  | zero => intro n c hc; simp [natCharsGo] at hc
  | succ f ih =>
      intro n c hc
      rw [natCharsGo] at hc
      by_cases hn : n < 10
      · rw [if_pos hn] at hc
        simp only [List.mem_singleton] at hc
        subst hc
        exact digitChar10_digit n
      · rw [if_neg hn] at hc
        rcases List.mem_append.mp hc with h | h
        · exact ih _ c h
        · simp only [List.mem_singleton] at h
          subst h
          exact digitChar10_digit _

theorem natCharsGo_ne_nil (fuel n : Nat) : natCharsGo (fuel + 1) n ≠ [] := by
  rw [natCharsGo]
  by_cases hn : n < 10
  · rw [if_pos hn]; simp
  · rw [if_neg hn]; simp

theorem digitsOnly_idString (n : Nat) : digitsOnly (idString n) = true := by
  have h1 : idString n ≠ [] := natCharsGo_ne_nil n n
  have h2 := natCharsGo_digits (n + 1) n
  simp only [digitsOnly, Bool.and_eq_true, List.all_eq_true]
  constructor
  · simp only [Bool.not_eq_true']
    cases he : idString n with
    | nil => exact absurd he h1
    | cons a l => rfl
  · exact h2

theorem exists_first_split {p : PSeg → Bool} :
    ∀ d : List PSeg, (¬ ∀ seg ∈ d, p seg = false) →
      ∃ a x b, d = a ++ x :: b ∧ p x = true ∧ ∀ y ∈ a, p y = false := by
  intro d
  induction d with
  | nil =>
      intro h
      exact absurd (fun seg hs => absurd hs (List.not_mem_nil seg)) h
  | cons seg d' ih =>
      intro h
      cases hp : p seg with
      | true => exact ⟨[], seg, d', rfl, hp, by simp⟩
      | false =>
          have h' : ¬ ∀ s ∈ d', p s = false := by
            intro hall
            refine h (fun s hs => ?_)
            rcases List.mem_cons.mp hs with he | ht
            · subst he; exact hp
            · exact hall s ht
          obtain ⟨a, x, b, heq, hx, ha⟩ := ih h'
          refine ⟨seg :: a, x, b, by rw [heq, List.cons_append], hx, ?_⟩
          intro y hy
          rcases List.mem_cons.mp hy with he | ht
          · subst he; exact hp
          · exact ha y ht

/-- The styled-div heuristic never matches inside any non-div segment. -/
theorem skip_divstart (seg : PSeg) (hOk : PSegOk seg)
    (hnd : isDivSeg seg = false) :
    ∀ rest i, i < (renderP seg).length →
      matchSeq true styledDivStartPat ((renderP seg ++ rest).drop i) = none := by
  cases seg with
  | ptxt s => exact fun rest i hi => ptxt_skip hOk rest i hi
  | pph id ty => exact pph_divstart_skip hOk.1 hOk.2
  | ptable m =>
      exact fun rest i hi => ptable_skip hOk (by decide) (by decide) rest i hi
  | phr => exact fun rest i hi => phr_skip (by decide) rest i hi
  | pbq m =>
      exact fun rest i hi => pbq_skip hOk (by decide) (by decide) rest i hi
  | ppre m =>
      exact fun rest i hi => ppre_skip hOk (by decide) (by decide) rest i hi
  | pdiv m => exact absurd hnd (by simp [isDivSeg])

/-- The styled-div heuristic at the start of a rendered styled-div segment. -/
theorem pdiv_render_hit (inner rest : List Char) :
    matchSeq true styledDivStartPat (renderP (.pdiv inner) ++ rest) =
      some (26, none) := by
  rw [show renderP (.pdiv inner) ++ rest =
      lc "<div style=\"display:flex\">" ++ (inner ++ (lc "</div>" ++ rest)) from by
    simp [renderP, List.append_assoc]]
  exact styledDivOpen_hit (inner ++ (lc "</div>" ++ rest))

/-- The styled-div loop over a rendered document performs exactly the
doc-level div stage. -/
theorem extractStyledDivsGo_doc :
    ∀ (fuel : Nat) (d : List PSeg) (st : ExtractSt),
      (∀ seg ∈ d, PSegOk seg) →
      st.engine.defaultMode = lc "preview" →
      d.countP (fun s => isDivSeg s) < fuel →
      extractStyledDivsGo fuel st (renderPDoc d) =
        ((stageGo isDivSeg (lc "STYLED_DIV") st d).1,
         renderPDoc (stageGo isDivSeg (lc "STYLED_DIV") st d).2) := by
  intro fuel
  induction fuel with
  | zero => intro d st _ _ hc; omega
  | succ f ih =>
      intro d st hOk hmode hcount
      by_cases hall : ∀ seg ∈ d, isDivSeg seg = false
      · have hfind : execFind true styledDivStartPat (renderPDoc d) = none :=
          execFind_none_of_skips d
            (fun seg hs => skip_divstart seg (hOk seg hs) (hall seg hs))
        rw [extractStyledDivsGo, hfind, stageGo_noK d st hall]
      · obtain ⟨a, x, b, heq, hx, ha⟩ := exists_first_split d hall
        obtain ⟨inner, rfl⟩ : ∃ i, x = PSeg.pdiv i := by
          cases x <;> first
            | exact ⟨_, rfl⟩
            | simp [isDivSeg] at hx
        subst heq
        have hin : ltFree inner = true := hOk (.pdiv inner) (by simp)
        have hres : renderPDoc (a ++ PSeg.pdiv inner :: b) =
            renderPDoc a ++ (lc "<div style=\"display:flex\">" ++
              (inner ++ (lc "</div>" ++ renderPDoc b))) := by
          rw [renderPDoc_append, renderPDoc_cons]
          simp [renderP, List.append_assoc]
        have hfind : execFind true styledDivStartPat
            (renderPDoc a ++ (lc "<div style=\"display:flex\">" ++
              (inner ++ (lc "</div>" ++ renderPDoc b)))) =
            some ((renderPDoc a).length, 26, none) := by
          rw [execFind_append_shift
            (fun i hi => doc_skip a
              (fun seg hs rest' i' hi' => skip_divstart seg
                (hOk seg (by simp [hs])) (ha seg hs) rest' i' hi') _ i hi)]
          rw [execFind_hit (styledDivOpen_hit
            (inner ++ (lc "</div>" ++ renderPDoc b)))]
          rfl
        have htakeA : (renderPDoc a ++ (lc "<div style=\"display:flex\">" ++
            (inner ++ (lc "</div>" ++ renderPDoc b)))).take (renderPDoc a).length =
            renderPDoc a := List.take_left _ _
        have hfull : ((renderPDoc a ++ (lc "<div style=\"display:flex\">" ++
            (inner ++ (lc "</div>" ++ renderPDoc b)))).take
              ((renderPDoc a).length + 26 + inner.length + 6)).drop
              (renderPDoc a).length = renderP (.pdiv inner) := by
          rw [show renderPDoc a ++ (lc "<div style=\"display:flex\">" ++
              (inner ++ (lc "</div>" ++ renderPDoc b))) =
              (renderPDoc a ++ (lc "<div style=\"display:flex\">" ++
                (inner ++ lc "</div>"))) ++ renderPDoc b from by
            simp [List.append_assoc]]
          rw [List.take_left' (by
            simp only [List.length_append,
              show (lc "<div style=\"display:flex\">").length = 26 from by decide,
              show (lc "</div>").length = 6 from by decide]
            omega)]
          rw [List.drop_left]
          simp [renderP, List.append_assoc]
        have hdropend : (renderPDoc a ++ (lc "<div style=\"display:flex\">" ++
            (inner ++ (lc "</div>" ++ renderPDoc b)))).drop
              ((renderPDoc a).length + 26 + inner.length + 6) = renderPDoc b := by
          rw [show renderPDoc a ++ (lc "<div style=\"display:flex\">" ++
              (inner ++ (lc "</div>" ++ renderPDoc b))) =
              (renderPDoc a ++ (lc "<div style=\"display:flex\">" ++
                (inner ++ lc "</div>"))) ++ renderPDoc b from by
            simp [List.append_assoc]]
          refine List.drop_left' ?_
          simp only [List.length_append,
            show (lc "<div style=\"display:flex\">").length = 26 from by decide,
            show (lc "</div>").length = 6 from by decide]
          omega
        rw [hres, extractStyledDivsGo]
        simp only [hfind, divScan_eval (renderPDoc a) inner (renderPDoc b) hin,
          htakeA, hfull, hdropend]
        have hres2 : (renderPDoc a ++
            placeholderStr (idString st.engine.nextId) (lc "STYLED_DIV")
              st.engine.defaultMode) ++ renderPDoc b =
            renderPDoc (a ++ PSeg.pph (idString st.engine.nextId)
              (lc "STYLED_DIV") :: b) := by
          rw [renderPDoc_append, renderPDoc_cons]
          simp [renderP, hmode, List.append_assoc]
        rw [hres2]
        have hc0 : a.countP (fun s => isDivSeg s) = 0 :=
          List.countP_eq_zero.mpr (by
            intro y hy
            simp [ha y hy])
        have hcount' : (a ++ PSeg.pph (idString st.engine.nextId)
            (lc "STYLED_DIV") :: b).countP (fun s => isDivSeg s) < f := by
          have h1 := hcount
          rw [List.countP_append, List.countP_cons] at h1
          rw [List.countP_append, List.countP_cons]
          simp [hc0, isDivSeg] at h1 ⊢
          omega
        have hOk' : ∀ seg ∈ a ++ PSeg.pph (idString st.engine.nextId)
            (lc "STYLED_DIV") :: b, PSegOk seg := by
          intro seg hs
          rcases List.mem_append.mp hs with h1 | h1
          · exact hOk seg (by simp [h1])
          · rcases List.mem_cons.mp h1 with h2 | h2
            · subst h2
              exact ⟨digitsOnly_idString _, by decide⟩
            · exact hOk seg (by simp [h2])
        have hih := ih (a ++ PSeg.pph (idString st.engine.nextId)
            (lc "STYLED_DIV") :: b)
          (⟨⟨regSet st.engine.registry (idString st.engine.nextId)
              (freshRecord (lc "STYLED_DIV") (renderP (.pdiv inner))
                st.engine.defaultMode st.engine.nextId),
             st.engine.nextId + 1, st.engine.defaultMode⟩,
            regSet st.newComps (idString st.engine.nextId)
              (freshRecord (lc "STYLED_DIV") (renderP (.pdiv inner))
                st.engine.defaultMode st.engine.nextId)⟩ : ExtractSt)
          hOk' hmode hcount'
        rw [hih]
        rw [stageGo_append_noK a _ _ ha, stageGo_append_noK a _ st ha]
        simp only [stageGo,
          show isDivSeg (PSeg.pdiv inner) = true from rfl,
          show isDivSeg (PSeg.pph (idString st.engine.nextId)
            (lc "STYLED_DIV")) = false from rfl,
          if_true, Bool.false_eq_true, if_false]
        rfl

theorem countP_div_le_render :
    ∀ d : List PSeg, d.countP (fun s => isDivSeg s) ≤ (renderPDoc d).length := by
  intro d
  induction d with
  | nil => simp [renderPDoc_nil]
  | cons seg d' ih =>
      rw [List.countP_cons, renderPDoc_cons, List.length_append]
      cases hks : isDivSeg seg with
      | false => simp; omega
      | true =>
          obtain ⟨inner, rfl⟩ : ∃ i, seg = PSeg.pdiv i := by
            cases seg <;> first
              | exact ⟨_, rfl⟩
              | simp [isDivSeg] at hks
          have hlen : (renderP (.pdiv inner)).length =
              26 + inner.length + 6 := by
            simp only [renderP, List.length_append,
              show (lc "<div style=\"display:flex\">").length = 26 from by decide,
              show (lc "</div>").length = 6 from by decide]
          simp only [hks, if_true]
          rw [hlen]
          omega

theorem extractStyledDivs_doc (d : List PSeg) (st : ExtractSt)
    (hOk : ∀ seg ∈ d, PSegOk seg)
    (hmode : st.engine.defaultMode = lc "preview") :
    extractStyledDivs st (renderPDoc d) =
      ((stageGo isDivSeg (lc "STYLED_DIV") st d).1,
       renderPDoc (stageGo isDivSeg (lc "STYLED_DIV") st d).2) := by
  rw [extractStyledDivs]
  exact extractStyledDivsGo_doc ((renderPDoc d).length + 1) d st hOk hmode
    (Nat.lt_succ_of_le (countP_div_le_render d))

/-! ## Stage invariants. -/

theorem stageGo_removes {isK : PSeg → Bool} {ty : List Char}
    (hph : ∀ id t, isK (.pph id t) = false) (d : List PSeg) (st : ExtractSt)
    (hd : ∀ seg ∈ d, PSegOk seg) :
    ∀ seg ∈ (stageGo isK ty st d).2, isK seg = false := by
  intro seg hs
  rcases stageGo_mem d st seg hs with ⟨_, hkf⟩ | ⟨k, _, he⟩
  · exact hkf
  · subst he
    exact hph _ _

theorem stageGo_preserves_absent {isK : PSeg → Bool} {ty : List Char}
    {q : PSeg → Bool} (hph : ∀ id t, q (.pph id t) = false)
    (d : List PSeg) (st : ExtractSt) (hd : ∀ seg ∈ d, q seg = false) :
    ∀ seg ∈ (stageGo isK ty st d).2, q seg = false := by
  intro seg hs
  rcases stageGo_mem d st seg hs with ⟨hmem, _⟩ | ⟨k, _, he⟩
  · exact hd seg hmem
  · subst he
    exact hph _ _

theorem stageGo_ok {isK : PSeg → Bool} {ty : List Char}
    (hty : tyOkB ty = true) (d : List PSeg) (st : ExtractSt)
    (hOk : ∀ seg ∈ d, PSegOk seg) :
    ∀ seg ∈ (stageGo isK ty st d).2, PSegOk seg := by
  intro seg hs
  rcases stageGo_mem d st seg hs with ⟨hmem, _⟩ | ⟨k, _, he⟩
  · exact hOk seg hmem
  · subst he
    exact ⟨digitsOnly_idString _, hty⟩

/-! ## Per-stage hit, skip and non-emptiness dischargers. -/

theorem ppre_render_ne_nil (m : List Char) : renderP (.ppre m) ≠ [] := by
  intro h
  have hl := congrArg List.length h
  simp only [renderP, List.length_append, List.length_nil] at hl
  rw [show (lc "<pre style=\"background:#eee\">").length = 29 from by decide] at hl
  omega

theorem pbq_render_ne_nil (m : List Char) : renderP (.pbq m) ≠ [] := by
  intro h
  have hl := congrArg List.length h
  simp only [renderP, List.length_append, List.length_nil] at hl
  rw [show (lc "<blockquote style=\"color:red\">").length = 30 from by decide] at hl
  omega

theorem ptable_render_ne_nil (m : List Char) : renderP (.ptable m) ≠ [] := by
  intro h
  have hl := congrArg List.length h
  simp only [renderP, List.length_append, List.length_nil] at hl
  rw [show (lc "<table").length = 6 from by decide] at hl
  omega

theorem phr_render_ne_nil : renderP .phr ≠ [] := by decide

theorem hit_for_pre (seg : PSeg) (hOk : PSegOk seg) (hk : isPreSeg seg = true) :
    ∀ rest, matchSeq true styledPrePat (renderP seg ++ rest) =
      some ((renderP seg).length, none) := by
  cases seg <;> simp [isPreSeg] at hk
  exact fun rest => styledPrePat_hit hOk rest

theorem hit_for_bq (seg : PSeg) (hOk : PSegOk seg) (hk : isBqSeg seg = true) :
    ∀ rest, matchSeq true blockquotePat (renderP seg ++ rest) =
      some ((renderP seg).length, none) := by
  cases seg <;> simp [isBqSeg] at hk
  exact fun rest => blockquotePat_hit hOk rest

theorem hit_for_table (seg : PSeg) (hOk : PSegOk seg)
    (hk : isTableSeg seg = true) :
    ∀ rest, matchSeq true tablePat (renderP seg ++ rest) =
      some ((renderP seg).length, none) := by
  cases seg <;> simp [isTableSeg] at hk
  exact fun rest => tablePat_hit' hOk rest

theorem hit_for_hr (seg : PSeg) (_ : PSegOk seg) (hk : isHrSeg seg = true) :
    ∀ rest, matchSeq true hrPat (renderP seg ++ rest) =
      some ((renderP seg).length, none) := by
  cases seg <;> simp [isHrSeg] at hk
  exact fun rest => hrPat_hit rest

theorem ne_for_pre (seg : PSeg) (hk : isPreSeg seg = true) :
    renderP seg ≠ [] := by
  cases seg <;> simp [isPreSeg] at hk
  exact ppre_render_ne_nil _

theorem ne_for_bq (seg : PSeg) (hk : isBqSeg seg = true) :
    renderP seg ≠ [] := by
  cases seg <;> simp [isBqSeg] at hk
  exact pbq_render_ne_nil _

theorem ne_for_table (seg : PSeg) (hk : isTableSeg seg = true) :
    renderP seg ≠ [] := by
  cases seg <;> simp [isTableSeg] at hk
  exact ptable_render_ne_nil _

theorem ne_for_hr (seg : PSeg) (hk : isHrSeg seg = true) :
    renderP seg ≠ [] := by
  cases seg <;> simp [isHrSeg] at hk
  exact phr_render_ne_nil

theorem skip_for_pre (seg : PSeg) (hOk : PSegOk seg)
    (hk : isPreSeg seg = false) (hdiv : isDivSeg seg = false) :
    ∀ rest i, i < (renderP seg).length →
      matchSeq true styledPrePat ((renderP seg ++ rest).drop i) = none := by
  cases seg with
  | ptxt s => exact fun rest i hi => ptxt_skip hOk rest i hi
  | pph id ty =>
      exact fun rest i hi =>
        pph_skip hOk.1 hOk.2 (by decide) (by decide) rest i hi
  | ptable m =>
      exact fun rest i hi => ptable_skip hOk (by decide) (by decide) rest i hi
  | phr => exact fun rest i hi => phr_skip (by decide) rest i hi
  | pbq m =>
      exact fun rest i hi => pbq_skip hOk (by decide) (by decide) rest i hi
  | ppre m => exact absurd hk (by simp [isPreSeg])
  | pdiv m => exact absurd hdiv (by simp [isDivSeg])

theorem skip_for_bq (seg : PSeg) (hOk : PSegOk seg)
    (hk : isBqSeg seg = false) (hdiv : isDivSeg seg = false)
    (hpre : isPreSeg seg = false) :
    ∀ rest i, i < (renderP seg).length →
      matchSeq true blockquotePat ((renderP seg ++ rest).drop i) = none := by
  cases seg with
  | ptxt s => exact fun rest i hi => ptxt_skip hOk rest i hi
  | pph id ty =>
      exact fun rest i hi =>
        pph_skip hOk.1 hOk.2 (by decide) (by decide) rest i hi
  | ptable m =>
      exact fun rest i hi => ptable_skip hOk (by decide) (by decide) rest i hi
  | phr => exact fun rest i hi => phr_skip (by decide) rest i hi
  | pbq m => exact absurd hk (by simp [isBqSeg])
  | ppre m => exact absurd hpre (by simp [isPreSeg])
  | pdiv m => exact absurd hdiv (by simp [isDivSeg])

theorem skip_for_table (seg : PSeg) (hOk : PSegOk seg)
    (hk : isTableSeg seg = false) (hdiv : isDivSeg seg = false)
    (hpre : isPreSeg seg = false) (hbq : isBqSeg seg = false) :
    ∀ rest i, i < (renderP seg).length →
      matchSeq true tablePat ((renderP seg ++ rest).drop i) = none := by
  cases seg with
  | ptxt s => exact fun rest i hi => ptxt_skip hOk rest i hi
  | pph id ty =>
      exact fun rest i hi =>
        pph_skip hOk.1 hOk.2 (by decide) (by decide) rest i hi
  | ptable m => exact absurd hk (by simp [isTableSeg])
  | phr => exact fun rest i hi => phr_skip (by decide) rest i hi
  | pbq m => exact absurd hbq (by simp [isBqSeg])
  | ppre m => exact absurd hpre (by simp [isPreSeg])
  | pdiv m => exact absurd hdiv (by simp [isDivSeg])

theorem skip_for_hr (seg : PSeg) (hOk : PSegOk seg)
    (hk : isHrSeg seg = false) (hdiv : isDivSeg seg = false)
    (hpre : isPreSeg seg = false) (hbq : isBqSeg seg = false)
    (htab : isTableSeg seg = false) :
    ∀ rest i, i < (renderP seg).length →
      matchSeq true hrPat ((renderP seg ++ rest).drop i) = none := by
  cases seg with
  | ptxt s => exact fun rest i hi => ptxt_skip hOk rest i hi
  | pph id ty =>
      exact fun rest i hi =>
        pph_skip hOk.1 hOk.2 (by decide) (by decide) rest i hi
  | ptable m => exact absurd htab (by simp [isTableSeg])
  | phr => exact absurd hk (by simp [isHrSeg])
  | pbq m => exact absurd hbq (by simp [isBqSeg])
  | ppre m => exact absurd hpre (by simp [isPreSeg])
  | pdiv m => exact absurd hdiv (by simp [isDivSeg])

/-! ## Inference-friendly stage invariants (state determined by the mode
hypothesis, document by the well-formedness hypothesis). -/

theorem stageGo_mode (isK : PSeg → Bool) (ty : List Char) {d : List PSeg}
    {st : ExtractSt} (_ : ∀ seg ∈ d, PSegOk seg)
    (hmode : st.engine.defaultMode = lc "preview") :
    (stageGo isK ty st d).1.engine.defaultMode = lc "preview" := by
  rw [(@stageGo_state isK ty d st).1]
  exact hmode

theorem stageGo_ok2 (isK : PSeg → Bool) (ty : List Char)
    (hty : tyOkB ty = true) {d : List PSeg} {st : ExtractSt}
    (hOk : ∀ seg ∈ d, PSegOk seg)
    (_ : st.engine.defaultMode = lc "preview") :
    ∀ seg ∈ (stageGo isK ty st d).2, PSegOk seg :=
  stageGo_ok hty d st hOk

theorem stageGo_removes2 (isK : PSeg → Bool) (ty : List Char)
    (hph : ∀ id t, isK (.pph id t) = false) {d : List PSeg} {st : ExtractSt}
    (hOk : ∀ seg ∈ d, PSegOk seg)
    (_ : st.engine.defaultMode = lc "preview") :
    ∀ seg ∈ (stageGo isK ty st d).2, isK seg = false :=
  stageGo_removes hph d st hOk

theorem stageGo_preserves2 (isK : PSeg → Bool) (ty : List Char)
    (q : PSeg → Bool) (hph : ∀ id t, q (.pph id t) = false)
    {d : List PSeg} {st : ExtractSt} (hd : ∀ seg ∈ d, q seg = false)
    (_ : st.engine.defaultMode = lc "preview") :
    ∀ seg ∈ (stageGo isK ty st d).2, q seg = false :=
  stageGo_preserves_absent hph d st hd

/-! ## The four replace-driven stages, packaged. -/

theorem stage_pre {d : List PSeg} {st : ExtractSt}
    (hOk : ∀ seg ∈ d, PSegOk seg)
    (hdiv : ∀ seg ∈ d, isDivSeg seg = false)
    (hmode : st.engine.defaultMode = lc "preview") :
    replaceSt true styledPrePat (extractCallback (lc "CODE_BLOCK")) st
      (renderPDoc d) =
      ((stageGo isPreSeg (lc "CODE_BLOCK") st d).1,
       renderPDoc (stageGo isPreSeg (lc "CODE_BLOCK") st d).2) :=
  replace_stage styledPrePat (lc "CODE_BLOCK") isPreSeg d st
    (fun seg hs hk rest => hit_for_pre seg (hOk seg hs) hk rest)
    (fun seg hs hk rest i hi =>
      skip_for_pre seg (hOk seg hs) hk (hdiv seg hs) rest i hi)
    (fun seg _ hk => ne_for_pre seg hk)
    hmode

theorem stage_bq {d : List PSeg} {st : ExtractSt}
    (hOk : ∀ seg ∈ d, PSegOk seg)
    (hdiv : ∀ seg ∈ d, isDivSeg seg = false)
    (hpre : ∀ seg ∈ d, isPreSeg seg = false)
    (hmode : st.engine.defaultMode = lc "preview") :
    replaceSt true blockquotePat (extractCallback (lc "BLOCKQUOTE")) st
      (renderPDoc d) =
      ((stageGo isBqSeg (lc "BLOCKQUOTE") st d).1,
       renderPDoc (stageGo isBqSeg (lc "BLOCKQUOTE") st d).2) :=
  replace_stage blockquotePat (lc "BLOCKQUOTE") isBqSeg d st
    (fun seg hs hk rest => hit_for_bq seg (hOk seg hs) hk rest)
    (fun seg hs hk rest i hi =>
      skip_for_bq seg (hOk seg hs) hk (hdiv seg hs) (hpre seg hs) rest i hi)
    (fun seg _ hk => ne_for_bq seg hk)
    hmode

theorem stage_table {d : List PSeg} {st : ExtractSt}
    (hOk : ∀ seg ∈ d, PSegOk seg)
    (hdiv : ∀ seg ∈ d, isDivSeg seg = false)
    (hpre : ∀ seg ∈ d, isPreSeg seg = false)
    (hbq : ∀ seg ∈ d, isBqSeg seg = false)
    (hmode : st.engine.defaultMode = lc "preview") :
    replaceSt true tablePat (extractCallback (lc "TABLE")) st
      (renderPDoc d) =
      ((stageGo isTableSeg (lc "TABLE") st d).1,
       renderPDoc (stageGo isTableSeg (lc "TABLE") st d).2) :=
  replace_stage tablePat (lc "TABLE") isTableSeg d st
    (fun seg hs hk rest => hit_for_table seg (hOk seg hs) hk rest)
    (fun seg hs hk rest i hi =>
      skip_for_table seg (hOk seg hs) hk (hdiv seg hs) (hpre seg hs)
        (hbq seg hs) rest i hi)
    (fun seg _ hk => ne_for_table seg hk)
    hmode

theorem stage_hr {d : List PSeg} {st : ExtractSt}
    (hOk : ∀ seg ∈ d, PSegOk seg)
    (hdiv : ∀ seg ∈ d, isDivSeg seg = false)
    (hpre : ∀ seg ∈ d, isPreSeg seg = false)
    (hbq : ∀ seg ∈ d, isBqSeg seg = false)
    (htab : ∀ seg ∈ d, isTableSeg seg = false)
    (hmode : st.engine.defaultMode = lc "preview") :
    replaceSt true hrPat (extractCallback (lc "HR")) st
      (renderPDoc d) =
      ((stageGo isHrSeg (lc "HR") st d).1,
       renderPDoc (stageGo isHrSeg (lc "HR") st d).2) :=
  replace_stage hrPat (lc "HR") isHrSeg d st
    (fun seg hs hk rest => hit_for_hr seg (hOk seg hs) hk rest)
    (fun seg hs hk rest i hi =>
      skip_for_hr seg (hOk seg hs) hk (hdiv seg hs) (hpre seg hs)
        (hbq seg hs) (htab seg hs) rest i hi)
    (fun seg _ hk => ne_for_hr seg hk)
    hmode

/-- `extractComponents` over a rendered document is the doc-level pipeline. -/
theorem extractComponents_doc (st : EngineState) (d : List PSeg)
    (hOk : ∀ seg ∈ d, PSegOk seg) (hmode : st.defaultMode = lc "preview")
    (hne : renderPDoc d ≠ []) :
    extractComponents st (renderPDoc d) =
      ((pipelineDoc st d).1.engine, renderPDoc (pipelineDoc st d).2,
       (pipelineDoc st d).1.newComps) := by
  have hmode0 : (⟨st, []⟩ : ExtractSt).engine.defaultMode = lc "preview" :=
    hmode
  have h1 := extractStyledDivs_doc d ⟨st, []⟩ hOk hmode0
  have hmode1 := stageGo_mode isDivSeg (lc "STYLED_DIV") hOk hmode0
  have hOk1 := stageGo_ok2 isDivSeg (lc "STYLED_DIV") (by decide) hOk hmode0
  have hdiv1 := stageGo_removes2 isDivSeg (lc "STYLED_DIV")
    (fun i t => rfl) hOk hmode0
  have h2 := stage_pre hOk1 hdiv1 hmode1
  have hmode2 := stageGo_mode isPreSeg (lc "CODE_BLOCK") hOk1 hmode1
  have hOk2 := stageGo_ok2 isPreSeg (lc "CODE_BLOCK") (by decide) hOk1 hmode1
  have hdiv2 := stageGo_preserves2 isPreSeg (lc "CODE_BLOCK") isDivSeg
    (fun i t => rfl) hdiv1 hmode1
  have hpre2 := stageGo_removes2 isPreSeg (lc "CODE_BLOCK")
    (fun i t => rfl) hOk1 hmode1
  have h3 := stage_bq hOk2 hdiv2 hpre2 hmode2
  have hmode3 := stageGo_mode isBqSeg (lc "BLOCKQUOTE") hOk2 hmode2
  have hOk3 := stageGo_ok2 isBqSeg (lc "BLOCKQUOTE") (by decide) hOk2 hmode2
  have hdiv3 := stageGo_preserves2 isBqSeg (lc "BLOCKQUOTE") isDivSeg
    (fun i t => rfl) hdiv2 hmode2
  have hpre3 := stageGo_preserves2 isBqSeg (lc "BLOCKQUOTE") isPreSeg
    (fun i t => rfl) hpre2 hmode2
  have hbq3 := stageGo_removes2 isBqSeg (lc "BLOCKQUOTE")
    (fun i t => rfl) hOk2 hmode2
  have h4 := stage_table hOk3 hdiv3 hpre3 hbq3 hmode3
  have hmode4 := stageGo_mode isTableSeg (lc "TABLE") hOk3 hmode3
  have hOk4 := stageGo_ok2 isTableSeg (lc "TABLE") (by decide) hOk3 hmode3
  have hdiv4 := stageGo_preserves2 isTableSeg (lc "TABLE") isDivSeg
    (fun i t => rfl) hdiv3 hmode3
  have hpre4 := stageGo_preserves2 isTableSeg (lc "TABLE") isPreSeg
    (fun i t => rfl) hpre3 hmode3
  have hbq4 := stageGo_preserves2 isTableSeg (lc "TABLE") isBqSeg
    (fun i t => rfl) hbq3 hmode3
  have htab4 := stageGo_removes2 isTableSeg (lc "TABLE")
    (fun i t => rfl) hOk3 hmode3
  have h5 := stage_hr hOk4 hdiv4 hpre4 hbq4 htab4 hmode4
  simp only [extractComponents]
  rw [if_neg hne]
  simp only [h1, h2, h3, h4, h5, pipelineDoc]

theorem pipelineDoc_eq (st : EngineState) (d : List PSeg) :
    pipelineDoc st d = pstage5 st d := rfl

/-! ## Shape, well-formedness and mode of the pipeline's output. -/

theorem pipelineDoc_shape (st : EngineState) (d : List PSeg) :
    ∀ seg ∈ (pipelineDoc st d).2, isTxtSeg seg = true ∨ isPhSeg seg = true := by
  intro seg hs
  simp only [pipelineDoc] at hs
  rcases stageGo_mem _ _ seg hs with ⟨hs4, h5f⟩ | ⟨k, _, he⟩
  · rcases stageGo_mem _ _ seg hs4 with ⟨hs3, h4f⟩ | ⟨k, _, he⟩
    · rcases stageGo_mem _ _ seg hs3 with ⟨hs2, h3f⟩ | ⟨k, _, he⟩
      · rcases stageGo_mem _ _ seg hs2 with ⟨hs1, h2f⟩ | ⟨k, _, he⟩
        · rcases stageGo_mem _ _ seg hs1 with ⟨_, h1f⟩ | ⟨k, _, he⟩
          · cases seg <;>
              simp_all [isTxtSeg, isPhSeg, isDivSeg, isPreSeg, isBqSeg,
                isTableSeg, isHrSeg]
          · subst he; exact Or.inr rfl
        · subst he; exact Or.inr rfl
      · subst he; exact Or.inr rfl
    · subst he; exact Or.inr rfl
  · subst he; exact Or.inr rfl

theorem pipelineDoc_ok (st : EngineState) (d : List PSeg)
    (hOk : ∀ seg ∈ d, PSegOk seg) :
    ∀ seg ∈ (pipelineDoc st d).2, PSegOk seg := by
  simp only [pipelineDoc]
  exact stageGo_ok (by decide) _ _ (stageGo_ok (by decide) _ _
    (stageGo_ok (by decide) _ _ (stageGo_ok (by decide) _ _
      (stageGo_ok (by decide) _ _ hOk))))

theorem pipelineDoc_mode (st : EngineState) (d : List PSeg)
    (hmode : st.defaultMode = lc "preview") :
    (pipelineDoc st d).1.engine.defaultMode = lc "preview" :=
  (@stageGo_state isHrSeg (lc "HR") (pstage4 st d).2 (pstage4 st d).1).1.trans
   ((@stageGo_state isTableSeg (lc "TABLE") (pstage3 st d).2
      (pstage3 st d).1).1.trans
    ((@stageGo_state isBqSeg (lc "BLOCKQUOTE") (pstage2 st d).2
       (pstage2 st d).1).1.trans
     ((@stageGo_state isPreSeg (lc "CODE_BLOCK") (pstage1 st d).2
        (pstage1 st d).1).1.trans
      ((@stageGo_state isDivSeg (lc "STYLED_DIV") d ⟨st, []⟩).1.trans hmode))))

/-! ## Restoration sees through the pipeline's rewriting. -/

theorem div_not_ph : ∀ seg, isDivSeg seg = true → isPhSeg seg = false := by
  intro seg hk
  cases seg <;> simp_all [isDivSeg, isPhSeg]

theorem pre_not_ph : ∀ seg, isPreSeg seg = true → isPhSeg seg = false := by
  intro seg hk
  cases seg <;> simp_all [isPreSeg, isPhSeg]

theorem bq_not_ph : ∀ seg, isBqSeg seg = true → isPhSeg seg = false := by
  intro seg hk
  cases seg <;> simp_all [isBqSeg, isPhSeg]

theorem table_not_ph : ∀ seg, isTableSeg seg = true → isPhSeg seg = false := by
  intro seg hk
  cases seg <;> simp_all [isTableSeg, isPhSeg]

theorem hr_not_ph : ∀ seg, isHrSeg seg = true → isPhSeg seg = false := by
  intro seg hk
  cases seg <;> simp_all [isHrSeg, isPhSeg]

theorem pipelineDoc_restoreView (st : EngineState) (d : List PSeg)
    (hnoph : ∀ seg ∈ d, isPhSeg seg = false) :
    restoreView (pipelineDoc st d).1.engine.registry (pipelineDoc st d).2 =
      renderPDoc d := by
  have h54 := (@stageGo_state isHrSeg (lc "HR") (pstage4 st d).2
    (pstage4 st d).1).2.2
  have h43 := (@stageGo_state isTableSeg (lc "TABLE") (pstage3 st d).2
    (pstage3 st d).1).2.2
  have h32 := (@stageGo_state isBqSeg (lc "BLOCKQUOTE") (pstage2 st d).2
    (pstage2 st d).1).2.2
  have h21 := (@stageGo_state isPreSeg (lc "CODE_BLOCK") (pstage1 st d).2
    (pstage1 st d).1).2.2
  have m4 : (pstage3 st d).1.engine.nextId ≤ (pstage4 st d).1.engine.nextId :=
    (@stageGo_state isTableSeg (lc "TABLE") (pstage3 st d).2
      (pstage3 st d).1).2.1
  have m3 : (pstage2 st d).1.engine.nextId ≤ (pstage3 st d).1.engine.nextId :=
    (@stageGo_state isBqSeg (lc "BLOCKQUOTE") (pstage2 st d).2
      (pstage2 st d).1).2.1
  have m2 : (pstage1 st d).1.engine.nextId ≤ (pstage2 st d).1.engine.nextId :=
    (@stageGo_state isPreSeg (lc "CODE_BLOCK") (pstage1 st d).2
      (pstage1 st d).1).2.1
  have L5 : restoreView (pipelineDoc st d).1.engine.registry (pstage5 st d).2 =
      restoreView (pipelineDoc st d).1.engine.registry (pstage4 st d).2 :=
    stageGo_restoreView hr_not_ph (pstage4 st d).2 (pstage4 st d).1
      (pipelineDoc st d).1.engine.registry (fun k _ _ => rfl)
  have L4 : restoreView (pipelineDoc st d).1.engine.registry (pstage4 st d).2 =
      restoreView (pipelineDoc st d).1.engine.registry (pstage3 st d).2 :=
    stageGo_restoreView table_not_ph (pstage3 st d).2 (pstage3 st d).1
      (pipelineDoc st d).1.engine.registry
      (fun k _ h2 => h54 k h2)
  have L3 : restoreView (pipelineDoc st d).1.engine.registry (pstage3 st d).2 =
      restoreView (pipelineDoc st d).1.engine.registry (pstage2 st d).2 :=
    stageGo_restoreView bq_not_ph (pstage2 st d).2 (pstage2 st d).1
      (pipelineDoc st d).1.engine.registry
      (fun k _ h2 =>
        (h54 k (Nat.lt_of_lt_of_le h2 m4)).trans (h43 k h2))
  have L2 : restoreView (pipelineDoc st d).1.engine.registry (pstage2 st d).2 =
      restoreView (pipelineDoc st d).1.engine.registry (pstage1 st d).2 :=
    stageGo_restoreView pre_not_ph (pstage1 st d).2 (pstage1 st d).1
      (pipelineDoc st d).1.engine.registry
      (fun k _ h2 =>
        ((h54 k (Nat.lt_of_lt_of_le (Nat.lt_of_lt_of_le h2 m3) m4)).trans
          (h43 k (Nat.lt_of_lt_of_le h2 m3))).trans (h32 k h2))
  have L1 : restoreView (pipelineDoc st d).1.engine.registry (pstage1 st d).2 =
      restoreView (pipelineDoc st d).1.engine.registry d :=
    stageGo_restoreView div_not_ph d ⟨st, []⟩
      (pipelineDoc st d).1.engine.registry
      (fun k _ h2 =>
        (((h54 k (Nat.lt_of_lt_of_le
              (Nat.lt_of_lt_of_le (Nat.lt_of_lt_of_le h2 m2) m3) m4)).trans
          (h43 k (Nat.lt_of_lt_of_le (Nat.lt_of_lt_of_le h2 m2) m3))).trans
          (h32 k (Nat.lt_of_lt_of_le h2 m2))).trans (h21 k h2))
  exact L5.trans (L4.trans (L3.trans (L2.trans (L1.trans
    (restoreView_noph (pipelineDoc st d).1.engine.registry d hnoph)))))

/-! ## The pipeline is the identity on text/placeholder documents. -/

theorem txtph_false {isK : PSeg → Bool} (ht : ∀ s, isK (.ptxt s) = false)
    (hp : ∀ i t, isK (.pph i t) = false) {d' : List PSeg}
    (h : ∀ seg ∈ d', isTxtSeg seg = true ∨ isPhSeg seg = true) :
    ∀ seg ∈ d', isK seg = false := by
  intro seg hs
  cases seg <;> first
    | exact ht _
    | exact hp _ _
    | (rcases h _ hs with h' | h' <;> simp [isTxtSeg, isPhSeg] at h')

theorem pipelineDoc_txtph (st' : EngineState) (d' : List PSeg)
    (h : ∀ seg ∈ d', isTxtSeg seg = true ∨ isPhSeg seg = true) :
    pipelineDoc st' d' = (⟨st', []⟩, d') := by
  have e1 : stageGo isDivSeg (lc "STYLED_DIV") ⟨st', []⟩ d' = (⟨st', []⟩, d') :=
    stageGo_noK d' _ (txtph_false (fun _ => rfl) (fun _ _ => rfl) h)
  have e2 : stageGo isPreSeg (lc "CODE_BLOCK") ⟨st', []⟩ d' = (⟨st', []⟩, d') :=
    stageGo_noK d' _ (txtph_false (fun _ => rfl) (fun _ _ => rfl) h)
  have e3 : stageGo isBqSeg (lc "BLOCKQUOTE") ⟨st', []⟩ d' = (⟨st', []⟩, d') :=
    stageGo_noK d' _ (txtph_false (fun _ => rfl) (fun _ _ => rfl) h)
  have e4 : stageGo isTableSeg (lc "TABLE") ⟨st', []⟩ d' = (⟨st', []⟩, d') :=
    stageGo_noK d' _ (txtph_false (fun _ => rfl) (fun _ _ => rfl) h)
  have e5 : stageGo isHrSeg (lc "HR") ⟨st', []⟩ d' = (⟨st', []⟩, d') :=
    stageGo_noK d' _ (txtph_false (fun _ => rfl) (fun _ _ => rfl) h)
  simp only [pipelineDoc, e1, e2, e3, e4, e5]

/-! ## String-level helpers for the unterminated-span theorem. -/

theorem replaceSt_all_skip {σ : Type} {ci : Bool} {pat : List RElem}
    {f : σ → List Char → Option (List Char) → σ × List Char} {b : List Char}
    (h : ∀ i, i < b.length → matchSeq ci pat (b.drop i) = none) (st : σ) :
    replaceSt ci pat f st b = (st, b) := by
  have h2 := @replaceSt_append_skip σ ci pat f b []
    (fun i hi => by rw [List.append_nil]; exact h i hi) st
  rw [List.append_nil] at h2
  rw [h2, replaceSt_nil]
  simp

theorem all_parts_skip {L' : List Char} {ps : List RElem}
    (parts : List (List Char)) (body : List Char)
    (hb : body = parts.flatten)
    (h : ∀ p ∈ parts, litKilled ('<' :: L') p = true) :
    ∀ i, i < body.length →
      matchSeq true (.lit ('<' :: L') :: ps) (body.drop i) = none := by
  intro i hi
  have h2 := @parts_skip' L' ps parts body [] hb h i hi
  rw [List.append_nil] at h2
  exact h2

theorem execFind_parts_none {L' : List Char} {ps : List RElem}
    (parts : List (List Char)) (body : List Char)
    (hb : body = parts.flatten)
    (h : ∀ p ∈ parts, litKilled ('<' :: L') p = true) :
    execFind true (.lit ('<' :: L') :: ps) body = none := by
  apply execFind_none
  intro i
  by_cases hi : i < body.length
  · have h2 := @parts_skip' L' ps parts body [] hb h i hi
    rw [List.append_nil] at h2
    exact h2
  · rw [List.drop_eq_nil_of_le (Nat.le_of_not_lt hi)]
    exact matchSeq_lit_none rfl

set_option maxHeartbeats 8000000 in
set_option maxRecDepth 40000 in
/-- C4: on `<div style="display:flex"><div>inner</div><div>inner2</div></div>`
the extraction pipeline creates exactly one component, of type `STYLED_DIV`,
whose stored `html` (and `preview`) is the entire outer div span including
both nested inner divs, and replaces exactly that span by the placeholder —
not a truncated prefix ending at the first `</div>`. -/
theorem C4_depth_balanced_extraction :
    (extractComponents engine0 c4input).2.2 =
      [(idString 0, freshRecord (lc "STYLED_DIV") c4input (lc "preview") 0)] ∧
    (extractComponents engine0 c4input).2.1 =
      placeholderStr (idString 0) (lc "STYLED_DIV") (lc "preview") := by
  constructor <;>
  · simp [extractComponents, extractStyledDivs, extractStyledDivsGo, divScan,
      execFind, matchSeq, tryDesc, tryDescPos, tryDescCap, tryAsc, replaceSt,
      startsWithL, lc, lowc, runLen, anyc, notGt, notQuote, isWs, isHexI,
      styledDivStartPat, styledPrePat, blockquotePat, tablePat, hrPat,
      divOpenTokPat, divCloseTokPat, engine0, c4input, regSet, idString,
      placeholderStr, freshRecord, extractCallback, natChars, natCharsGo, digitChar10]

set_option maxHeartbeats 16000000 in
set_option maxRecDepth 80000 in
/-- C3 counterexample: extraction is not idempotent on every HTML string.  On
`<div style="display:flex<table>x</table>` the first pass extracts only the
table (the unterminated `style` attribute has no closing quote, so the
styled-div heuristic fails); the placeholder it splices in supplies a closing
quote, a `>` and a `</div>`, so the second pass matches the styled-div
heuristic, creates a new `STYLED_DIV` component and rewrites the string. -/
theorem C3_idempotence_cex : c3twice.2.2 ≠ [] ∧ c3twice.2.1 ≠ c3once.2.1 := by
  constructor <;>
  · simp [c3twice, c3once,
      extractComponents, extractStyledDivs, extractStyledDivsGo, divScan,
      execFind, matchSeq, tryDesc, tryDescPos, tryDescCap, tryAsc, replaceSt,
      startsWithL, lc, lowc, runLen, anyc, notGt, notQuote, isWs, isHexI,
      styledDivStartPat, styledPrePat, blockquotePat, tablePat, hrPat,
      divOpenTokPat, divCloseTokPat, engine0, c3input, regSet, idString,
      placeholderStr, freshRecord, extractCallback, natChars, natCharsGo, digitChar10]

set_option maxHeartbeats 16000000 in
set_option maxRecDepth 80000 in
/-- C5 counterexample: when the first styled-div heuristic match is
unterminated, the extractor stops entirely rather than continuing with later
complete heuristic matches: on `c5u ++ c5w` nothing at all is extracted (the
depth scan of the first match swallows the closing tag of the second), even
though `c5w` alone is a complete heuristic match that extraction does
extract when it stands by itself. -/
theorem C5_continue_after_abort_cex :
    (extractComponents engine0 (c5u ++ c5w)).2.1 = c5u ++ c5w ∧
    (extractComponents engine0 (c5u ++ c5w)).2.2 = [] ∧
    (extractComponents engine0 c5w).2.2 =
      [(idString 0, freshRecord (lc "STYLED_DIV") c5w (lc "preview") 0)] := by
  refine ⟨?_, ?_, ?_⟩ <;>
  · simp [extractComponents, extractStyledDivs, extractStyledDivsGo, divScan,
      execFind, matchSeq, tryDesc, tryDescPos, tryDescCap, tryAsc, replaceSt,
      startsWithL, lc, lowc, runLen, anyc, notGt, notQuote, isWs, isHexI,
      styledDivStartPat, styledPrePat, blockquotePat, tablePat, hrPat,
      divOpenTokPat, divCloseTokPat, engine0, c5u, c5w, regSet, idString,
      placeholderStr, freshRecord, extractCallback, natChars, natCharsGo, digitChar10]

set_option maxHeartbeats 16000000 in
set_option maxRecDepth 80000 in
/-- C2 counterexample: it is not true for every input HTML that every
placeholder with an unknown id is replaced by a missing-component marker.  In
`c2bad` the placeholder for `b` is present verbatim and `b` is not a key of
the (empty) registry, yet the restored output is just the missing marker for
`a`: the reference `b` is silently dropped, and no marker for `b` appears. -/
theorem C2_missing_marker_cex :
    List.IsInfix (placeholderStr (lc "b") (lc "TABLE") (lc "preview")) c2bad ∧
    restoreComponents [] c2bad = missingMarker (lc "a") ∧
    ¬ List.IsInfix (missingMarker (lc "b")) (restoreComponents [] c2bad) := by
  have h2 : restoreComponents [] c2bad = missingMarker (lc "a") := by
    simp [restoreComponents, restoreCallback, replaceSt, execFind, matchSeq,
      tryDesc, tryDescPos, tryDescCap, tryAsc, startsWithL, lc, lowc, runLen,
      anyc, notGt, notQuote, blotPat, c2bad, placeholderStr, regGet,
      missingMarker]
  refine ⟨?_, h2, ?_⟩
  · exact ⟨lc "<div class=\"ql-component-placeholder\" data-component-id=\"a\">",
      [], by simp [c2bad, placeholderStr, lc]⟩
  · rw [h2]
    decide


/-- C6 (code bug, evaluated at the failing inputs): on the renesting claim's
input with the dialect's actual class names (`ql-indent-1`, `ql-indent-2`),
the converter nests `B` (and `C`) inside **D**'s subtree — `currentParent.lastElementChild`
is the last, not-yet-processed sibling — rather than inside `A`'s subtree as
the claim and the converter's own documentation state; on the claim's literal
input (`indent-1`, `indent-2`) nothing converts at all, because the code
matches only `ql-indent-(\d+)`; and on the two-item flat list documented in
`docs/CONVERTER_SPECIFICATION.md` the converter appends the indented item
into its own freshly created sublist, a `HierarchyRequestError`. -/
theorem C6_list_renesting_bug :
    convertToStandardHtml c6dom 0 =
      .ok (lc "<ul><li>A</li><li>D<ul><li>B<ul><li>C</li></ul></li></ul></li></ul>") ∧
    convertToStandardHtml c6lit 0 =
      .ok (lc "<ul><li>A</li><li class=\"indent-1\">B</li><li class=\"indent-2\">C</li><li>D</li></ul>") ∧
    convertToStandardHtml c6two 0 = .error .hierarchyRequest := by
  refine ⟨?_, ?_, ?_⟩ <;> decide

/-- C7 counterexample: the Dialect Converter leaves
`<p class="align-center">X</p>` completely unchanged — the code converts the
`ql-`-prefixed class vocabulary (`ql-align-center`), not `align-center` — so
the output is not the claimed `<p style="text-align: center;">X</p>`. -/
theorem C7_alignment_size_cex :
    convertToStandardHtml (pDom (lc "align-center") (lc "X")) 0 =
      .ok (lc "<p class=\"align-center\">X</p>") ∧
    lc "<p class=\"align-center\">X</p>" ≠
      lc "<p style=\"text-align: center;\">X</p>" := by
  constructor <;> decide

/-- C7 as amended: with the dialect's actual class names,
`<p class="ql-align-center">X</p>` converts to
`<p class="" style="text-align: center;">X</p>` — the alignment class is
removed from the class list, though the emptied `class` attribute itself is
left behind (`removeQuillClasses` only visits elements whose class value
still contains `ql-`) — and `<span class="ql-size-huge">Y</span>` gains
inline `font-size: 2.5em`, following the closed map small ↦ 0.75em,
large ↦ 1.5em, huge ↦ 2.5em; a size-class variant outside the map
(`ql-size-medium`) is left untouched by the size conversion. -/
theorem C7_alignment_size_amended :
    convertToStandardHtml (pDom (lc "ql-align-center") (lc "X")) 0 =
      .ok (lc "<p class=\"\" style=\"text-align: center;\">X</p>") ∧
    convertToStandardHtml (spanDom (lc "ql-size-huge") (lc "Y")) 0 =
      .ok (lc "<span class=\"\" style=\"font-size: 2.5em;\">Y</span>") ∧
    convertToStandardHtml (spanDom (lc "ql-size-small") (lc "Y")) 0 =
      .ok (lc "<span class=\"\" style=\"font-size: 0.75em;\">Y</span>") ∧
    convertToStandardHtml (spanDom (lc "ql-size-large") (lc "Y")) 0 =
      .ok (lc "<span class=\"\" style=\"font-size: 1.5em;\">Y</span>") ∧
    convertSizeClasses (spanDom (lc "ql-size-medium") (lc "Y")) 0 =
      spanDom (lc "ql-size-medium") (lc "Y") := by
  refine ⟨?_, ?_, ?_, ?_, ?_⟩ <;> decide

theorem regGet_regSet_self (reg : Registry) (k : List Char) (v : ComponentRecord) :
    regGet (regSet reg k v) k = some v := by
  induction reg with
  | nil => simp [regSet, regGet]
  | cons p rest ih =>
      by_cases h : p.1 = k
      · simp [regSet, regGet, h]
      · simp [regSet, regGet, h, ih]

theorem regGet_regSet_other (reg : Registry) (k k2 : List Char)
    (v : ComponentRecord) (h : k2 ≠ k) :
    regGet (regSet reg k v) k2 = regGet reg k2 := by
  induction reg with
  | nil => simp [regSet, regGet, Ne.symm h]
  | cons p rest ih =>
      by_cases hp : p.1 = k
      · simp [regSet, regGet, hp, Ne.symm h]
      · simp [regSet, regGet, hp, ih]

theorem restoreComponents_html_congr (r1 r2 : Registry)
    (h : ∀ k, (regGet r1 k).map (·.html) = (regGet r2 k).map (·.html))
    (html : List Char) :
    restoreComponents r1 html = restoreComponents r2 html := by
  have hcb : restoreCallback r1 = restoreCallback r2 := by
    funext u m cap
    cases cap with
    | none => rfl
    | some id =>
        have hid := h id
        cases h1 : regGet r1 id <;> cases h2 : regGet r2 id <;>
          simp [h1, h2] at hid <;> simp [restoreCallback, h1, h2, hid]
  simp [restoreComponents, hcb]

/-- C8: `updateComponentDisplay` returns `false` and leaves the registry
untouched on an unknown id; on a known id it returns `true` and rewrites only
that record's presentation fields — `displayMode` always, `preview` only when
a non-null preview is supplied — keeping its `html`, `type` and `created`
and every other entry, so restoration output is unaffected. -/
theorem C8_update_component_display_frame :
    ∀ (reg : Registry) (id mode : List Char) (pv : Option (List Char)),
      (regGet reg id = none → updateComponentDisplay reg id mode pv = (false, reg)) ∧
      (∀ c, regGet reg id = some c →
        (updateComponentDisplay reg id mode pv).1 = true ∧
        regGet (updateComponentDisplay reg id mode pv).2 id =
          some ⟨c.ctype, c.html, pv.getD c.preview, mode, c.created⟩ ∧
        (∀ id2, id2 ≠ id →
          regGet (updateComponentDisplay reg id mode pv).2 id2 = regGet reg id2) ∧
        (∀ html, restoreComponents (updateComponentDisplay reg id mode pv).2 html =
          restoreComponents reg html)) := by
  intro reg id mode pv
  refine ⟨fun h => by simp [updateComponentDisplay, h], ?_⟩
  intro c hc
  have hupd : updateComponentDisplay reg id mode pv =
      (true, regSet reg id ⟨c.ctype, c.html, pv.getD c.preview, mode, c.created⟩) := by
    simp [updateComponentDisplay, hc]
  refine ⟨by rw [hupd], ?_, ?_, ?_⟩
  · rw [hupd]
    exact regGet_regSet_self _ _ _
  · intro id2 h2
    rw [hupd]
    exact regGet_regSet_other _ _ _ _ h2
  · intro html
    rw [hupd]
    apply restoreComponents_html_congr
    intro k
    by_cases hk : k = id
    · subst hk
      rw [regGet_regSet_self, hc]
      rfl
    · rw [regGet_regSet_other _ _ _ _ hk]

/-- Witness for C8 at a one-entry registry: the unknown-id branch and the
presentation-only update of the known id. -/
theorem C8_update_component_display_frame_witness :
    (updateComponentDisplay
        [(lc "7", ⟨lc "TABLE", lc "<table></table>", lc "<table></table>", lc "preview", 0⟩)]
        (lc "9") (lc "badge") none =
      (false, [(lc "7", ⟨lc "TABLE", lc "<table></table>", lc "<table></table>", lc "preview", 0⟩)])) ∧
    regGet (updateComponentDisplay
        [(lc "7", ⟨lc "TABLE", lc "<table></table>", lc "<table></table>", lc "preview", 0⟩)]
        (lc "7") (lc "render") (some (lc "PP"))).2 (lc "7") =
      some ⟨lc "TABLE", lc "<table></table>", lc "PP", lc "render", 0⟩ := by
  refine ⟨(C8_update_component_display_frame _ _ _ _).1 (by decide),
    ((C8_update_component_display_frame _ _ _ _).2
      ⟨lc "TABLE", lc "<table></table>", lc "<table></table>", lc "preview", 0⟩
      (by decide)).2.1⟩

theorem find?_map_keyfix {α : Type} (l : List (Nat × α)) (a b : Nat)
    (f : α → α) (h : b ≠ a) :
    List.find? (fun p => p.1 = b)
      (l.map (fun p => if p.1 = a then (p.1, f p.2) else p)) =
    List.find? (fun p => p.1 = b) l := by
  induction l with
  | nil => rfl
  | cons q rest ih =>
      by_cases hb : q.1 = b
      · have ha : ¬ q.1 = a := fun hh => h (hb ▸ hh)
        rw [List.map_cons, if_neg ha,
          List.find?_cons_of_pos _ (by simpa using hb),
          List.find?_cons_of_pos _ (by simpa using hb)]
      · by_cases ha : q.1 = a
        · rw [List.map_cons, if_pos ha,
            List.find?_cons_of_neg _ (by simpa using hb),
            List.find?_cons_of_neg _ (by simpa using hb)]
          exact ih
        · rw [List.map_cons, if_neg ha,
            List.find?_cons_of_neg _ (by simpa using hb),
            List.find?_cons_of_neg _ (by simpa using hb)]
          exact ih

theorem mapsGet_mapSetRef_other (σ : JsHeap) (a b : Nat) (k : List Char)
    (r : Nat) (h : b ≠ a) : mapsGet (mapSetRef σ a k r) b = mapsGet σ b := by
  simp only [mapsGet, mapSetRef]
  rw [find?_map_keyfix σ.maps a b (fun m => assocSetN m k r) h]

theorem mapsGet_mapDeleteRef_other (σ : JsHeap) (a b : Nat) (k : List Char)
    (h : b ≠ a) : mapsGet (mapDeleteRef σ a k) b = mapsGet σ b := by
  simp only [mapsGet, mapDeleteRef]
  rw [find?_map_keyfix σ.maps a b (fun m => m.filter (fun q => q.1 ≠ k)) h]

theorem materialize_of_eq (σ1 σ2 : JsHeap) (a b : Nat)
    (hm : mapsGet σ1 a = mapsGet σ2 b) (hr : σ1.recs = σ2.recs) :
    materialize σ1 a = materialize σ2 b := by
  simp [materialize, recsGet, hm, hr]

/-- C9 (implicit): `getRegistry` returns a fresh map object, so caller-side
insertion, removal or replacement of entries in the returned map never
changes the engine's registry, its `getRegistryCount`, or subsequent
restoration; the component records inside the copy are shared references, so
a record-field mutation through the copy is a mutation of the very records
the engine's registry resolves to. -/
theorem C9_get_registry_defensive_copy :
    ∀ (σ : JsHeap) (regRef : Nat), regRef < σ.nextRef →
      ((getRegistry σ regRef).2 ≠ regRef) ∧
      (mapsGet (getRegistry σ regRef).1 (getRegistry σ regRef).2 = mapsGet σ regRef) ∧
      (mapsGet (getRegistry σ regRef).1 regRef = mapsGet σ regRef) ∧
      (∀ k r,
        mapsGet (mapSetRef (getRegistry σ regRef).1 (getRegistry σ regRef).2 k r) regRef =
          mapsGet σ regRef ∧
        getRegistryCount (mapSetRef (getRegistry σ regRef).1 (getRegistry σ regRef).2 k r)
          regRef = getRegistryCount σ regRef ∧
        (∀ html, restoreComponents
            (materialize (mapSetRef (getRegistry σ regRef).1 (getRegistry σ regRef).2 k r)
              regRef) html =
          restoreComponents (materialize σ regRef) html)) ∧
      (∀ k,
        mapsGet (mapDeleteRef (getRegistry σ regRef).1 (getRegistry σ regRef).2 k) regRef =
          mapsGet σ regRef ∧
        getRegistryCount (mapDeleteRef (getRegistry σ regRef).1 (getRegistry σ regRef).2 k)
          regRef = getRegistryCount σ regRef ∧
        (∀ html, restoreComponents
            (materialize (mapDeleteRef (getRegistry σ regRef).1 (getRegistry σ regRef).2 k)
              regRef) html =
          restoreComponents (materialize σ regRef) html)) ∧
      (∀ a v,
        materialize (recSetHtml (getRegistry σ regRef).1 a v) (getRegistry σ regRef).2 =
          materialize (recSetHtml (getRegistry σ regRef).1 a v) regRef) := by
  intro σ regRef h
  have hne : σ.nextRef ≠ regRef := by omega
  simp only [show (getRegistry σ regRef).2 = σ.nextRef from rfl]
  have hcopy : mapsGet (getRegistry σ regRef).1 σ.nextRef = mapsGet σ regRef := by
    simp [getRegistry, mapsGet, List.find?]
  have horig : mapsGet (getRegistry σ regRef).1 regRef = mapsGet σ regRef := by
    simp [getRegistry, mapsGet, List.find?, hne]
  refine ⟨hne, hcopy, horig, ?_, ?_, ?_⟩
  · intro k r
    have h1 : mapsGet (mapSetRef (getRegistry σ regRef).1 σ.nextRef k r) regRef =
        mapsGet σ regRef := by
      rw [mapsGet_mapSetRef_other _ _ _ _ _ (Ne.symm hne)]
      exact horig
    refine ⟨h1, by simp [getRegistryCount, h1], ?_⟩
    intro html
    have := materialize_of_eq (mapSetRef (getRegistry σ regRef).1 σ.nextRef k r) σ
      regRef regRef h1 rfl
    rw [this]
  · intro k
    have h1 : mapsGet (mapDeleteRef (getRegistry σ regRef).1 σ.nextRef k) regRef =
        mapsGet σ regRef := by
      rw [mapsGet_mapDeleteRef_other _ _ _ _ (Ne.symm hne)]
      exact horig
    refine ⟨h1, by simp [getRegistryCount, h1], ?_⟩
    intro html
    have := materialize_of_eq (mapDeleteRef (getRegistry σ regRef).1 σ.nextRef k) σ
      regRef regRef h1 rfl
    rw [this]
  · intro a v
    apply materialize_of_eq _ _ _ _ _ rfl
    show mapsGet (recSetHtml (getRegistry σ regRef).1 a v) σ.nextRef =
      mapsGet (recSetHtml (getRegistry σ regRef).1 a v) regRef
    have e1 : mapsGet (recSetHtml (getRegistry σ regRef).1 a v) σ.nextRef =
        mapsGet (getRegistry σ regRef).1 σ.nextRef := rfl
    have e2 : mapsGet (recSetHtml (getRegistry σ regRef).1 a v) regRef =
        mapsGet (getRegistry σ regRef).1 regRef := rfl
    rw [e1, e2, hcopy, horig]

/-- Witness for C9 at a one-entry heap. -/
theorem C9_get_registry_defensive_copy_witness :
    ((getRegistry ⟨[(0, [(lc "7", 1)])],
        [(1, ⟨lc "TABLE", lc "<table></table>", lc "<table></table>", lc "preview", 0⟩)], 2⟩
        0).2 ≠ 0) ∧
    mapsGet (mapSetRef (getRegistry ⟨[(0, [(lc "7", 1)])],
        [(1, ⟨lc "TABLE", lc "<table></table>", lc "<table></table>", lc "preview", 0⟩)], 2⟩
        0).1 (getRegistry ⟨[(0, [(lc "7", 1)])],
        [(1, ⟨lc "TABLE", lc "<table></table>", lc "<table></table>", lc "preview", 0⟩)], 2⟩
        0).2 (lc "9") 1) 0 =
      mapsGet ⟨[(0, [(lc "7", 1)])],
        [(1, ⟨lc "TABLE", lc "<table></table>", lc "<table></table>", lc "preview", 0⟩)], 2⟩ 0 := by
  refine ⟨(C9_get_registry_defensive_copy _ 0 (by decide)).1,
    ((C9_get_registry_defensive_copy _ 0 (by decide)).2.2.2.1 (lc "9") 1).1⟩

/-- C10 (implicit): `insertComponent` returns `null` and changes nothing when
no editor instance exists; otherwise it allocates a fresh identifier, stores a
record with the source's defaults — `type` falls back to `CUSTOM` (a value
outside the closed type enumeration) when absent, `html` to the empty string,
`preview` to a copy of the html when not supplied, `displayMode` to the
engine's current default — and returns the identifier. -/
theorem C10_insert_component_defaults :
    ∀ (st : EngineState) (data : ComponentData),
      insertComponent false st data = (none, st) ∧
      (insertComponent true st data).1 = some (idString st.nextId) ∧
      (∃ c, regGet (insertComponent true st data).2.registry (idString st.nextId) =
          some c ∧
        (data.ctype = none → c.ctype = lc "CUSTOM") ∧
        (data.html = none → c.html = []) ∧
        (data.preview = none → c.preview = c.html) ∧
        (data.displayMode = none → c.displayMode = st.defaultMode) ∧
        c.created = st.nextId) ∧
      lc "CUSTOM" ∉ [lc "TABLE", lc "STYLED_DIV", lc "BLOCKQUOTE", lc "HR",
        lc "CODE_BLOCK", lc "SIGNATURE", lc "CHOICE_FIELD", lc "ENTRY_FIELD",
        lc "CHART", lc "CODE", lc "RAW_HTML"] ∧
      (IdsBelow st → idString st.nextId ∉ regKeys st.registry) := by
  intro st data
  refine ⟨by simp [insertComponent], by simp [insertComponent], ?_, by decide, ?_⟩
  · refine ⟨_, by simp [insertComponent]; exact regGet_regSet_self _ _ _, ?_, ?_, ?_, ?_, rfl⟩
    · intro h; simp [h, jsOrStr]
    · intro h; simp [h, jsOrStr]
    · intro h; simp [h, jsOrStr]
    · intro h; simp [h, jsOrStr]
  · intro hB hmem
    obtain ⟨m, hm, he⟩ := hB _ hmem
    have := idString_inj _ _ he
    omega

/-- Witness for C10 on a fresh engine and a componentData with only `html`
supplied. -/
theorem C10_insert_component_defaults_witness :
    insertComponent false engine0 ⟨none, some (lc "<b>x</b>"), none, none⟩ =
      (none, engine0) ∧
    (insertComponent true engine0 ⟨none, some (lc "<b>x</b>"), none, none⟩).1 =
      some (idString 0) ∧
    idString 0 ∉ regKeys engine0.registry := by
  have h := C10_insert_component_defaults engine0 ⟨none, some (lc "<b>x</b>"), none, none⟩
  exact ⟨h.1, h.2.1, h.2.2.2.2 (fun k hk => by simp [engine0, regKeys] at hk)⟩

/-- Extraction is the identity (and creates nothing) on rendered
text/placeholder documents: no stage's pattern matches anywhere. -/
theorem extract_txtph_identity (st' : EngineState) (d' : List PSeg)
    (hOk : ∀ seg ∈ d', PSegOk seg)
    (hsh : ∀ seg ∈ d', isTxtSeg seg = true ∨ isPhSeg seg = true)
    (hmode : st'.defaultMode = lc "preview") :
    extractComponents st' (renderPDoc d') = (st', renderPDoc d', []) := by
  by_cases hne : renderPDoc d' = []
  · rw [hne]
    rfl
  · rw [extractComponents_doc st' d' hOk hmode hne,
      pipelineDoc_txtph st' d' hsh]

/-- C1 (amended scope made precise): round-trip.  For a document made of
`<`-free text runs and complete recognized component spans (the "no nesting
ambiguity" reading: spans' inner content is `<`-free), restoring the
extraction pipeline's placeholder-bearing output against the registry
populated by that same extraction call reproduces the original HTML
exactly. -/
theorem C1_extract_restore_round_trip (st : EngineState) (d : List PSeg)
    (hOk : ∀ seg ∈ d, PSegOk seg)
    (hnoph : ∀ seg ∈ d, isPhSeg seg = false)
    (hmode : st.defaultMode = lc "preview") :
    restoreComponents (extractComponents st (renderPDoc d)).1.registry
      (extractComponents st (renderPDoc d)).2.1 = renderPDoc d := by
  by_cases hne : renderPDoc d = []
  · rw [hne]
    rfl
  · rw [extractComponents_doc st d hOk hmode hne]
    show restoreComponents (pipelineDoc st d).1.engine.registry
      (renderPDoc (pipelineDoc st d).2) = renderPDoc d
    rw [restoreComponents_doc (pipelineDoc st d).2
      (pipelineDoc st d).1.engine.registry (pipelineDoc_shape st d)
      (pipelineDoc_ok st d hOk)]
    exact pipelineDoc_restoreView st d hnoph

theorem C1_extract_restore_round_trip_witness :
    restoreComponents
      (extractComponents engine0
        (renderPDoc [PSeg.ptxt (lc "A"), PSeg.ptable (lc "x"),
          PSeg.phr])).1.registry
      (extractComponents engine0
        (renderPDoc [PSeg.ptxt (lc "A"), PSeg.ptable (lc "x"),
          PSeg.phr])).2.1 =
      renderPDoc [PSeg.ptxt (lc "A"), PSeg.ptable (lc "x"), PSeg.phr] :=
  C1_extract_restore_round_trip engine0
    [PSeg.ptxt (lc "A"), PSeg.ptable (lc "x"), PSeg.phr]
    (by
      intro seg hs
      simp only [List.mem_cons, List.not_mem_nil, or_false] at hs
      rcases hs with rfl | rfl | rfl
      · exact (by decide : ltFree (lc "A") = true)
      · exact (by decide : ltFree (lc "x") = true)
      · exact trivial)
    (by decide)
    rfl

/-- C2 (amended): on any rendered text/placeholder document, restoration
acts segmentwise — text verbatim, a placeholder with a known id replaced by
the registry entry's `html` verbatim, a placeholder with an unknown id
replaced by the visible missing-component marker; nothing is dropped and
nothing fails. -/
theorem C2_missing_marker_amended (d : List PSeg) (reg : Registry)
    (hshape : ∀ seg ∈ d, isTxtSeg seg = true ∨ isPhSeg seg = true)
    (hOk : ∀ seg ∈ d, PSegOk seg) :
    restoreComponents reg (renderPDoc d) = restoreView reg d :=
  restoreComponents_doc d reg hshape hOk

theorem C2_missing_marker_amended_witness :
    restoreComponents []
        (renderPDoc [PSeg.ptxt (lc "x"), PSeg.pph (lc "7") (lc "TABLE")]) =
      restoreView [] [PSeg.ptxt (lc "x"), PSeg.pph (lc "7") (lc "TABLE")] ∧
    restoreView [] [PSeg.ptxt (lc "x"), PSeg.pph (lc "7") (lc "TABLE")] =
      lc "x" ++ missingMarker (lc "7") :=
  ⟨C2_missing_marker_amended [PSeg.ptxt (lc "x"), PSeg.pph (lc "7") (lc "TABLE")]
    []
    (by decide)
    (by
      intro seg hs
      simp only [List.mem_cons, List.not_mem_nil, or_false] at hs
      rcases hs with rfl | rfl
      · exact (by decide : ltFree (lc "x") = true)
      · exact ⟨by decide, by decide⟩),
   by decide⟩

/-- C3 (amended): extraction is idempotent on extraction's own output.  A
second `extractComponents` call on the processed html of a first call (run
against the engine state that call returned) creates no components and
returns its input unchanged. -/
theorem C3_idempotence_amended (st : EngineState) (d : List PSeg)
    (hOk : ∀ seg ∈ d, PSegOk seg)
    (hmode : st.defaultMode = lc "preview") :
    extractComponents (extractComponents st (renderPDoc d)).1
      (extractComponents st (renderPDoc d)).2.1 =
      ((extractComponents st (renderPDoc d)).1,
       (extractComponents st (renderPDoc d)).2.1, []) := by
  by_cases hne : renderPDoc d = []
  · rw [hne]
    rfl
  · rw [extractComponents_doc st d hOk hmode hne]
    show extractComponents (pipelineDoc st d).1.engine
        (renderPDoc (pipelineDoc st d).2) =
      ((pipelineDoc st d).1.engine, renderPDoc (pipelineDoc st d).2, [])
    exact extract_txtph_identity (pipelineDoc st d).1.engine
      (pipelineDoc st d).2 (pipelineDoc_ok st d hOk)
      (pipelineDoc_shape st d) (pipelineDoc_mode st d hmode)

theorem C3_idempotence_amended_witness :
    extractComponents
        (extractComponents engine0 (renderPDoc [PSeg.ptable (lc "y")])).1
        (extractComponents engine0 (renderPDoc [PSeg.ptable (lc "y")])).2.1 =
      ((extractComponents engine0 (renderPDoc [PSeg.ptable (lc "y")])).1,
       (extractComponents engine0 (renderPDoc [PSeg.ptable (lc "y")])).2.1,
       []) :=
  C3_idempotence_amended engine0 [PSeg.ptable (lc "y")]
    (by
      intro seg hs
      simp only [List.mem_cons, List.not_mem_nil, or_false] at hs
      subst hs
      exact (by decide : ltFree (lc "y") = true))
    rfl

/-- No `</div>` token starts anywhere inside the rendering of a text run or
a complete pre/blockquote/table/hr span. -/
theorem skip_for_divclose (seg : PSeg) (hOk : PSegOk seg)
    (hdiv : isDivSeg seg = false) (hph : isPhSeg seg = false) :
    ∀ rest i, i < (renderP seg).length →
      matchSeq true divCloseTokPat ((renderP seg ++ rest).drop i) = none := by
  cases seg with
  | ptxt s => exact fun rest i hi => ptxt_skip hOk rest i hi
  | pph id ty => exact absurd hph (by simp [isPhSeg])
  | ptable m =>
      exact fun rest i hi => ptable_skip hOk (by decide) (by decide) rest i hi
  | phr => exact fun rest i hi => phr_skip (by decide) rest i hi
  | pbq m =>
      exact fun rest i hi => pbq_skip hOk (by decide) (by decide) rest i hi
  | ppre m =>
      exact fun rest i hi => ppre_skip hOk (by decide) (by decide) rest i hi
  | pdiv m => exact absurd hdiv (by simp [isDivSeg])

/-! The four stages over an unmodified `c5u` prefix: the unterminated
opening is passed over by every one of the later patterns. -/

theorem stage_pre_c5 {d : List PSeg} {st : ExtractSt}
    (hOk : ∀ seg ∈ d, PSegOk seg)
    (hdiv : ∀ seg ∈ d, isDivSeg seg = false)
    (hmode : st.engine.defaultMode = lc "preview") :
    replaceSt true styledPrePat (extractCallback (lc "CODE_BLOCK")) st
      (c5u ++ renderPDoc d) =
      ((stageGo isPreSeg (lc "CODE_BLOCK") st d).1,
       c5u ++ renderPDoc (stageGo isPreSeg (lc "CODE_BLOCK") st d).2) := by
  have ha := @replaceSt_append_skip ExtractSt true styledPrePat
    (extractCallback (lc "CODE_BLOCK")) c5u (renderPDoc d)
    (fun i hi => one_part_skip (by decide) (renderPDoc d) i hi) st
  rw [ha, stage_pre hOk hdiv hmode]

theorem stage_bq_c5 {d : List PSeg} {st : ExtractSt}
    (hOk : ∀ seg ∈ d, PSegOk seg)
    (hdiv : ∀ seg ∈ d, isDivSeg seg = false)
    (hpre : ∀ seg ∈ d, isPreSeg seg = false)
    (hmode : st.engine.defaultMode = lc "preview") :
    replaceSt true blockquotePat (extractCallback (lc "BLOCKQUOTE")) st
      (c5u ++ renderPDoc d) =
      ((stageGo isBqSeg (lc "BLOCKQUOTE") st d).1,
       c5u ++ renderPDoc (stageGo isBqSeg (lc "BLOCKQUOTE") st d).2) := by
  have ha := @replaceSt_append_skip ExtractSt true blockquotePat
    (extractCallback (lc "BLOCKQUOTE")) c5u (renderPDoc d)
    (fun i hi => one_part_skip (by decide) (renderPDoc d) i hi) st
  rw [ha, stage_bq hOk hdiv hpre hmode]

theorem stage_table_c5 {d : List PSeg} {st : ExtractSt}
    (hOk : ∀ seg ∈ d, PSegOk seg)
    (hdiv : ∀ seg ∈ d, isDivSeg seg = false)
    (hpre : ∀ seg ∈ d, isPreSeg seg = false)
    (hbq : ∀ seg ∈ d, isBqSeg seg = false)
    (hmode : st.engine.defaultMode = lc "preview") :
    replaceSt true tablePat (extractCallback (lc "TABLE")) st
      (c5u ++ renderPDoc d) =
      ((stageGo isTableSeg (lc "TABLE") st d).1,
       c5u ++ renderPDoc (stageGo isTableSeg (lc "TABLE") st d).2) := by
  have ha := @replaceSt_append_skip ExtractSt true tablePat
    (extractCallback (lc "TABLE")) c5u (renderPDoc d)
    (fun i hi => one_part_skip (by decide) (renderPDoc d) i hi) st
  rw [ha, stage_table hOk hdiv hpre hbq hmode]

theorem stage_hr_c5 {d : List PSeg} {st : ExtractSt}
    (hOk : ∀ seg ∈ d, PSegOk seg)
    (hdiv : ∀ seg ∈ d, isDivSeg seg = false)
    (hpre : ∀ seg ∈ d, isPreSeg seg = false)
    (hbq : ∀ seg ∈ d, isBqSeg seg = false)
    (htab : ∀ seg ∈ d, isTableSeg seg = false)
    (hmode : st.engine.defaultMode = lc "preview") :
    replaceSt true hrPat (extractCallback (lc "HR")) st
      (c5u ++ renderPDoc d) =
      ((stageGo isHrSeg (lc "HR") st d).1,
       c5u ++ renderPDoc (stageGo isHrSeg (lc "HR") st d).2) := by
  have ha := @replaceSt_append_skip ExtractSt true hrPat
    (extractCallback (lc "HR")) c5u (renderPDoc d)
    (fun i hi => one_part_skip (by decide) (renderPDoc d) i hi) st
  rw [ha, stage_hr hOk hdiv hpre hbq htab hmode]

/-- C5 (amended): fail-closed on an unterminated styled-div opening, without
losing the later stages' matches.  For any continuation document of text
runs and complete pre/blockquote/table/hr spans (no further div markup, so
the aborted depth scan finds no closing token), extraction terminates, the
unterminated opening `c5u` is left byte-for-byte unmodified at the front of
the output, the rest of the document is processed exactly as the four later
stages process it stagewise, and no complete pre, blockquote, table or hr
span survives to the output: every match of those categories is extracted.
(A later complete *styled-div* match is nevertheless lost — the
counterexample.) -/
theorem C5_fail_closed_amended (d : List PSeg)
    (hOk : ∀ seg ∈ d, PSegOk seg)
    (hsh : ∀ seg ∈ d, isDivSeg seg = false ∧ isPhSeg seg = false) :
    extractComponents engine0 (c5u ++ renderPDoc d) =
      ((pipeline4 engine0 d).1.engine,
       c5u ++ renderPDoc (pipeline4 engine0 d).2,
       (pipeline4 engine0 d).1.newComps) ∧
    ∀ seg ∈ (pipeline4 engine0 d).2,
      isPreSeg seg = false ∧ isBqSeg seg = false ∧
      isTableSeg seg = false ∧ isHrSeg seg = false := by
  have hne : c5u ++ renderPDoc d ≠ [] := by
    intro h
    have hl := congrArg List.length h
    simp only [List.length_append, List.length_nil] at hl
    rw [show c5u.length = 26 from by decide] at hl
    omega
  have hfind : execFind true styledDivStartPat (c5u ++ renderPDoc d) =
      some (0, 26, none) :=
    execFind_hit (styledDivOpen_hit (renderPDoc d))
  have hclose : execFind true divCloseTokPat (renderPDoc d) = none :=
    execFind_none_of_skips d
      (fun seg hs rest i hi =>
        skip_for_divclose seg (hOk seg hs) (hsh seg hs).1 (hsh seg hs).2
          rest i hi)
  have hdrop26 : (c5u ++ renderPDoc d).drop (0 + 26) = renderPDoc d := by
    rw [show (0 + 26 : Nat) = c5u.length from by decide, List.drop_left]
  have hscan : divScan (c5u ++ renderPDoc d) 1 (0 + 26) = none := by
    by_cases hlt : (0 + 26 : Nat) < (c5u ++ renderPDoc d).length
    · rw [divScan, dif_pos hlt]
      simp only [hdrop26, hclose]
    · rw [divScan, dif_neg hlt]
  have h1 : extractStyledDivs ⟨engine0, []⟩ (c5u ++ renderPDoc d) =
      (⟨engine0, []⟩, c5u ++ renderPDoc d) := by
    rw [extractStyledDivs, extractStyledDivsGo]
    simp only [hfind, hscan]
  have hmode0 : (⟨engine0, []⟩ : ExtractSt).engine.defaultMode =
      lc "preview" := rfl
  have hdiv0 : ∀ seg ∈ d, isDivSeg seg = false := fun seg hs => (hsh seg hs).1
  have h2 := stage_pre_c5 hOk hdiv0 hmode0
  have hmode1 := stageGo_mode isPreSeg (lc "CODE_BLOCK") hOk hmode0
  have hOk1 := stageGo_ok2 isPreSeg (lc "CODE_BLOCK") (by decide) hOk hmode0
  have hdiv1 := stageGo_preserves2 isPreSeg (lc "CODE_BLOCK") isDivSeg
    (fun i t => rfl) hdiv0 hmode0
  have hpre1 := stageGo_removes2 isPreSeg (lc "CODE_BLOCK")
    (fun i t => rfl) hOk hmode0
  have h3 := stage_bq_c5 hOk1 hdiv1 hpre1 hmode1
  have hmode2 := stageGo_mode isBqSeg (lc "BLOCKQUOTE") hOk1 hmode1
  have hOk2 := stageGo_ok2 isBqSeg (lc "BLOCKQUOTE") (by decide) hOk1 hmode1
  have hdiv2 := stageGo_preserves2 isBqSeg (lc "BLOCKQUOTE") isDivSeg
    (fun i t => rfl) hdiv1 hmode1
  have hpre2 := stageGo_preserves2 isBqSeg (lc "BLOCKQUOTE") isPreSeg
    (fun i t => rfl) hpre1 hmode1
  have hbq2 := stageGo_removes2 isBqSeg (lc "BLOCKQUOTE")
    (fun i t => rfl) hOk1 hmode1
  have h4 := stage_table_c5 hOk2 hdiv2 hpre2 hbq2 hmode2
  have hmode3 := stageGo_mode isTableSeg (lc "TABLE") hOk2 hmode2
  have hOk3 := stageGo_ok2 isTableSeg (lc "TABLE") (by decide) hOk2 hmode2
  have hdiv3 := stageGo_preserves2 isTableSeg (lc "TABLE") isDivSeg
    (fun i t => rfl) hdiv2 hmode2
  have hpre3 := stageGo_preserves2 isTableSeg (lc "TABLE") isPreSeg
    (fun i t => rfl) hpre2 hmode2
  have hbq3 := stageGo_preserves2 isTableSeg (lc "TABLE") isBqSeg
    (fun i t => rfl) hbq2 hmode2
  have htab3 := stageGo_removes2 isTableSeg (lc "TABLE")
    (fun i t => rfl) hOk2 hmode2
  have h5 := stage_hr_c5 hOk3 hdiv3 hpre3 hbq3 htab3 hmode3
  constructor
  · simp only [extractComponents]
    rw [if_neg hne]
    simp only [h1, h2, h3, h4, h5, pipeline4]
  · intro seg hs
    simp only [pipeline4] at hs
    have hpreF := stageGo_preserves2 isHrSeg (lc "HR") isPreSeg
      (fun i t => rfl) hpre3 hmode3
    have hbqF := stageGo_preserves2 isHrSeg (lc "HR") isBqSeg
      (fun i t => rfl) hbq3 hmode3
    have htabF := stageGo_preserves2 isHrSeg (lc "HR") isTableSeg
      (fun i t => rfl) htab3 hmode3
    have hhrF := stageGo_removes2 isHrSeg (lc "HR")
      (fun i t => rfl) hOk3 hmode3
    exact ⟨hpreF seg hs, hbqF seg hs, htabF seg hs, hhrF seg hs⟩

theorem C5_fail_closed_amended_witness :
    extractComponents engine0 (c5u ++ renderPDoc c5doc) =
      ((pipeline4 engine0 c5doc).1.engine,
       c5u ++ renderPDoc (pipeline4 engine0 c5doc).2,
       (pipeline4 engine0 c5doc).1.newComps) ∧
    ∀ seg ∈ (pipeline4 engine0 c5doc).2,
      isPreSeg seg = false ∧ isBqSeg seg = false ∧
      isTableSeg seg = false ∧ isHrSeg seg = false :=
  C5_fail_closed_amended c5doc
    (by
      intro seg hs
      simp only [c5doc, List.mem_cons, List.not_mem_nil, or_false] at hs
      rcases hs with rfl | rfl | rfl | rfl | rfl
      · exact (by decide : ltFree (lc "p") = true)
      · exact (by decide : ltFree (lc "t") = true)
      · exact (by decide : ltFree (lc "q") = true)
      · exact (by decide : ltFree (lc "u") = true)
      · exact trivial)
    (by decide)
